import Mathlib

/-!
# EDXGui interaction logic

A shallow embedding of the widget interaction code of
`EDXUtil/Graphics/EDXGui.cpp`: the immediate-mode widgets that share one
`GuiStates` record (`EDXGui::Button`, `CheckBox`, `ComboBox`, `InputText`, ...)
and the retained controls (`Slider`, ...).

Conventions of the embedding.

* `int` values are `Int`; the arithmetic of the widgets stays far away from the
  32-bit range for any screen-sized input, so no wrap-around is modelled.
* Every widget function takes the `GuiStates` record on entry and returns the
  record on exit together with its by-reference outputs.
* Drawing calls (`GUIPainter`, `gl*`) have no effect on the interaction state
  and are left out; the one service whose result feeds back, the measured
  character width, is a field of `Env`.
* The key handling of `InputText` indexes the width array and edits the
  working string at positions taken from the shared record. Where C++ leaves
  such an operation undefined or throws (an out-of-range `operator[]`,
  `*rbegin()` of an empty vector, `erase`/`insert` past the end), the embedded
  function returns `none`.
-/

namespace EDX
namespace GUI

/-! ## Types declared in the headers -/

/-- Mouse actions tested by the widgets (`MouseAction` of the event header). -/
inductive MouseAction where
  | None
  | Move
  | LButtonDown
  | LButtonUp
  | LButtonDbClick
  deriving DecidableEq, Repr

/-- Fields of `MouseEventArgs` read by the widgets. -/
structure MouseEventArgs where
  x : Int
  y : Int
  Action : MouseAction
  lDown : Bool
  deriving DecidableEq, Repr

/-- Fields of `KeyboardEventArgs` read by the widgets. -/
structure KeyboardEventArgs where
  key : Char
  ctrlDown : Bool
  deriving DecidableEq, Repr

/-- Layout presets of `BeginDialog`. -/
inductive LayoutStrategy where
  | DockLeft
  | DockRight
  | Floating
  deriving DecidableEq, Repr

/-- Growth direction of the layout cursor. -/
inductive GrowthStrategy where
  | Vertical
  | Horizontal
  deriving DecidableEq, Repr

/-- Win32 `RECT`. -/
structure RECT where
  left : Int
  top : Int
  right : Int
  bottom : Int
  deriving DecidableEq, Repr

/-- Win32 `POINT`. -/
structure POINT where
  x : Int
  y : Int
  deriving DecidableEq, Repr

/-- Win32 `SetRect`: fills the four bounds in the order left, top, right, bottom. -/
def SetRect (xLeft yTop xRight yBottom : Int) : RECT :=
  { left := xLeft, top := yTop, right := xRight, bottom := yBottom }

/-- Win32 `PtInRect`: the left and top sides are inside, the right and bottom
sides are outside. -/
def PtInRect (rc : RECT) (pt : POINT) : Bool :=
  decide (rc.left ≤ pt.x ∧ pt.x < rc.right ∧ rc.top ≤ pt.y ∧ pt.y < rc.bottom)

/-- Modelled from the spec: `Math::Min` of `EDXMath.h`, which is not among the
sources; the smaller of the two arguments. -/
def Math.Min {α : Type} [LinearOrder α] (a b : α) : α :=
  if a < b then a else b

/-- Modelled from the spec: `Math::Max` of `EDXMath.h`, which is not among the
sources; the larger of the two arguments. -/
def Math.Max {α : Type} [LinearOrder α] (a b : α) : α :=
  if a > b then a else b

/-- Modelled from the spec: `Math::Clamp` of `EDXMath.h`, which is not among the
sources; `lo` when the value is below `lo`, `hi` when it is above `hi`, and the
value itself otherwise. -/
def Math.Clamp {α : Type} [LT α] [DecidableRel (α := α) (· < ·)] (v lo hi : α) : α :=
  if v < lo then lo else if v > hi then hi else v

/-- Values of the `Key` enumeration used by `InputText`, as `char` codes. The
enumeration is declared in a header that is not among the sources, so the codes
are parameters. -/
structure KeyCodes where
  None : Char
  LeftArrow : Char
  RightArrow : Char
  BackSpace : Char
  Home : Char
  End : Char
  deriving DecidableEq, Repr

/-- What the widget code takes from outside the file: the `Padding` constant of
the header, the `Key` codes, and the width `GetTextExtentPoint32A` measures for
one character in the GUI font. -/
structure Env where
  Padding : Int
  Key : KeyCodes
  textExtentCx : Char → Int

/-- The shared interaction record `GuiStates` (fields as used by `EDXGui.cpp`). -/
structure GuiStates where
  CurrentId : Int
  HoveredId : Int
  ActiveId : Int
  EditingId : Int
  GlobalMouseState : MouseEventArgs
  MouseState : MouseEventArgs
  KeyState : KeyboardEventArgs
  CurrentLayoutStrategy : LayoutStrategy
  CurrentGrowthStrategy : GrowthStrategy
  ScreenWidth : Int
  ScreenHeight : Int
  DialogWidth : Int
  DialogHeight : Int
  DialogPosX : Int
  DialogPosY : Int
  CurrentPosX : Int
  CurrentPosY : Int
  WidgetEndX : Int
  BufferedString : List Char
  StrWidthPrefixSum : List Int
  CursorPos : Int
  CursorIdx : Int
  SelectIdx : Int
  deriving DecidableEq, Repr

namespace EDXGui

/-! ## Frame bracket -/

/-- `EDXGui::BeginFrame`. -/
def BeginFrame (s : GuiStates) : GuiStates :=
  { s with CurrentId := 0, HoveredId := -1 }

/-- `EDXGui::EndFrame`. -/
def EndFrame (env : Env) (s : GuiStates) : GuiStates :=
  { s with
    GlobalMouseState := { s.GlobalMouseState with Action := MouseAction.None }
    KeyState := { s.KeyState with key := env.Key.None } }

/-- `EDXGui::HandleMouseEvent`. -/
def HandleMouseEvent (s : GuiStates) (mouseArgs : MouseEventArgs) : GuiStates :=
  { s with GlobalMouseState := mouseArgs }

/-- `EDXGui::HandleKeyboardEvent`. -/
def HandleKeyboardEvent (s : GuiStates) (keyArgs : KeyboardEventArgs) : GuiStates :=
  { s with KeyState := keyArgs }

/-- `EDXGui::BeginDialog`: fixes the dialog placement and the layout cursor for
the chosen strategy, then copies the global mouse snapshot into dialog-local
coordinates. -/
def BeginDialog (s : GuiStates) (layoutStrategy : LayoutStrategy)
    (x y dialogWidth dialogHeight : Int) : GuiStates :=
  let s1 : GuiStates :=
    { s with CurrentLayoutStrategy := layoutStrategy
             CurrentGrowthStrategy := GrowthStrategy.Vertical }
  let s2 : GuiStates :=
    match layoutStrategy with
    | LayoutStrategy.DockRight =>
      { s1 with DialogWidth := 200, DialogHeight := s1.ScreenHeight
                DialogPosX := s1.ScreenWidth - 200, DialogPosY := 0
                CurrentPosX := 25, CurrentPosY := 25, WidgetEndX := 200 - 25 }
    | LayoutStrategy.DockLeft =>
      { s1 with DialogWidth := 200, DialogHeight := s1.ScreenHeight
                DialogPosX := 0, DialogPosY := 0
                CurrentPosX := 25, CurrentPosY := 25, WidgetEndX := 200 - 25 }
    | LayoutStrategy.Floating =>
      { s1 with DialogWidth := dialogWidth, DialogHeight := dialogHeight
                DialogPosX := x, DialogPosY := y
                CurrentPosX := 30, CurrentPosY := 30, WidgetEndX := dialogWidth - 30 }
  { s2 with
    MouseState :=
      { s2.GlobalMouseState with
        x := s2.GlobalMouseState.x - s2.DialogPosX
        y := s2.GlobalMouseState.y - s2.DialogPosY } }

/-- The layout step that ends every widget: the cursor moves down by the
widget height plus `Padding` under vertical growth and right by 5 otherwise. -/
def advance (env : Env) (s : GuiStates) (height : Int) : GuiStates :=
  if s.CurrentGrowthStrategy = GrowthStrategy.Vertical then
    { s with CurrentPosY := s.CurrentPosY + (height + env.Padding) }
  else
    { s with CurrentPosX := s.CurrentPosX + 5 }

/-! ## Stateless widgets -/

/-- `EDXGui::Text`: takes one id and advances the layout cursor by the text
height 10. -/
def Text (env : Env) (s : GuiStates) : GuiStates :=
  let s1 : GuiStates := { s with CurrentId := s.CurrentId + 1 }
  advance env s1 10

/-- Number of entries `lineIdx` holds after the line-breaking loop of
`MultilineText` has consumed `buff`: a new line starts at every newline and
whenever the running line width reaches the free width `limit`. -/
def MultilineText.lineCount (env : Env) (limit : Int) : List Char → Int → Int → Int
  | [], _, lines => lines
  | c :: rest, lineLength, lines =>
    if c = '\n' then
      MultilineText.lineCount env limit rest 0 (lines + 1)
    else
      let lineLength1 := lineLength + env.textExtentCx c
      if lineLength1 < limit then
        MultilineText.lineCount env limit rest lineLength1 lines
      else
        MultilineText.lineCount env limit rest 0 (lines + 1)

/-- `EDXGui::MultilineText` on the formatted text `buff`: takes one id and
advances the layout cursor by 16 per line. -/
def MultilineText (env : Env) (s : GuiStates) (buff : List Char) : GuiStates :=
  let s1 : GuiStates := { s with CurrentId := s.CurrentId + 1 }
  let lines := MultilineText.lineCount env (s1.WidgetEndX - s1.CurrentPosX) buff 0 1
  advance env s1 (lines * 16)

/-! ## Click widgets -/

/-- The point `mousePt` every widget builds from the dialog-local mouse state. -/
def mousePt (s : GuiStates) : POINT :=
  { x := s.MouseState.x, y := s.MouseState.y }

/-- The rectangle `headerRect` of `EDXGui::CollapsingHeader` at the layout
cursor of `s`. -/
def CollapsingHeader.rect (s : GuiStates) (collapsed : Bool) : RECT :=
  if collapsed then
    SetRect s.CurrentPosX s.CurrentPosY s.WidgetEndX (s.CurrentPosY + 30)
  else
    SetRect s.CurrentPosX s.CurrentPosY s.WidgetEndX (s.CurrentPosY + 11)

/-- The rectangle `btnRect` of `EDXGui::Button` at the layout cursor of `s`. -/
def Button.rect (s : GuiStates) (width height : Int) : RECT :=
  SetRect s.CurrentPosX s.CurrentPosY
    (Math.Min (s.CurrentPosX + width) s.WidgetEndX) (s.CurrentPosY + height)

/-- The rectangle `boxRect` of `EDXGui::CheckBox` and of `EDXGui::RadioButton`
(box size and circle diameter are both 12) at the layout cursor of `s`. -/
def boxRect (s : GuiStates) : RECT :=
  SetRect s.CurrentPosX s.CurrentPosY (s.CurrentPosX + 12) (s.CurrentPosY + 12)

/-- `EDXGui::CollapsingHeader`: returns the state, the updated `collapsed`
flag and the return value `!collapsed`. -/
def CollapsingHeader (env : Env) (s : GuiStates) (collapsed : Bool) :
    GuiStates × Bool × Bool :=
  let Id := s.CurrentId
  let s1 : GuiStates := { s with CurrentId := s.CurrentId + 1 }
  let inRect := PtInRect (CollapsingHeader.rect s1 collapsed) (mousePt s1)
  let s2 : GuiStates :=
    if inRect then
      { s1 with
        ActiveId := if s1.MouseState.Action = MouseAction.LButtonDown then Id else s1.ActiveId
        HoveredId := Id }
    else s1
  let release := decide (s2.MouseState.Action = MouseAction.LButtonUp ∧ s2.ActiveId = Id)
  let s3 : GuiStates := if release then { s2 with ActiveId := -1 } else s2
  let collapsed1 := if release && inRect then !collapsed else collapsed
  let s4 : GuiStates :=
    if collapsed1 then s3 else { s3 with CurrentPosX := s3.CurrentPosX + 16 }
  let s5 := advance env s4 (if collapsed1 then 30 else 11)
  (s5, collapsed1, !collapsed1)

/-- `EDXGui::Button`: returns the state and the `trigger` flag. -/
def Button (env : Env) (s : GuiStates) (width height : Int) : GuiStates × Bool :=
  let Id := s.CurrentId
  let s1 : GuiStates := { s with CurrentId := s.CurrentId + 1 }
  let inRect := PtInRect (Button.rect s1 width height) (mousePt s1)
  let s2 : GuiStates :=
    if inRect then
      { s1 with
        ActiveId := if s1.MouseState.Action = MouseAction.LButtonDown then Id else s1.ActiveId
        HoveredId := Id }
    else s1
  let release := decide (s2.MouseState.Action = MouseAction.LButtonUp ∧ s2.ActiveId = Id)
  let s3 : GuiStates := if release then { s2 with ActiveId := -1 } else s2
  let trigger := release && inRect
  (advance env s3 height, trigger)

/-- `EDXGui::CheckBox`: returns the state and the updated `checked` flag. -/
def CheckBox (env : Env) (s : GuiStates) (checked : Bool) : GuiStates × Bool :=
  let Id := s.CurrentId
  let s1 : GuiStates := { s with CurrentId := s.CurrentId + 1 }
  if PtInRect (boxRect s1) (mousePt s1) then
    let s2 : GuiStates :=
      if s1.MouseState.Action = MouseAction.LButtonDown then { s1 with ActiveId := Id } else s1
    let release := decide (s2.MouseState.Action = MouseAction.LButtonUp ∧ s2.ActiveId = Id)
    let s3 : GuiStates := if release then { s2 with ActiveId := -1 } else s2
    let checked1 := if release then !checked else checked
    let s4 : GuiStates := { s3 with HoveredId := Id }
    (advance env s4 12, checked1)
  else
    let s2 : GuiStates :=
      if s1.MouseState.Action = MouseAction.Move ∧ s1.ActiveId = Id then
        { s1 with ActiveId := -1 }
      else s1
    (advance env s2 12, checked)

/-- `EDXGui::RadioButton`: returns the state and the updated `currentVal`. -/
def RadioButton (env : Env) (s : GuiStates) (activeVal currentVal : Int) : GuiStates × Int :=
  let Id := s.CurrentId
  let s1 : GuiStates := { s with CurrentId := s.CurrentId + 1 }
  if PtInRect (boxRect s1) (mousePt s1) then
    let s2 : GuiStates :=
      if s1.MouseState.Action = MouseAction.LButtonDown then { s1 with ActiveId := Id } else s1
    let release := decide (s2.MouseState.Action = MouseAction.LButtonUp ∧ s2.ActiveId = Id)
    let s3 : GuiStates := if release then { s2 with ActiveId := -1 } else s2
    let currentVal1 := if release then activeVal else currentVal
    let s4 : GuiStates := { s3 with HoveredId := Id }
    (advance env s4 12, currentVal1)
  else
    let s2 : GuiStates :=
      if s1.MouseState.Action = MouseAction.Move ∧ s1.ActiveId = Id then
        { s1 with ActiveId := -1 }
      else s1
    (advance env s2 12, currentVal)

/-! ## ComboBox -/

/-- The rectangle `mainRect` of `EDXGui::ComboBox` at the layout cursor of `s`. -/
def ComboBox.mainRect (s : GuiStates) : RECT :=
  SetRect s.CurrentPosX s.CurrentPosY s.WidgetEndX (s.CurrentPosY + 18)

/-- The dropdown rectangle `dropDownRect` of `EDXGui::ComboBox` at the layout
cursor of `s`. -/
def ComboBox.dropDownRect (s : GuiStates) (numItems : Int) : RECT :=
  SetRect s.CurrentPosX (s.CurrentPosY + 18) (s.WidgetEndX - 18)
    (s.CurrentPosY + 18 + 1 + numItems * 20)

/-- The row index `hoveredIdx` that `EDXGui::ComboBox` highlights while open. -/
def ComboBox.hoveredIdx (s : GuiStates) (numItems : Int) : Int :=
  Math.Clamp (Int.tdiv ((mousePt s).y - (ComboBox.dropDownRect s numItems).top) 20) 0
    (numItems - 1)

/-- `EDXGui::ComboBox`: returns the state and the updated `selected`. The item
labels only feed drawing and are left out. -/
def ComboBox (env : Env) (s : GuiStates) (numItems selected : Int) : GuiStates × Int :=
  let Id := s.CurrentId
  let s1 : GuiStates := { s with CurrentId := s.CurrentId + 1 }
  let s2 : GuiStates :=
    if PtInRect (ComboBox.mainRect s1) (mousePt s1) then
      { s1 with
        ActiveId :=
          if s1.MouseState.Action = MouseAction.LButtonDown then
            (if s1.ActiveId ≠ Id then Id else -1)
          else s1.ActiveId
        HoveredId := Id }
    else s1
  if s2.ActiveId = Id then
    let dropDownRect := ComboBox.dropDownRect s2 numItems
    if PtInRect dropDownRect (mousePt s1) ∧ s2.MouseState.Action = MouseAction.LButtonDown then
      let selected1 := Int.tdiv ((mousePt s1).y - dropDownRect.top) 20
      let s3 : GuiStates :=
        { s2 with
          ActiveId := -1
          HoveredId := Id
          MouseState := { s2.MouseState with Action := MouseAction.None } }
      (advance env s3 18, selected1)
    else
      (advance env s2 18, selected)
  else
    (advance env s2 18, selected)

/-! ## InputText -/

/-- Running sums pushed by the loop of `CalcCharWidthPrefixSum` after the
leading 0: `last` is the entry pushed before. -/
def CalcCharWidthPrefixSum.loop (env : Env) : List Char → Int → List Int
  | [], _ => []
  | c :: rest, last =>
    (env.textExtentCx c + last) :: CalcCharWidthPrefixSum.loop env rest (env.textExtentCx c + last)

/-- The lambda `CalcCharWidthPrefixSum` of `InputText`: the array it leaves in
`StrWidthPrefixSum` for the working string `str`. -/
def CalcCharWidthPrefixSum (env : Env) (str : List Char) : List Int :=
  0 :: CalcCharWidthPrefixSum.loop env str 0

/-- The loop of `std::lower_bound` over `v[first, first + count)`; the
recursion depth is bounded by the first argument. -/
def lower_bound.loop (v : List Int) (value : Int) : Nat → Nat → Nat → Nat
  | 0, first, _ => first
  | fuel + 1, first, count =>
    if count = 0 then first
    else
      let step := count / 2
      let it := first + step
      if v.getD it 0 < value then
        lower_bound.loop v value fuel (it + 1) (count - (step + 1))
      else
        lower_bound.loop v value fuel first step

/-- `std::lower_bound(v.begin(), v.end(), value) - v.begin()`. -/
def lower_bound (v : List Int) (value : Int) : Nat :=
  lower_bound.loop v value v.length 0 v.length

/-- The cursor lookup shared by the click and the drag branch: index and pixel
position of the entry before the lower bound of the click offset. The read
`*(charIt - 1)` happens only for `charIt` past `begin()` and never beyond
`end()`, so it stays inside the array. -/
def placeCursor (s : GuiStates) : GuiStates :=
  let distX := s.MouseState.x - (s.CurrentPosX + 3)
  let charIt := lower_bound s.StrWidthPrefixSum distX
  { s with
    CursorIdx := if charIt = 0 then 0 else (charIt : Int) - 1
    CursorPos := 4 + (if charIt = 0 then 0 else s.StrWidthPrefixSum.getD (charIt - 1) 0) }

/-- Focus entry shared by both click branches: the widget becomes active, the
working string is loaded from `buf` unless this widget is already editing, and
the width array is rebuilt. -/
def enterEdit (env : Env) (s : GuiStates) (Id : Int) (buf : List Char) : GuiStates :=
  let s1 : GuiStates := { s with ActiveId := Id }
  let s2 : GuiStates :=
    if s1.EditingId ≠ Id then { s1 with BufferedString := buf, EditingId := Id } else s1
  { s2 with StrWidthPrefixSum := CalcCharWidthPrefixSum env s2.BufferedString }

/-- The rectangle `rect` of `EDXGui::InputText` at the layout cursor of `s`. -/
def InputText.rect (s : GuiStates) (width : Int) : RECT :=
  SetRect s.CurrentPosX s.CurrentPosY
    (Math.Min (s.CurrentPosX + width) s.WidgetEndX) (s.CurrentPosY + 18)

/-- The branch of a double click, or of a click with `autoSelectAll`, inside
the rect: editing is entered, the cursor goes to the end of the string and the
selection anchor to 0. -/
def InputText.selectAll (env : Env) (s : GuiStates) (Id : Int) (buf : List Char) : GuiStates :=
  let e := enterEdit env s Id buf
  { e with
    CursorPos :=
      4 + (if e.BufferedString.length > 0 then e.StrWidthPrefixSum.getLastD 0 else 0)
    CursorIdx := e.BufferedString.length
    SelectIdx := 0 }

/-- The branch of a plain click inside the rect: editing is entered, the
cursor is placed under the pointer and the selection anchor on the cursor. -/
def InputText.click (env : Env) (s : GuiStates) (Id : Int) (buf : List Char) : GuiStates :=
  let e := placeCursor (enterEdit env s Id buf)
  { e with SelectIdx := e.CursorIdx }

/-- The branch of a click or double click outside the rect: an edit of this
widget is committed to the bound string and the widget stops being active. -/
def InputText.blur (s : GuiStates) (Id : Int) (buf : List Char) : GuiStates × List Char :=
  let r : GuiStates × List Char :=
    if s.EditingId = Id then ({ s with EditingId := -1 }, s.BufferedString) else (s, buf)
  (if r.1.ActiveId = Id then { r.1 with ActiveId := -1 } else r.1, r.2)

/-- The first `if` of `EDXGui::InputText`: the press handling inside and
outside the rect; returns the state and the bound string. -/
def InputText.press (env : Env) (s : GuiStates) (Id : Int) (rect : RECT) (buf : List Char)
    (autoSelectAll : Bool) : GuiStates × List Char :=
  if PtInRect rect (mousePt s) then
    let s1 : GuiStates :=
      if s.MouseState.Action = MouseAction.LButtonDbClick ∨
          (s.MouseState.Action = MouseAction.LButtonDown ∧ autoSelectAll = true) then
        InputText.selectAll env s Id buf
      else if s.MouseState.Action = MouseAction.LButtonDown then
        InputText.click env s Id buf
      else s
    ({ s1 with HoveredId := Id }, buf)
  else if s.MouseState.Action = MouseAction.LButtonDown ∨
      s.MouseState.Action = MouseAction.LButtonDbClick then
    InputText.blur s Id buf
  else (s, buf)

/-- The drag handling of `EDXGui::InputText`: while the button is held and this
widget is active, a Move places the cursor and leaves the anchor. -/
def InputText.drag (s : GuiStates) (Id : Int) : GuiStates :=
  if s.MouseState.Action = MouseAction.Move ∧ s.MouseState.lDown = true ∧ s.ActiveId = Id then
    placeCursor s
  else s

/-- The mouse part of `EDXGui::InputText` (press handling, then drag) for the
widget with id `Id` and rectangle `rect`; returns the state and the bound
string. -/
def InputText.mouse (env : Env) (s : GuiStates) (Id : Int) (rect : RECT) (buf : List Char)
    (autoSelectAll : Bool) : GuiStates × List Char :=
  let r := InputText.press env s Id rect buf autoSelectAll
  (InputText.drag r.1 Id, r.2)

/-- Read `v[i]` of a `vector<int>`; `none` outside the array. -/
def vecAt (v : List Int) (i : Int) : Option Int :=
  if 0 ≤ i then v[i.toNat]? else none

/-- The call `str.erase(pos, len)` of `std::string` for `len ≥ 0`: throws
(`none`) when `pos` is past the end. -/
def strErase (str : List Char) (pos len : Int) : Option (List Char) :=
  if 0 ≤ pos ∧ pos ≤ str.length then
    some (str.take pos.toNat ++ str.drop (pos.toNat + len.toNat))
  else none

/-- The call `str.insert(pos, 1, c)` of `std::string`: throws (`none`) when
`pos` is past the end. -/
def strInsert (str : List Char) (pos : Int) (c : Char) : Option (List Char) :=
  if 0 ≤ pos ∧ pos ≤ str.length then
    some (str.take pos.toNat ++ c :: str.drop pos.toNat)
  else none

/-- The block that erases the selected range (used by the Backspace and the
printable-character case): the range between cursor and anchor is removed, the
cursor moves to its start and the width array is rebuilt. -/
def eraseSelection (env : Env) (s : GuiStates) : Option GuiStates :=
  let minIdx := Math.Min s.CursorIdx s.SelectIdx
  let maxIdx := Math.Max s.CursorIdx s.SelectIdx
  (strErase s.BufferedString minIdx (maxIdx - minIdx)).bind fun str =>
  (vecAt s.StrWidthPrefixSum minIdx).bind fun w =>
  some { s with
    BufferedString := str
    CursorIdx := minIdx
    CursorPos := 4 + w
    StrWidthPrefixSum := CalcCharWidthPrefixSum env str }

/-- The `case` of `Key::LeftArrow`. -/
def InputText.caseLeftArrow (s : GuiStates) : Option GuiStates :=
  let orgIdx := s.CursorIdx
  let idx := Math.Max (s.CursorIdx - 1) 0
  (vecAt s.StrWidthPrefixSum orgIdx).bind fun a =>
  (vecAt s.StrWidthPrefixSum idx).bind fun b =>
  some { s with CursorIdx := idx, CursorPos := s.CursorPos - (a - b) }

/-- The `case` of `Key::RightArrow`. -/
def InputText.caseRightArrow (s : GuiStates) : Option GuiStates :=
  let orgIdx := s.CursorIdx
  let idx := Math.Min (s.CursorIdx + 1) (s.BufferedString.length : Int)
  (vecAt s.StrWidthPrefixSum idx).bind fun a =>
  (vecAt s.StrWidthPrefixSum orgIdx).bind fun b =>
  some { s with CursorIdx := idx, CursorPos := s.CursorPos + (a - b) }

/-- The `case` of `Key::BackSpace`: a selection is erased as a whole, otherwise
the character left of the cursor. -/
def InputText.caseBackSpace (env : Env) (s : GuiStates) : Option GuiStates :=
  if s.CursorIdx ≠ s.SelectIdx then
    eraseSelection env s
  else if s.CursorIdx > 0 then
    (vecAt s.StrWidthPrefixSum s.CursorIdx).bind fun a =>
    (vecAt s.StrWidthPrefixSum (s.CursorIdx - 1)).bind fun b =>
    (strErase s.BufferedString (s.CursorIdx - 1) 1).bind fun str =>
    some { s with
      BufferedString := str
      StrWidthPrefixSum := CalcCharWidthPrefixSum env str
      CursorPos := s.CursorPos - (a - b)
      CursorIdx := s.CursorIdx - 1 }
  else some s

/-- The `case` of `Key::Home`. -/
def InputText.caseHome (s : GuiStates) : GuiStates :=
  { s with CursorPos := 4, CursorIdx := 0 }

/-- The `case` of `Key::End`. -/
def InputText.caseEnd (s : GuiStates) : Option GuiStates :=
  s.StrWidthPrefixSum.getLast?.bind fun last =>
  some { s with CursorPos := last + 4, CursorIdx := (s.StrWidthPrefixSum.length : Int) - 1 }

/-- The insertion at the end of the `default` case, after a selection has been
erased: refused when the string would reach the width cap. -/
def InputText.insertChar (env : Env) (s : GuiStates) (width : Int) : Option GuiStates :=
  let cx := env.textExtentCx s.KeyState.key
  s.StrWidthPrefixSum.getLast?.bind fun last =>
  if last + cx ≥ width - 4 then
    some s
  else
    (strInsert s.BufferedString s.CursorIdx s.KeyState.key).bind fun str =>
    some { s with
      BufferedString := str
      StrWidthPrefixSum := CalcCharWidthPrefixSum env str
      CursorPos := s.CursorPos + cx
      CursorIdx := s.CursorIdx + 1 }

/-- The `default` case: keys outside `' '` to `'~'` and keys with ctrl held are
ignored; otherwise a selection is erased and the character inserted. -/
def InputText.caseDefault (env : Env) (s : GuiStates) (width : Int) : Option GuiStates :=
  if s.KeyState.key.toNat < 32 ∨ s.KeyState.key.toNat > 126 ∨ s.KeyState.ctrlDown = true then
    some s
  else if s.CursorIdx ≠ s.SelectIdx then
    (eraseSelection env s).bind fun s1 => InputText.insertChar env s1 width
  else
    InputText.insertChar env s width

/-- The `switch` over the key of `EDXGui::InputText` (without the final reset
of the selection anchor). -/
def InputText.keySwitch (env : Env) (s : GuiStates) (width : Int) : Option GuiStates :=
  if s.KeyState.key = env.Key.LeftArrow then InputText.caseLeftArrow s
  else if s.KeyState.key = env.Key.RightArrow then InputText.caseRightArrow s
  else if s.KeyState.key = env.Key.BackSpace then InputText.caseBackSpace env s
  else if s.KeyState.key = env.Key.Home then some (InputText.caseHome s)
  else if s.KeyState.key = env.Key.End then InputText.caseEnd s
  else InputText.caseDefault env s width

/-- The key part of `EDXGui::InputText` for the widget with id `Id`: when the
widget is active and a key is pending, the `switch` runs and the selection
anchor is reset to the cursor. -/
def InputText.key (env : Env) (s : GuiStates) (Id : Int) (width : Int) : Option GuiStates :=
  if s.ActiveId = Id ∧ s.KeyState.key ≠ env.Key.None then
    (InputText.keySwitch env s width).bind fun s1 =>
    some { s1 with SelectIdx := s1.CursorIdx }
  else some s

/-- `EDXGui::InputText`: returns the state and the bound string `buf`; the
C++ return value is the constant `false`. -/
def InputText (env : Env) (s : GuiStates) (buf : List Char) (width : Int)
    (autoSelectAll : Bool) : Option (GuiStates × List Char) :=
  let Id := s.CurrentId
  let s1 : GuiStates := { s with CurrentId := s.CurrentId + 1 }
  let m := InputText.mouse env s1 Id (InputText.rect s1 width) buf autoSelectAll
  (InputText.key env m.1 Id width).bind fun s2 =>
  some (advance env s2 18, m.2)

end EDXGui

/-! ## Retained controls: Slider -/

/-- The event callback of an `EDXDialog` as far as the controls see it: whether
a callback is attached, the controls `SendEvent` was called with, and the
controls the callback was invoked with (both oldest first). -/
structure DialogEvents where
  attached : Bool
  sent : List Nat
  invoked : List Nat
  deriving DecidableEq, Repr

/-- `EDXDialog::SendEvent` for the control with id `ID`. -/
def EDXDialog.SendEvent (d : DialogEvents) (ID : Nat) : DialogEvents :=
  let d1 : DialogEvents := { d with sent := d.sent ++ [ID] }
  if !d1.attached then d1
  else { d1 with invoked := d1.invoked ++ [ID] }

/-- A `float` as its comparisons see it: NaN, or a number of the linearly
ordered type `α`. Rounding and signed zeros are not modelled. -/
inductive Flt (α : Type) where
  | nan
  | num (a : α)
  deriving DecidableEq, Repr

/-- The operator `<` on `float`: false as soon as one side is NaN. -/
def Flt.lt {α : Type} [LinearOrder α] : Flt α → Flt α → Bool
  | Flt.num a, Flt.num b => decide (a < b)
  | _, _ => false

/-- The operator `<=` on `float`: false as soon as one side is NaN. -/
def Flt.le {α : Type} [LinearOrder α] : Flt α → Flt α → Bool
  | Flt.num a, Flt.num b => decide (a ≤ b)
  | _, _ => false

/-- The operator `==` on `float`: false as soon as one side is NaN, so NaN is
not equal to itself. -/
def Flt.eq {α : Type} [LinearOrder α] : Flt α → Flt α → Bool
  | Flt.num a, Flt.num b => decide (a = b)
  | _, _ => false

instance Flt.instLT {α : Type} [LinearOrder α] : LT (Flt α) :=
  ⟨fun a b => Flt.lt a b = true⟩

instance Flt.instLE {α : Type} [LinearOrder α] : LE (Flt α) :=
  ⟨fun a b => Flt.le a b = true⟩

instance Flt.decLt {α : Type} [LinearOrder α] : DecidableRel (α := Flt α) (· < ·) :=
  fun a b => inferInstanceAs (Decidable (Flt.lt a b = true))

instance Flt.decLe {α : Type} [LinearOrder α] : DecidableRel (α := Flt α) (· ≤ ·) :=
  fun a b => inferInstanceAs (Decidable (Flt.le a b = true))

/-- The `float` helpers `Slider` takes from `EDXMath.h` and the C runtime, none
of them among the sources: `Math::LinStep`, `Math::Lerp`, the conversions
between `int` and `float`, the constants `0.0f` and `1.0f`, and the `%.2f`
formatting of `sprintf_s`. The value type `α` stands for `float`; the slider
uses it at `Flt`. -/
structure FloatEnv (α : Type) where
  LinStep : α → α → α → α
  Lerp : α → α → α → α
  ofInt : Int → α
  toInt : α → Int
  zero : α
  one : α
  format2 : α → String

/-- The retained `Slider` control: the `EDXControl` base fields followed by its
own members. -/
structure Slider (α : Type) where
  mID : Nat
  mX : Int
  mY : Int
  mWidth : Int
  mHeight : Int
  mBBox : RECT
  mMin : α
  mMax : α
  mVal : α
  mPressed : Bool
  mButtonSize : Int
  mSlideBase : Int
  mSlideEnd : Int
  mButtonX : Int
  mrcButtonBBox : RECT
  mDragX : Int
  mDragOffset : Int
  mMainText : String
  mValuedText : String
  deriving DecidableEq

/-- A slider together with the objects it points to: the text of its label
control (`mpText`), the caller's value (`*mpRefVal`) and the event callback of
its dialog (`mpDialog`). -/
structure SliderCtx (α : Type) where
  slider : Slider α
  label : String
  refVal : α
  dialog : DialogEvents
  deriving DecidableEq

/-- Modelled from the spec: `EDXControl::UpdateRect` is defined in the header,
which is not among the sources; the bounding rect of a control is the rect of
its position and size. -/
def EDXControl.UpdateRect (mX mY mWidth mHeight : Int) : RECT :=
  SetRect mX mY (mX + mWidth) (mY + mHeight)

/-- `Slider::UpdateRect`. -/
def Slider.UpdateRect {α : Type} (fe : FloatEnv α) (sl : Slider α) : Slider α :=
  let sl1 : Slider α := { sl with mBBox := EDXControl.UpdateRect sl.mX sl.mY sl.mWidth sl.mHeight }
  let fLerp := fe.LinStep sl1.mVal sl1.mMin sl1.mMax
  let sl2 : Slider α :=
    { sl1 with mButtonX := fe.toInt (fe.Lerp (fe.ofInt sl1.mSlideBase) (fe.ofInt sl1.mSlideEnd) fLerp) }
  let mid := sl2.mY + Int.tdiv sl2.mHeight 2
  { sl2 with
    mrcButtonBBox :=
      SetRect (sl2.mButtonX - sl2.mButtonSize) (mid - sl2.mButtonSize)
        (sl2.mButtonX + sl2.mButtonSize) (mid + sl2.mButtonSize) }

/-- `Slider::SetValue`. -/
def Slider.SetValue {α : Type} [LinearOrder α] (fe : FloatEnv (Flt α))
    (c : SliderCtx (Flt α)) (fValue : Flt α) : SliderCtx (Flt α) :=
  let clampedVal := Math.Clamp fValue c.slider.mMin c.slider.mMax
  if Flt.eq clampedVal c.slider.mVal then c
  else
    let sl1 : Slider (Flt α) := { c.slider with mVal := clampedVal }
    let sl2 : Slider (Flt α) :=
      { sl1 with mValuedText := sl1.mMainText ++ fe.format2 sl1.mVal }
    let label1 := sl2.mValuedText
    let sl3 := Slider.UpdateRect fe sl2
    { c with slider := sl3, label := label1, dialog := EDXDialog.SendEvent c.dialog sl3.mID }

/-! ## Declaration sequences and frames -/

namespace EDXGui

/-- One immediate-mode widget declaration with its arguments (the values of
by-reference arguments are the ones held on entry). -/
inductive Widget where
  | Text
  | MultilineText (buff : List Char)
  | CollapsingHeader (collapsed : Bool)
  | Button (width height : Int)
  | CheckBox (checked : Bool)
  | RadioButton (activeVal currentVal : Int)
  | ComboBox (numItems selected : Int)
  | InputText (buf : List Char) (width : Int) (autoSelectAll : Bool)
  deriving DecidableEq

/-- The record after one widget declaration. -/
def declare (env : Env) (s : GuiStates) : Widget → Option GuiStates
  | Widget.Text => some (Text env s)
  | Widget.MultilineText buff => some (MultilineText env s buff)
  | Widget.CollapsingHeader collapsed => some (CollapsingHeader env s collapsed).1
  | Widget.Button width height => some (Button env s width height).1
  | Widget.CheckBox checked => some (CheckBox env s checked).1
  | Widget.RadioButton activeVal currentVal => some (RadioButton env s activeVal currentVal).1
  | Widget.ComboBox numItems selected => some (ComboBox env s numItems selected).1
  | Widget.InputText buf width autoSelectAll =>
    (InputText env s buf width autoSelectAll).map Prod.fst

/-- The record after a sequence of widget declarations, in call order. -/
def declareAll (env : Env) : List Widget → GuiStates → Option GuiStates
  | [], s => some s
  | w :: ws, s => (declare env s w).bind (declareAll env ws)

/-- The record after a sequence of `Button` declarations, each given by its
width and height, in call order. -/
def Buttons (env : Env) : List (Int × Int) → GuiStates → GuiStates
  | [], s => s
  | b :: bs, s => Buttons env bs (Button env s b.1 b.2).1

/-- Whether the rect of the button declared at position `k` (counting from 0)
contains the pointer; the rect is taken at the layout cursor that the `k`
buttons before it leave. -/
def Buttons.hit (env : Env) (bs : List (Int × Int)) (s : GuiStates) (k : Nat) : Bool :=
  match bs[k]? with
  | none => false
  | some b => PtInRect (Button.rect (Buttons env (bs.take k) s) b.1 b.2) (mousePt s)

/-- The record on entry to a widget declaration in the next frame, when the
call order is unchanged: the id counter and the layout cursor are those of its
declaration `first`, the hover id is reset by `BeginFrame`, the mouse and key
snapshots are the ones delivered for the frame, and every other field is as
the previous frame left it in `last`. -/
def nextEntry (first last : GuiStates) (mouse : MouseEventArgs) (key : KeyboardEventArgs) :
    GuiStates :=
  { last with
    CurrentId := first.CurrentId
    HoveredId := -1
    CurrentPosX := first.CurrentPosX
    CurrentPosY := first.CurrentPosY
    WidgetEndX := first.WidgetEndX
    MouseState := mouse
    KeyState := key }

/-- One `Button` declared in consecutive frames at the place it has in `first`,
one mouse snapshot per frame: the return values in frame order and the record
after the last frame. -/
def Button.frames (env : Env) (width height : Int) (first : GuiStates) :
    GuiStates → List MouseEventArgs → List Bool × GuiStates
  | last, [] => ([], last)
  | last, m :: ms =>
    let r := Button env (nextEntry first last m last.KeyState) width height
    let rest := Button.frames env width height first r.1 ms
    (r.2 :: rest.1, rest.2)

/-- One `InputText` declared in consecutive frames at the place it has in
`first`, one key per frame with ctrl not held; no mouse event arrives, so each
frame sees the mouse action `None` that `EndFrame` left. -/
def InputText.keys (env : Env) (buf : List Char) (width : Int) (autoSelectAll : Bool)
    (first : GuiStates) : GuiStates → List Char → Option GuiStates
  | last, [] => some last
  | last, k :: ks =>
    (InputText env
        (nextEntry first last { last.MouseState with Action := MouseAction.None }
          { key := k, ctrlDown := false })
        buf width autoSelectAll).bind
      (fun r => InputText.keys env buf width autoSelectAll first r.1 ks)

/-- A mouse snapshot that neither presses nor drags: the mouse part of
`InputText` leaves the text-edit fields alone in such a frame. -/
def noPressNoDrag (m : MouseEventArgs) : Prop :=
  m.Action ≠ MouseAction.LButtonDown ∧ m.Action ≠ MouseAction.LButtonDbClick ∧
    ¬ (m.Action = MouseAction.Move ∧ m.lDown = true)

/-- Shape of the text-edit fields that `InputText` establishes when it enters
editing: the width array has one entry more than the working string, and the
cursor and the selection anchor are positions of the working string. -/
def TextOK (s : GuiStates) : Prop :=
  s.StrWidthPrefixSum.length = s.BufferedString.length + 1 ∧
    0 ≤ s.CursorIdx ∧ s.CursorIdx ≤ s.BufferedString.length ∧
    0 ≤ s.SelectIdx ∧ s.SelectIdx ≤ s.BufferedString.length

/-- The records `s` and `t` agree on every field outside the text-edit state
(working string, width array, cursor position, cursor index and anchor). -/
def sameOutsideText (s t : GuiStates) : Prop :=
  t = { s with
        BufferedString := t.BufferedString
        StrWidthPrefixSum := t.StrWidthPrefixSum
        CursorPos := t.CursorPos
        CursorIdx := t.CursorIdx
        SelectIdx := t.SelectIdx }

/-- The records `s` and `t` hold the same text-edit state and the same key
snapshot. -/
def sameText (s t : GuiStates) : Prop :=
  t.BufferedString = s.BufferedString ∧ t.StrWidthPrefixSum = s.StrWidthPrefixSum ∧
    t.CursorPos = s.CursorPos ∧ t.CursorIdx = s.CursorIdx ∧ t.SelectIdx = s.SelectIdx ∧
    t.KeyState = s.KeyState

/-- The widget with id `Id` is active on the working string `p`, with cursor
and selection anchor at the end of `p` and the width array of `p`. -/
def InputText.atEnd (env : Env) (Id : Int) (t : GuiStates) (p : List Char) : Prop :=
  t.ActiveId = Id ∧ t.BufferedString = p ∧ t.CursorIdx = p.length ∧ t.SelectIdx = p.length ∧
    t.StrWidthPrefixSum = CalcCharWidthPrefixSum env p

end EDXGui

/-- Printable characters as `InputText` tests them: `' '` to `'~'`. -/
def printable (c : Char) : Prop :=
  32 ≤ c.toNat ∧ c.toNat ≤ 126

/-- Requirements on the `Key` codes: the five `case` labels of the `switch` are
pairwise distinct (the `switch` does not compile otherwise), `Key::None` is
none of them, and no code is a printable character. -/
def KeyCodes.Valid (k : KeyCodes) : Prop :=
  [k.LeftArrow, k.RightArrow, k.BackSpace, k.Home, k.End].Nodup ∧
    k.None ∉ [k.LeftArrow, k.RightArrow, k.BackSpace, k.Home, k.End] ∧
    ∀ c ∈ [k.None, k.LeftArrow, k.RightArrow, k.BackSpace, k.Home, k.End], ¬ printable c

/-- Total pixel width of a string: the sum of its measured character widths. -/
def strWidth (env : Env) (str : List Char) : Int :=
  (str.map env.textExtentCx).sum

/-! ## Sample values -/

/-- A sample environment: padding 5, every character 7 pixels wide, and key
codes below the printable range. -/
def sampleEnv : Env :=
  { Padding := 5
    Key :=
      { None := Char.ofNat 0, LeftArrow := Char.ofNat 17, RightArrow := Char.ofNat 18
        BackSpace := Char.ofNat 8, Home := Char.ofNat 19, End := Char.ofNat 20 }
    textExtentCx := fun _ => 7 }

/-- A mouse snapshot with the given position and action, button not held. -/
def sampleMouse (x y : Int) (a : MouseAction) : MouseEventArgs :=
  { x := x, y := y, Action := a, lDown := false }

/-- A sample record: the first widget of a left-docked dialog (id 0 at
(25, 25), right edge 175) with the given mouse snapshot and active id, and an
empty text-edit state. -/
def sampleStates (m : MouseEventArgs) (activeId : Int) : GuiStates :=
  { CurrentId := 0, HoveredId := -1, ActiveId := activeId, EditingId := -1
    GlobalMouseState := m, MouseState := m
    KeyState := { key := Char.ofNat 0, ctrlDown := false }
    CurrentLayoutStrategy := LayoutStrategy.DockLeft
    CurrentGrowthStrategy := GrowthStrategy.Vertical
    ScreenWidth := 800, ScreenHeight := 600
    DialogWidth := 200, DialogHeight := 600, DialogPosX := 0, DialogPosY := 0
    CurrentPosX := 25, CurrentPosY := 25, WidgetEndX := 175
    BufferedString := [], StrWidthPrefixSum := [0]
    CursorPos := 4, CursorIdx := 0, SelectIdx := 0 }

/-- A sample record of an edit in progress: the widget with id 0 is active and
editing the working string `str` in a key frame (mouse action `None`), with the
given cursor, selection anchor and pending key. -/
def sampleEditing (str : List Char) (cursor anchor : Int) (key : Char) : GuiStates :=
  { sampleStates (sampleMouse 0 0 MouseAction.None) 0 with
    EditingId := 0
    BufferedString := str
    StrWidthPrefixSum := EDXGui.CalcCharWidthPrefixSum sampleEnv str
    CursorPos := 4 + 7 * cursor
    CursorIdx := cursor
    SelectIdx := anchor
    KeyState := { key := key, ctrlDown := false } }

/-- A sample of the `float` helpers over integer values: linear step and
interpolation of a track with one pixel per unit; NaN goes through both, and
its conversion to `int` is taken to be 0. -/
def sampleFloatEnv : FloatEnv (Flt Int) :=
  { LinStep := fun v lo _ =>
      match v, lo with
      | Flt.num a, Flt.num b => Flt.num (a - b)
      | _, _ => Flt.nan
    Lerp := fun a _ t =>
      match a, t with
      | Flt.num x, Flt.num y => Flt.num (x + y)
      | _, _ => Flt.nan
    ofInt := fun i => Flt.num i
    toInt := fun v =>
      match v with
      | Flt.num a => a
      | Flt.nan => 0
    zero := Flt.num 0
    one := Flt.num 1
    format2 := fun _ => "" }

/-- A sample slider over the range 0 to 10 holding the given value, with its
handle rect as `UpdateRect` leaves it, an attached callback and no event sent
so far. -/
def sampleSlider (val : Int) : SliderCtx (Flt Int) :=
  { slider :=
      Slider.UpdateRect sampleFloatEnv
        { mID := 7, mX := 10, mY := 40, mWidth := 100, mHeight := 12
          mBBox := SetRect 10 40 110 52
          mMin := Flt.num 0, mMax := Flt.num 10, mVal := Flt.num val
          mPressed := false, mButtonSize := 6
          mSlideBase := 16, mSlideEnd := 104
          mButtonX := 16, mrcButtonBBox := SetRect 10 40 22 52
          mDragX := 0, mDragOffset := 0
          mMainText := "v", mValuedText := "v" }
    label := "v"
    refVal := Flt.num val
    dialog := { attached := true, sent := [], invoked := [] } }

end GUI
end EDX

namespace EDX
namespace GUI

/-! ## Retained controls: Slider and CheckBox mouse handling -/

/-- Modelled from the spec: `Slider::GetValue` is defined in the header, which
is not among the sources; it returns the value the slider holds. -/
def Slider.GetValue {α : Type} (sl : Slider α) : α :=
  sl.mVal

/-- The value `fVal` that `Slider::SetValueFromPos` computes for the pixel
position `iPos` and passes to `SetValue`. -/
def Slider.posValue {α : Type} [LinearOrder α] (fe : FloatEnv (Flt α))
    (c : SliderCtx (Flt α)) (iPos : Int) : Flt α :=
  let fLerp := fe.LinStep (fe.ofInt iPos) (fe.ofInt c.slider.mSlideBase)
    (fe.ofInt c.slider.mSlideEnd)
  let fLerp1 := Math.Clamp fLerp fe.zero fe.one
  fe.Lerp c.slider.mMin c.slider.mMax fLerp1

/-- `Slider::SetValueFromPos`. -/
def Slider.SetValueFromPos {α : Type} [LinearOrder α] (fe : FloatEnv (Flt α))
    (c : SliderCtx (Flt α)) (iPos : Int) : SliderCtx (Flt α) :=
  let fLerp := fe.LinStep (fe.ofInt iPos) (fe.ofInt c.slider.mSlideBase)
    (fe.ofInt c.slider.mSlideEnd)
  let fLerp1 := Math.Clamp fLerp fe.zero fe.one
  let fVal := fe.Lerp c.slider.mMin c.slider.mMax fLerp1
  Slider.SetValue fe c fVal

/-- `Slider::HandleMouse`: returns the slider with the objects it points to and
the `bool` result. -/
def Slider.HandleMouse {α : Type} [LinearOrder α] (fe : FloatEnv (Flt α))
    (c : SliderCtx (Flt α)) (mouseArgs : MouseEventArgs) : SliderCtx (Flt α) × Bool :=
  let mousePt : POINT := { x := mouseArgs.x, y := mouseArgs.y }
  match mouseArgs.Action with
  | MouseAction.LButtonDown | MouseAction.LButtonDbClick =>
    if PtInRect c.slider.mrcButtonBBox mousePt then
      ({ c with
          slider :=
            { c.slider with
              mPressed := true
              mDragX := mousePt.x
              mDragOffset := c.slider.mButtonX - mousePt.x } }, true)
    else if PtInRect c.slider.mBBox mousePt then
      let c1 := Slider.SetValueFromPos fe c mousePt.x
      ({ c1 with refVal := Slider.GetValue c1.slider }, true)
    else (c, false)
  | MouseAction.LButtonUp =>
    let sl1 : Slider (Flt α) := { c.slider with mPressed := false, mDragOffset := 0 }
    ({ c with slider := sl1, dialog := EDXDialog.SendEvent c.dialog sl1.mID }, true)
  | MouseAction.Move =>
    if c.slider.mPressed then
      let c1 := Slider.SetValueFromPos fe c (mousePt.x + c.slider.mDragOffset)
      ({ c1 with refVal := Slider.GetValue c1.slider }, true)
    else (c, false)
  | MouseAction.None => (c, false)

/-- The retained `CheckBox` control: the `EDXControl` base fields followed by
its own members. -/
structure CheckBox where
  mID : Nat
  mX : Int
  mY : Int
  mWidth : Int
  mHeight : Int
  mBBox : RECT
  mbChecked : Bool
  mPressed : Bool
  mBoxSize : Int
  mrcBoxBBox : RECT
  deriving DecidableEq

/-- A check box together with the objects it points to: the caller's flag
(`*mpRefVal`) and the event callback of its dialog (`mpDialog`). -/
structure CheckBoxCtx where
  checkBox : CheckBox
  refVal : Bool
  dialog : DialogEvents
  deriving DecidableEq

/-- Modelled from the spec: `CheckBox::Toggle` is defined in the header, which
is not among the sources; it flips the checked flag. -/
def CheckBox.Toggle (cb : CheckBox) : CheckBox :=
  { cb with mbChecked := !cb.mbChecked }

/-- Modelled from the spec: `CheckBox::GetChecked` is defined in the header,
which is not among the sources; it returns the checked flag. -/
def CheckBox.GetChecked (cb : CheckBox) : Bool :=
  cb.mbChecked

/-- `CheckBox::UpdateRect`. -/
def CheckBox.UpdateRect (cb : CheckBox) : CheckBox :=
  let cb1 : CheckBox := { cb with mBBox := EDXControl.UpdateRect cb.mX cb.mY cb.mWidth cb.mHeight }
  let midX := cb1.mX + 6
  let midY := cb1.mY + Int.tdiv cb1.mHeight 2
  { cb1 with
    mrcBoxBBox :=
      SetRect (midX - cb1.mBoxSize) (midY - cb1.mBoxSize) (midX + cb1.mBoxSize)
        (midY + cb1.mBoxSize) }

/-- `CheckBox::HandleMouse`: returns the check box with the objects it points
to and the `bool` result. -/
def CheckBox.HandleMouse (c : CheckBoxCtx) (mouseArgs : MouseEventArgs) : CheckBoxCtx × Bool :=
  let mousePt : POINT := { x := mouseArgs.x, y := mouseArgs.y }
  match mouseArgs.Action with
  | MouseAction.LButtonDown | MouseAction.LButtonDbClick =>
    if PtInRect c.checkBox.mrcBoxBBox mousePt then
      ({ c with checkBox := { c.checkBox with mPressed := true } }, true)
    else (c, false)
  | MouseAction.LButtonUp =>
    if PtInRect c.checkBox.mrcBoxBBox mousePt ∧ c.checkBox.mPressed = true then
      let cb1 := CheckBox.Toggle c.checkBox
      let cb2 : CheckBox := { cb1 with mPressed := false }
      ({ checkBox := cb2
         refVal := CheckBox.GetChecked cb2
         dialog := EDXDialog.SendEvent c.dialog cb2.mID }, true)
    else (c, false)
  | MouseAction.Move => (c, false)
  | MouseAction.None => (c, false)

namespace EDXGui

/-! ## Declarations with their results -/

/-- One widget declaration with everything the caller gets back: the record,
the widget with its by-reference arguments as the call leaves them, and the
return value (`false` for the widgets that return nothing). -/
def declareOut (env : Env) (s : GuiStates) : Widget → Option (GuiStates × Widget × Bool)
  | Widget.Text => some (Text env s, Widget.Text, false)
  | Widget.MultilineText buff => some (MultilineText env s buff, Widget.MultilineText buff, false)
  | Widget.CollapsingHeader collapsed =>
    some ((CollapsingHeader env s collapsed).1,
      Widget.CollapsingHeader (CollapsingHeader env s collapsed).2.1,
      (CollapsingHeader env s collapsed).2.2)
  | Widget.Button width height =>
    some ((Button env s width height).1, Widget.Button width height,
      (Button env s width height).2)
  | Widget.CheckBox checked =>
    some ((CheckBox env s checked).1, Widget.CheckBox (CheckBox env s checked).2, false)
  | Widget.RadioButton activeVal currentVal =>
    some ((RadioButton env s activeVal currentVal).1,
      Widget.RadioButton activeVal (RadioButton env s activeVal currentVal).2, false)
  | Widget.ComboBox numItems selected =>
    some ((ComboBox env s numItems selected).1,
      Widget.ComboBox numItems (ComboBox env s numItems selected).2, false)
  | Widget.InputText buf width autoSelectAll =>
    (InputText env s buf width autoSelectAll).map fun r =>
      (r.1, Widget.InputText r.2 width autoSelectAll, false)

/-- A sequence of widget declarations, in call order, with the result of each
call. -/
def declareAllOut (env : Env) :
    List Widget → GuiStates → Option (GuiStates × List (Widget × Bool))
  | [], s => some (s, [])
  | w :: ws, s =>
    (declareOut env s w).bind fun r =>
      (declareAllOut env ws r.1).map fun rest => (rest.1, (r.2.1, r.2.2) :: rest.2)

/-- Two `InputText` boxes declared one after the other in the same frame, the
first bound to `buf1` and the second to `buf2`: the record and both bound
strings after the two calls. -/
def InputText.pair (env : Env) (s : GuiStates) (buf1 : List Char) (width1 : Int)
    (buf2 : List Char) (width2 : Int) (autoSelectAll : Bool) :
    Option (GuiStates × List Char × List Char) :=
  (InputText env s buf1 width1 autoSelectAll).bind fun r1 =>
    (InputText env r1.1 buf2 width2 autoSelectAll).map fun r2 => (r2.1, r1.2, r2.2)

/-- The record `t` carries the interaction state of `s`: the same active and
editing ids, the same mouse and key snapshots and the same text-edit state. -/
def sameInteraction (s t : GuiStates) : Prop :=
  t.ActiveId = s.ActiveId ∧ t.EditingId = s.EditingId ∧ t.MouseState = s.MouseState ∧
    t.KeyState = s.KeyState ∧ t.BufferedString = s.BufferedString ∧
    t.StrWidthPrefixSum = s.StrWidthPrefixSum ∧ t.CursorPos = s.CursorPos ∧
    t.CursorIdx = s.CursorIdx ∧ t.SelectIdx = s.SelectIdx

/-- The condition under which `InputText` commits the working string to the
bound string: a click or double click outside the rect while this widget is
the editing one. -/
def InputText.blurCommit (s : GuiStates) (width : Int) : Prop :=
  (s.MouseState.Action = MouseAction.LButtonDown ∨
      s.MouseState.Action = MouseAction.LButtonDbClick) ∧
    PtInRect (InputText.rect s width) (mousePt s) = false ∧ s.EditingId = s.CurrentId

end EDXGui

/-! ## Further sample values -/

/-- A sample check box with id 9 whose box covers (10, 60) to (22, 72), with an
attached callback and no event sent so far. -/
def sampleCheckBox (checked : Bool) : CheckBoxCtx :=
  { checkBox :=
      CheckBox.UpdateRect
        { mID := 9, mX := 10, mY := 60, mWidth := 100, mHeight := 12
          mBBox := SetRect 10 60 110 72
          mbChecked := checked, mPressed := false, mBoxSize := 6
          mrcBoxBBox := SetRect 10 60 22 72 }
    refVal := checked
    dialog := { attached := true, sent := [], invoked := [] } }

end GUI
end EDX

namespace EDX
namespace GUI

/-! ## Retained controls: dialog dispatch -/

/-- The virtual calls `EDXDialog::MsgProc` makes on its controls, each with the
position of the control in `mvControls`. -/
inductive ControlCall where
  | HandleMouse (i : Nat)
  | ResetFocus (i : Nat)
  | OnMouseOut (i : Nat)
  | OnMouseIn (i : Nat)
  | SetFocus (i : Nat)
  deriving DecidableEq, Repr

/-- The virtual members of `EDXControl` that `EDXDialog` calls. `HandleMouse`
is overridden by each control kind; `ContainsPoint`, `OnMouseIn`, `OnMouseOut`,
`SetFocus` and `ResetFocus` are defined in the header, which is not among the
sources. They are parameters acting on the control object of type `κ`. -/
structure ControlOps (κ : Type) where
  ContainsPoint : κ → POINT → Bool
  HandleMouse : κ → MouseEventArgs → κ × Bool
  OnMouseIn : κ → κ
  OnMouseOut : κ → κ
  SetFocus : κ → κ
  ResetFocus : κ → κ

/-- The members of `EDXDialog` that `MsgProc` uses. The pointers
`mpFocusControl` and `mpHoveredControl` are positions in `mvControls` (`none`
for a null pointer); `calls` records the virtual calls made on the controls,
oldest first. -/
structure EDXDialog (κ : Type) where
  mVisible : Bool
  mPosX : Int
  mPosY : Int
  mvControls : List κ
  mpFocusControl : Option Nat
  mpHoveredControl : Option Nat
  calls : List ControlCall
  deriving DecidableEq

/-- A call `p->f()` of a member that returns nothing on the control at
position `i`, recorded as `tag`; `none` when the pointer is not one of the
dialog's controls. -/
def EDXDialog.call {κ : Type} (d : EDXDialog κ) (i : Nat) (f : κ → κ) (tag : ControlCall) :
    Option (EDXDialog κ) :=
  match d.mvControls[i]? with
  | none => none
  | some c => some { d with mvControls := d.mvControls.set i (f c), calls := d.calls ++ [tag] }

/-- The call `p->HandleMouse(args)` on the control at position `i` with its
result; `none` when the pointer is not one of the dialog's controls. -/
def EDXDialog.handle {κ : Type} (ops : ControlOps κ) (d : EDXDialog κ) (i : Nat)
    (args : MouseEventArgs) : Option (EDXDialog κ × Bool) :=
  match d.mvControls[i]? with
  | none => none
  | some c =>
    some ({ d with
            mvControls := d.mvControls.set i (ops.HandleMouse c args).1
            calls := d.calls ++ [ControlCall.HandleMouse i] },
          (ops.HandleMouse c args).2)

/-- The loop of `EDXDialog::GetControlAtPoint` over the controls from position
`i` on. -/
def EDXDialog.GetControlAtPoint.loop {κ : Type} (ops : ControlOps κ) (pt : POINT) :
    List κ → Nat → Option Nat
  | [], _ => none
  | c :: cs, i =>
    if ops.ContainsPoint c pt then some i
    else EDXDialog.GetControlAtPoint.loop ops pt cs (i + 1)

/-- `EDXDialog::GetControlAtPoint`: the position of the first control that
contains the point, `none` for `NULL`. -/
def EDXDialog.GetControlAtPoint {κ : Type} (ops : ControlOps κ) (d : EDXDialog κ)
    (pt : POINT) : Option Nat :=
  EDXDialog.GetControlAtPoint.loop ops pt d.mvControls 0

/-- The hover update of `EDXDialog::MsgProc` for the hit control at position
`p`: when the hovered pointer differs, the control hovered so far is left and
the hit control entered. -/
def EDXDialog.MsgProc.hover {κ : Type} (ops : ControlOps κ) (d : EDXDialog κ) (p : Nat) :
    Option (EDXDialog κ) :=
  if d.mpHoveredControl ≠ some p then
    (match d.mpHoveredControl with
      | some h => d.call h ops.OnMouseOut (ControlCall.OnMouseOut h)
      | none => some d).bind fun d1 =>
    EDXDialog.call { d1 with mpHoveredControl := some p } p ops.OnMouseIn
      (ControlCall.OnMouseIn p)
  else some d

/-- The focus grant of `EDXDialog::MsgProc`: on LButtonDown the hit control at
position `p` gets `SetFocus`. -/
def EDXDialog.MsgProc.grant {κ : Type} (ops : ControlOps κ) (d : EDXDialog κ) (p : Nat)
    (action : MouseAction) : Option (EDXDialog κ) :=
  if action = MouseAction.LButtonDown then d.call p ops.SetFocus (ControlCall.SetFocus p)
  else some d

/-- The part of `EDXDialog::MsgProc` after the focus control had its turn: the
hit test, the hover update, the focus grant on a press and the dispatch to the
hit control. -/
def EDXDialog.MsgProc.hit {κ : Type} (ops : ControlOps κ) (d : EDXDialog κ)
    (offsettedArgs : MouseEventArgs) : Option (EDXDialog κ × Bool) :=
  let mousePt : POINT := { x := offsettedArgs.x, y := offsettedArgs.y }
  match EDXDialog.GetControlAtPoint ops d mousePt with
  | some p =>
    (EDXDialog.MsgProc.hover ops d p).bind fun d2 =>
    (EDXDialog.MsgProc.grant ops d2 p offsettedArgs.Action).bind fun d3 =>
    EDXDialog.handle ops d3 p offsettedArgs
  | none =>
    match d.mpHoveredControl with
    | some h =>
      (d.call h ops.OnMouseOut (ControlCall.OnMouseOut h)).map fun d1 =>
        ({ d1 with mpHoveredControl := none }, false)
    | none => some (d, false)

/-- The event `offsettedArgs` of `EDXDialog::MsgProc`: the mouse event in the
dialog's local coordinates. -/
def EDXDialog.offsettedArgs {κ : Type} (d : EDXDialog κ) (mouseArgs : MouseEventArgs) :
    MouseEventArgs :=
  { mouseArgs with x := mouseArgs.x - d.mPosX, y := mouseArgs.y - d.mPosY }

/-- `EDXDialog::MsgProc`: the dialog after the event and the `bool` result;
`none` when a control pointer that is dereferenced is not one of the dialog's
controls. -/
def EDXDialog.MsgProc {κ : Type} (ops : ControlOps κ) (d : EDXDialog κ)
    (mouseArgs : MouseEventArgs) : Option (EDXDialog κ × Bool) :=
  if !d.mVisible then some (d, false)
  else
    let offsettedArgs := EDXDialog.offsettedArgs d mouseArgs
    match d.mpFocusControl with
    | some f =>
      (EDXDialog.handle ops d f offsettedArgs).bind fun r =>
        if r.2 then some (r.1, true)
        else if offsettedArgs.Action = MouseAction.LButtonDown then
          (r.1.call f ops.ResetFocus (ControlCall.ResetFocus f)).bind fun d2 =>
            EDXDialog.MsgProc.hit ops d2 offsettedArgs
        else EDXDialog.MsgProc.hit ops r.1 offsettedArgs
    | none => EDXDialog.MsgProc.hit ops d offsettedArgs

/-- The calls the hit-testing part of `MsgProc` makes for the hovered pointer
`hovered` on entry, the hit control `hitCtl` and the mouse action: the hover
transition, then the focus grant and the dispatch. -/
def EDXDialog.hitCalls (hovered hitCtl : Option Nat) (action : MouseAction) :
    List ControlCall :=
  (if hovered = hitCtl then []
    else
      (match hovered with
        | some h => [ControlCall.OnMouseOut h]
        | none => []) ++
      (match hitCtl with
        | some p => [ControlCall.OnMouseIn p]
        | none => [])) ++
  (match hitCtl with
    | some p =>
      (if action = MouseAction.LButtonDown then [ControlCall.SetFocus p] else []) ++
        [ControlCall.HandleMouse p]
    | none => [])

/-! ## Retained controls: Button -/

/-- The retained `Button` control: the `EDXControl` base fields followed by its
own members. -/
structure Button where
  mID : Nat
  mX : Int
  mY : Int
  mWidth : Int
  mHeight : Int
  mBBox : RECT
  mbDown : Bool
  mPressed : Bool
  deriving DecidableEq, Repr

/-- A button together with the number of times it has fired. -/
structure ButtonCtx where
  button : Button
  triggered : Nat
  deriving DecidableEq, Repr

/-- Modelled from the spec: `Button::Trigger` is defined in the header, which is
not among the sources; the button fires, which is recorded by counting the
calls. -/
def Button.Trigger (c : ButtonCtx) : ButtonCtx :=
  { c with triggered := c.triggered + 1 }

/-- `Button::HandleMouse`: returns the button and the `bool` result. -/
def Button.HandleMouse (c : ButtonCtx) (mouseArgs : MouseEventArgs) : ButtonCtx × Bool :=
  let mousePt : POINT := { x := mouseArgs.x, y := mouseArgs.y }
  match mouseArgs.Action with
  | MouseAction.LButtonDown =>
    if PtInRect c.button.mBBox mousePt then
      ({ c with button := { c.button with mbDown := true, mPressed := true } }, true)
    else (c, false)
  | MouseAction.LButtonUp =>
    let c1 : ButtonCtx :=
      if PtInRect c.button.mBBox mousePt ∧ c.button.mbDown = true then Button.Trigger c else c
    ({ c1 with button := { c1.button with mbDown := false, mPressed := false } }, true)
  | MouseAction.Move =>
    if PtInRect c.button.mBBox mousePt then
      if c.button.mPressed then
        ({ c with button := { c.button with mbDown := true } }, true)
      else (c, false)
    else if c.button.mPressed then
      ({ c with button := { c.button with mbDown := false } }, true)
    else (c, false)
  | MouseAction.LButtonDbClick => (c, false)
  | MouseAction.None => (c, false)

/-- A `Button` receiving a sequence of mouse events: the button after the last
one. -/
def Button.events (c : ButtonCtx) : List MouseEventArgs → ButtonCtx
  | [] => c
  | m :: ms => Button.events (Button.HandleMouse c m).1 ms

/-! ## Retained controls: Slider construction -/

/-- The constructor `Slider::Slider` (a definition cannot carry the name of its
own type here): the members the constructor writes; the members it leaves
uninitialised keep the values of `raw`, the storage the slider is built in. -/
def Slider.init {α : Type} [LinearOrder α] (raw : Slider (Flt α)) (iID : Nat)
    (iX iY iWidth iHeight : Int) (min max val : Flt α) (pText : String) : Slider (Flt α) :=
  let sl : Slider (Flt α) :=
    { raw with
      mID := iID, mX := iX, mY := iY, mWidth := iWidth, mHeight := iHeight
      mMin := min, mMax := max, mVal := Math.Clamp val min max
      mPressed := false, mButtonSize := 6 }
  { sl with
    mSlideBase := sl.mX + sl.mButtonSize
    mSlideEnd := sl.mX + sl.mWidth - sl.mButtonSize
    mMainText := pText }

/-- The value of a slider lies between its bounds, by the `float` comparison
`<=`. -/
def Slider.InRange {α : Type} [LinearOrder α] (sl : Slider (Flt α)) : Prop :=
  sl.mMin ≤ sl.mVal ∧ sl.mVal ≤ sl.mMax

/-! ## Retained controls: ComboBox -/

/-- The retained `ComboBox` control: the `EDXControl` base fields followed by
its own members; `mpItems` holds the `Value` of each item (the labels only feed
drawing). -/
structure ComboBox where
  mID : Nat
  mX : Int
  mY : Int
  mWidth : Int
  mHeight : Int
  mBBox : RECT
  mButtonSize : Int
  mNumItems : Int
  mSelectedIdx : Int
  mHoveredIdx : Int
  mOpened : Bool
  mBoxMain : RECT
  mBoxDropdown : RECT
  mpItems : List Int
  deriving DecidableEq, Repr

/-- A combo box together with the objects it points to: the caller's value
(`*mpRefVal`) and the event callback of its dialog (`mpDialog`). -/
structure ComboBoxCtx where
  comboBox : ComboBox
  refVal : Int
  dialog : DialogEvents
  deriving DecidableEq, Repr

/-- `ComboBox::UpdateRect`; `ItemHeight` is the class constant of that name,
declared in the header, which is not among the sources. -/
def ComboBox.UpdateRect (ItemHeight : Int) (cb : ComboBox) : ComboBox :=
  let cb1 : ComboBox :=
    { cb with mBBox := EDXControl.UpdateRect cb.mX cb.mY cb.mWidth cb.mHeight }
  let cb2 : ComboBox := { cb1 with mBoxMain := cb1.mBBox }
  { cb2 with
    mBoxDropdown :=
      SetRect cb2.mX (cb2.mY + cb2.mHeight) (cb2.mX + cb2.mWidth - cb2.mHeight)
        (cb2.mY + cb2.mHeight + 1 + cb2.mNumItems * ItemHeight) }

/-- The row `(mousePt.y - mBBox.top) / ItemHeight` that `ComboBox::HandleMouse`
computes for a pointer position. -/
def ComboBox.rowAt (ItemHeight : Int) (cb : ComboBox) (mousePt : POINT) : Int :=
  Int.tdiv (mousePt.y - cb.mBBox.top) ItemHeight

/-- The read `mpItems[i].Value`; `none` outside the item array. -/
def ComboBox.itemValue (cb : ComboBox) (i : Int) : Option Int :=
  if 0 ≤ i then cb.mpItems[i.toNat]? else none

/-- The selection of `ComboBox::HandleMouse` on a press inside `mBBox` while
the dropdown is open; `none` for a division by zero or a read outside the item
array. -/
def ComboBox.select (ItemHeight : Int) (c : ComboBoxCtx) (mousePt : POINT) :
    Option ComboBoxCtx :=
  if ItemHeight = 0 then none
  else
    let cb1 : ComboBox :=
      { c.comboBox with mSelectedIdx := ComboBox.rowAt ItemHeight c.comboBox mousePt }
    (ComboBox.itemValue cb1 cb1.mSelectedIdx).bind fun v =>
      some { comboBox := cb1, refVal := v, dialog := EDXDialog.SendEvent c.dialog cb1.mID }

/-- The toggle of `ComboBox::HandleMouse` after a press inside `mBBox`: the
dropdown opens or closes and `mBBox` follows. -/
def ComboBox.toggle (cb : ComboBox) : ComboBox :=
  let cb1 : ComboBox := { cb with mOpened := !cb.mOpened }
  if cb1.mOpened then { cb1 with mBBox := cb1.mBoxDropdown, mHoveredIdx := cb1.mSelectedIdx }
  else { cb1 with mBBox := cb1.mBoxMain }

/-- `ComboBox::HandleMouse`: returns the combo box with the objects it points
to and the `bool` result; `none` for a division by zero or a read outside the
item array. -/
def ComboBox.HandleMouse (ItemHeight : Int) (c : ComboBoxCtx) (mouseArgs : MouseEventArgs) :
    Option (ComboBoxCtx × Bool) :=
  let mousePt : POINT := { x := mouseArgs.x, y := mouseArgs.y }
  match mouseArgs.Action with
  | MouseAction.LButtonDown | MouseAction.LButtonDbClick =>
    if PtInRect c.comboBox.mBBox mousePt then
      (if c.comboBox.mOpened then ComboBox.select ItemHeight c mousePt else some c).bind
        fun c1 => some ({ c1 with comboBox := ComboBox.toggle c1.comboBox }, true)
    else if PtInRect c.comboBox.mBoxMain mousePt then
      some ({ c with
              comboBox :=
                { c.comboBox with
                  mOpened := !c.comboBox.mOpened, mBBox := c.comboBox.mBoxMain } }, true)
    else some (c, false)
  | MouseAction.Move =>
    if PtInRect c.comboBox.mBBox mousePt then
      if c.comboBox.mOpened then
        if ItemHeight = 0 then none
        else
          some ({ c with
                  comboBox :=
                    { c.comboBox with
                      mHoveredIdx := ComboBox.rowAt ItemHeight c.comboBox mousePt } }, false)
      else some (c, false)
    else some (c, false)
  | MouseAction.LButtonUp => some (c, false)
  | MouseAction.None => some (c, false)

namespace EDXGui

/-! ## Text-edit invariants and gestures on check boxes and radio buttons -/

/-- The width array is the prefix sum of the character widths of the working
string, as `CalcCharWidthPrefixSum` builds it. -/
def PrefixOK (env : Env) (s : GuiStates) : Prop :=
  s.StrWidthPrefixSum = CalcCharWidthPrefixSum env s.BufferedString

/-- Going from `s` to `t` either left the working string and the width array as
they were or left a width array built from the working string. -/
def PrefixKept (env : Env) (s t : GuiStates) : Prop :=
  (t.BufferedString = s.BufferedString ∧ t.StrWidthPrefixSum = s.StrWidthPrefixSum) ∨
    PrefixOK env t

/-- The caret pixel position is derived from the width array:
`CursorPos = 4 + StrWidthPrefixSum[CursorIdx]`, with `CursorIdx` inside the
array. -/
def CaretOK (s : GuiStates) : Prop :=
  vecAt s.StrWidthPrefixSum s.CursorIdx = some (s.CursorPos - 4)

/-- The text-edit state as `InputText` keeps it while editing: the width array
belongs to the working string, cursor and anchor are positions of the string,
and the caret position is derived from the width array. -/
def EditOK (env : Env) (s : GuiStates) : Prop :=
  PrefixOK env s ∧ TextOK s ∧ CaretOK s

/-- The call enters editing: a click or double click inside the rect. -/
def InputText.entersEditing (s : GuiStates) (width : Int) : Prop :=
  PtInRect (InputText.rect s width) (mousePt s) = true ∧
    (s.MouseState.Action = MouseAction.LButtonDown ∨
      s.MouseState.Action = MouseAction.LButtonDbClick)

/-- One `CheckBox` declared in consecutive frames at the place it has in
`first`, one mouse snapshot per frame, the flag being passed on from frame to
frame: the flag and the record after the last frame. -/
def CheckBox.frames (env : Env) (first : GuiStates) :
    Bool → GuiStates → List MouseEventArgs → Bool × GuiStates
  | checked, last, [] => (checked, last)
  | checked, last, m :: ms =>
    let r := CheckBox env (nextEntry first last m last.KeyState) checked
    CheckBox.frames env first r.2 r.1 ms

/-- One `RadioButton` declared in consecutive frames at the place it has in
`first`, one mouse snapshot per frame, the shared value being passed on from
frame to frame: the value and the record after the last frame. -/
def RadioButton.frames (env : Env) (activeVal : Int) (first : GuiStates) :
    Int → GuiStates → List MouseEventArgs → Int × GuiStates
  | currentVal, last, [] => (currentVal, last)
  | currentVal, last, m :: ms =>
    let r := RadioButton env (nextEntry first last m last.KeyState) activeVal currentVal
    RadioButton.frames env activeVal first r.2 r.1 ms

end EDXGui

/-! ## Sample dialog -/

/-- Sample control operations over retained buttons: a button contains the
points of its bounding rect, and the hover and focus notifications leave the
button as it is. -/
def sampleOps : ControlOps ButtonCtx :=
  { ContainsPoint := fun c pt => PtInRect c.button.mBBox pt
    HandleMouse := Button.HandleMouse
    OnMouseIn := fun c => c
    OnMouseOut := fun c => c
    SetFocus := fun c => c
    ResetFocus := fun c => c }

/-- A sample button of 100 by 20 at (10, `y`) that is neither down nor pressed
and has not fired. -/
def sampleButton (ID : Nat) (y : Int) : ButtonCtx :=
  { button :=
      { mID := ID, mX := 10, mY := y, mWidth := 100, mHeight := 20
        mBBox := SetRect 10 y 110 (y + 20), mbDown := false, mPressed := false }
    triggered := 0 }

/-- A sample visible dialog at (600, 0) with two buttons, at local (10, 10) and
(10, 40), the given focus and hovered pointers and no call made so far. -/
def sampleDialog (focus hovered : Option Nat) : EDXDialog ButtonCtx :=
  { mVisible := true, mPosX := 600, mPosY := 0
    mvControls := [sampleButton 1 10, sampleButton 2 40]
    mpFocusControl := focus, mpHoveredControl := hovered, calls := [] }

/-- A sample closed combo box of 150 by 18 at (10, 100) with three items of
values 10, 20 and 30 and rows of height 20, its rects as `UpdateRect` leaves
them, an attached callback and no event sent so far. -/
def sampleComboBox : ComboBoxCtx :=
  { comboBox :=
      ComboBox.UpdateRect 20
        { mID := 5, mX := 10, mY := 100, mWidth := 150, mHeight := 18
          mBBox := SetRect 0 0 0 0, mButtonSize := 8
          mNumItems := 3, mSelectedIdx := 0, mHoveredIdx := 0, mOpened := false
          mBoxMain := SetRect 0 0 0 0, mBoxDropdown := SetRect 0 0 0 0
          mpItems := [10, 20, 30] }
    refVal := 10
    dialog := { attached := true, sent := [], invoked := [] } }

end GUI
end EDX

/-! # Theorems -/

namespace EDX
namespace GUI
namespace EDXGui

/-! ## Basic facts -/

theorem Math_Min_eq_min (a b : Int) : Math.Min a b = min a b := by
  unfold Math.Min; split_ifs with h
  · exact (min_eq_left (le_of_lt h)).symm
  · exact (min_eq_right (not_lt.mp h)).symm

theorem Math_Max_eq_max (a b : Int) : Math.Max a b = max a b := by
  unfold Math.Max; split_ifs with h
  · exact (max_eq_left (le_of_lt h)).symm
  · exact (max_eq_right (not_lt.mp h)).symm

theorem advance_ActiveId (env : Env) (s : GuiStates) (h : Int) :
    (advance env s h).ActiveId = s.ActiveId := by
  unfold advance; split <;> rfl

theorem advance_HoveredId (env : Env) (s : GuiStates) (h : Int) :
    (advance env s h).HoveredId = s.HoveredId := by
  unfold advance; split <;> rfl

theorem advance_CurrentId (env : Env) (s : GuiStates) (h : Int) :
    (advance env s h).CurrentId = s.CurrentId := by
  unfold advance; split <;> rfl

theorem advance_MouseState (env : Env) (s : GuiStates) (h : Int) :
    (advance env s h).MouseState = s.MouseState := by
  unfold advance; split <;> rfl

/-! ## Button -/

theorem Button_trigger (env : Env) (s : GuiStates) (width height : Int) :
    (Button env s width height).2 =
      (decide (s.MouseState.Action = MouseAction.LButtonUp ∧ s.ActiveId = s.CurrentId) &&
        PtInRect (Button.rect s width height) (mousePt s)) := by
  unfold Button
  have e1 : Button.rect { s with CurrentId := s.CurrentId + 1 } width height
      = Button.rect s width height := rfl
  have e2 : mousePt { s with CurrentId := s.CurrentId + 1 } = mousePt s := rfl
  simp only [e1, e2]
  cases hp : PtInRect (Button.rect s width height) (mousePt s) <;>
  cases ha : s.MouseState.Action <;> simp [hp, ha]

theorem Button_ActiveId (env : Env) (s : GuiStates) (width height : Int) :
    (Button env s width height).1.ActiveId =
      if s.MouseState.Action = MouseAction.LButtonDown ∧
          PtInRect (Button.rect s width height) (mousePt s) = true then s.CurrentId
      else if s.MouseState.Action = MouseAction.LButtonUp ∧ s.ActiveId = s.CurrentId then -1
      else s.ActiveId := by
  unfold Button
  have e1 : Button.rect { s with CurrentId := s.CurrentId + 1 } width height
      = Button.rect s width height := rfl
  have e2 : mousePt { s with CurrentId := s.CurrentId + 1 } = mousePt s := rfl
  simp only [e1, e2, advance_ActiveId]
  cases hp : PtInRect (Button.rect s width height) (mousePt s) <;>
  cases ha : s.MouseState.Action <;> simp [hp, ha] <;> split_ifs <;> simp_all

theorem Button_HoveredId (env : Env) (s : GuiStates) (width height : Int) :
    (Button env s width height).1.HoveredId =
      if PtInRect (Button.rect s width height) (mousePt s) = true then s.CurrentId
      else s.HoveredId := by
  unfold Button
  have e1 : Button.rect { s with CurrentId := s.CurrentId + 1 } width height
      = Button.rect s width height := rfl
  have e2 : mousePt { s with CurrentId := s.CurrentId + 1 } = mousePt s := rfl
  simp only [e1, e2, advance_HoveredId]
  cases hp : PtInRect (Button.rect s width height) (mousePt s) <;>
  cases ha : s.MouseState.Action <;> simp [hp, ha] <;> split_ifs <;> simp_all

theorem Button_CurrentId (env : Env) (s : GuiStates) (width height : Int) :
    (Button env s width height).1.CurrentId = s.CurrentId + 1 := by
  unfold Button
  simp only [advance_CurrentId]
  split_ifs <;> rfl

theorem Button_MouseState (env : Env) (s : GuiStates) (width height : Int) :
    (Button env s width height).1.MouseState = s.MouseState := by
  unfold Button
  simp only [advance_MouseState]
  split_ifs <;> rfl

theorem PtInRect_Button_rect (s : GuiStates) (width height : Int) :
    PtInRect (Button.rect s width height) (mousePt s) = true ↔
      (s.CurrentPosX ≤ s.MouseState.x ∧
        s.MouseState.x < min (s.CurrentPosX + width) s.WidgetEndX ∧
        s.CurrentPosY ≤ s.MouseState.y ∧ s.MouseState.y < s.CurrentPosY + height) := by
  simp only [PtInRect, Button.rect, mousePt, SetRect, Math_Min_eq_min, decide_eq_true_eq]

/-- Frames in which the mouse only moves leave the active id alone and never
fire the button. -/
theorem Button_frames_moves (env : Env) (width height : Int) (first : GuiStates)
    (moves : List MouseEventArgs) (hm : ∀ m ∈ moves, m.Action = MouseAction.Move)
    (rest : List MouseEventArgs) (last : GuiStates) :
    ∃ mid : GuiStates, mid.ActiveId = last.ActiveId ∧
      Button.frames env width height first last (moves ++ rest) =
        (List.replicate moves.length false ++ (Button.frames env width height first mid rest).1,
          (Button.frames env width height first mid rest).2) := by
  induction moves generalizing last with
  | nil => exact ⟨last, rfl, by simp⟩
  | cons m ms ih =>
    have hmv : m.Action = MouseAction.Move := hm m (List.mem_cons_self _ _)
    have hms : ∀ x ∈ ms, x.Action = MouseAction.Move :=
      fun x hx => hm x (List.mem_cons_of_mem _ hx)
    obtain ⟨mid, hmid, heq⟩ :=
      ih hms (Button env (nextEntry first last m last.KeyState) width height).1
    refine ⟨mid, ?_, ?_⟩
    · rw [hmid, Button_ActiveId]
      simp [nextEntry, hmv]
    · have ht : (Button env (nextEntry first last m last.KeyState) width height).2 = false := by
        rw [Button_trigger]
        simp [nextEntry, hmv]
      rw [List.cons_append]
      simp only [Button.frames, heq, ht, List.length_cons, List.replicate_succ]
      rfl

/-- C1: `Button` returns true exactly on a release (LButtonUp) that finds its
own id active and the pointer inside its rect; and a button declared at the
same place in every frame never fires during press inside, any number of Move
frames, release outside, after which no widget is active. -/
theorem Button_fires_iff_release_inside (env : Env) (s : GuiStates) (width height : Int)
    (down up : MouseEventArgs) (moves : List MouseEventArgs) :
    ((Button env s width height).2 = true ↔
      (s.MouseState.Action = MouseAction.LButtonUp ∧ s.ActiveId = s.CurrentId ∧
        s.CurrentPosX ≤ s.MouseState.x ∧
        s.MouseState.x < min (s.CurrentPosX + width) s.WidgetEndX ∧
        s.CurrentPosY ≤ s.MouseState.y ∧ s.MouseState.y < s.CurrentPosY + height)) ∧
    (down.Action = MouseAction.LButtonDown →
      PtInRect (Button.rect s width height) { x := down.x, y := down.y } = true →
      (∀ m ∈ moves, m.Action = MouseAction.Move) →
      up.Action = MouseAction.LButtonUp →
      PtInRect (Button.rect s width height) { x := up.x, y := up.y } = false →
      (Button.frames env width height s s (down :: (moves ++ [up]))).1 =
          List.replicate (moves.length + 2) false ∧
        (Button.frames env width height s s (down :: (moves ++ [up]))).2.ActiveId = -1) := by
  constructor
  · rw [Button_trigger, Bool.and_eq_true, PtInRect_Button_rect, decide_eq_true_eq, and_assoc]
  · intro hd hin hm hu hout
    obtain ⟨mid, hmid, heq⟩ := Button_frames_moves env width height s moves hm [up]
      (Button env (nextEntry s s down s.KeyState) width height).1
    have hrect : ∀ (l : GuiStates) (m : MouseEventArgs) (k : KeyboardEventArgs),
        Button.rect (nextEntry s l m k) width height = Button.rect s width height :=
      fun _ _ _ => rfl
    have hpt : ∀ (l : GuiStates) (m : MouseEventArgs) (k : KeyboardEventArgs),
        mousePt (nextEntry s l m k) = { x := m.x, y := m.y } := fun _ _ _ => rfl
    have hact : mid.ActiveId = s.CurrentId := by
      rw [hmid, Button_ActiveId, hrect, hpt, hin]
      simp [nextEntry, hd]
    have ht0 : (Button env (nextEntry s s down s.KeyState) width height).2 = false := by
      rw [Button_trigger]
      simp [nextEntry, hd]
    have ht1 : (Button env (nextEntry s mid up mid.KeyState) width height).2 = false := by
      rw [Button_trigger, hrect, hpt, hout]
      simp
    have ha1 : (Button env (nextEntry s mid up mid.KeyState) width height).1.ActiveId = -1 := by
      rw [Button_ActiveId, hrect, hpt, hout]
      simp [nextEntry, hu, hact]
    simp only [Button.frames, heq, ht0, ht1, ha1]
    refine ⟨?_, trivial⟩
    have hrep : ∀ n : Nat, List.replicate n false ++ [false] = List.replicate (n + 1) false := by
      intro n
      induction n with
      | zero => rfl
      | succ k ih => rw [List.replicate_succ, List.cons_append, ih, ← List.replicate_succ]
    rw [hrep, ← List.replicate_succ]

/-- Witness for C1: press at (30, 30) inside the 100 by 20 button at (25, 25),
one Move frame, release at (300, 300) outside. -/
theorem Button_fires_iff_release_inside_witness :
    (sampleMouse 30 30 MouseAction.LButtonDown).Action = MouseAction.LButtonDown ∧
    PtInRect (Button.rect (sampleStates (sampleMouse 0 0 MouseAction.None) (-1)) 100 20)
      { x := 30, y := 30 } = true ∧
    (∀ m ∈ [sampleMouse 300 300 MouseAction.Move], m.Action = MouseAction.Move) ∧
    PtInRect (Button.rect (sampleStates (sampleMouse 0 0 MouseAction.None) (-1)) 100 20)
      { x := 300, y := 300 } = false ∧
    (Button.frames sampleEnv 100 20 (sampleStates (sampleMouse 0 0 MouseAction.None) (-1))
        (sampleStates (sampleMouse 0 0 MouseAction.None) (-1))
        [sampleMouse 30 30 MouseAction.LButtonDown, sampleMouse 300 300 MouseAction.Move,
          sampleMouse 300 300 MouseAction.LButtonUp]).1 = [false, false, false] ∧
    (Button.frames sampleEnv 100 20 (sampleStates (sampleMouse 0 0 MouseAction.None) (-1))
        (sampleStates (sampleMouse 0 0 MouseAction.None) (-1))
        [sampleMouse 30 30 MouseAction.LButtonDown, sampleMouse 300 300 MouseAction.Move,
          sampleMouse 300 300 MouseAction.LButtonUp]).2.ActiveId = -1 :=
  have hin : PtInRect (Button.rect (sampleStates (sampleMouse 0 0 MouseAction.None) (-1)) 100 20)
      { x := 30, y := 30 } = true := by decide
  have hout : PtInRect (Button.rect (sampleStates (sampleMouse 0 0 MouseAction.None) (-1)) 100 20)
      { x := 300, y := 300 } = false := by decide
  have hm : ∀ m ∈ [sampleMouse 300 300 MouseAction.Move], m.Action = MouseAction.Move := by
    intro m hmem
    rw [List.mem_singleton.mp hmem]
    rfl
  ⟨rfl, hin, hm, hout,
    (Button_fires_iff_release_inside sampleEnv
      (sampleStates (sampleMouse 0 0 MouseAction.None) (-1)) 100 20
      (sampleMouse 30 30 MouseAction.LButtonDown) (sampleMouse 300 300 MouseAction.LButtonUp)
      [sampleMouse 300 300 MouseAction.Move]).2 rfl hin hm rfl hout⟩

/-! ## Release handling of the click widgets -/

theorem CollapsingHeader_release (env : Env) (s : GuiStates) (collapsed : Bool)
    (hup : s.MouseState.Action = MouseAction.LButtonUp) (hact : s.ActiveId = s.CurrentId) :
    (CollapsingHeader env s collapsed).1.ActiveId = -1 ∧
      (CollapsingHeader env s collapsed).2.1 =
        (if PtInRect (CollapsingHeader.rect s collapsed) (mousePt s) then !collapsed
          else collapsed) := by
  unfold CollapsingHeader
  have e1 : CollapsingHeader.rect { s with CurrentId := s.CurrentId + 1 } collapsed
      = CollapsingHeader.rect s collapsed := rfl
  have e2 : mousePt { s with CurrentId := s.CurrentId + 1 } = mousePt s := rfl
  simp only [e1, e2, advance_ActiveId]
  cases hp : PtInRect (CollapsingHeader.rect s collapsed) (mousePt s) <;>
    cases collapsed <;> simp [hp, hup, hact]

theorem CheckBox_release (env : Env) (s : GuiStates) (checked : Bool)
    (hup : s.MouseState.Action = MouseAction.LButtonUp) (hact : s.ActiveId = s.CurrentId) :
    (CheckBox env s checked).2 =
        (if PtInRect (boxRect s) (mousePt s) then !checked else checked) ∧
      (CheckBox env s checked).1.ActiveId =
        (if PtInRect (boxRect s) (mousePt s) then -1 else s.CurrentId) := by
  unfold CheckBox
  have e1 : boxRect { s with CurrentId := s.CurrentId + 1 } = boxRect s := rfl
  have e2 : mousePt { s with CurrentId := s.CurrentId + 1 } = mousePt s := rfl
  simp only [e1, e2]
  cases hp : PtInRect (boxRect s) (mousePt s) <;>
    simp [hp, hup, hact, advance_ActiveId]

theorem RadioButton_release (env : Env) (s : GuiStates) (activeVal currentVal : Int)
    (hup : s.MouseState.Action = MouseAction.LButtonUp) (hact : s.ActiveId = s.CurrentId) :
    (RadioButton env s activeVal currentVal).2 =
        (if PtInRect (boxRect s) (mousePt s) then activeVal else currentVal) ∧
      (RadioButton env s activeVal currentVal).1.ActiveId =
        (if PtInRect (boxRect s) (mousePt s) then -1 else s.CurrentId) := by
  unfold RadioButton
  have e1 : boxRect { s with CurrentId := s.CurrentId + 1 } = boxRect s := rfl
  have e2 : mousePt { s with CurrentId := s.CurrentId + 1 } = mousePt s := rfl
  simp only [e1, e2]
  cases hp : PtInRect (boxRect s) (mousePt s) <;>
    simp [hp, hup, hact, advance_ActiveId]

/-- C4, as stated, fails for `CheckBox`: a release outside the box with the
check box active leaves it active (the active id is still its id 0). -/
theorem CheckBox_release_outside_stays_active :
    (sampleStates (sampleMouse 300 300 MouseAction.LButtonUp) 0).MouseState.Action
        = MouseAction.LButtonUp ∧
      (sampleStates (sampleMouse 300 300 MouseAction.LButtonUp) 0).ActiveId
        = (sampleStates (sampleMouse 300 300 MouseAction.LButtonUp) 0).CurrentId ∧
      (CheckBox sampleEnv (sampleStates (sampleMouse 300 300 MouseAction.LButtonUp) 0)
        false).1.ActiveId ≠ -1 := by
  decide

/-- C4 (amended): on a release (LButtonUp) that finds the own id active, each
of the four widgets performs its action exactly when the pointer is inside its
rect; `Button` and `CollapsingHeader` clear the active id wherever the pointer
is, `CheckBox` and `RadioButton` clear it when the pointer is inside their box
and leave it at their id when it is outside. -/
theorem release_commits_iff_inside (env : Env) (s : GuiStates)
    (width height : Int) (collapsed checked : Bool) (activeVal currentVal : Int)
    (hup : s.MouseState.Action = MouseAction.LButtonUp) (hact : s.ActiveId = s.CurrentId) :
    ((Button env s width height).1.ActiveId = -1 ∧
      ((Button env s width height).2 = true ↔
        PtInRect (Button.rect s width height) (mousePt s) = true)) ∧
    ((CollapsingHeader env s collapsed).1.ActiveId = -1 ∧
      ((CollapsingHeader env s collapsed).2.1 = (!collapsed) ↔
        PtInRect (CollapsingHeader.rect s collapsed) (mousePt s) = true)) ∧
    (((CheckBox env s checked).2 = (!checked) ↔ PtInRect (boxRect s) (mousePt s) = true) ∧
      (PtInRect (boxRect s) (mousePt s) = true → (CheckBox env s checked).1.ActiveId = -1) ∧
      (PtInRect (boxRect s) (mousePt s) = false →
        (CheckBox env s checked).1.ActiveId = s.CurrentId)) ∧
    ((RadioButton env s activeVal currentVal).2 =
        (if PtInRect (boxRect s) (mousePt s) = true then activeVal else currentVal) ∧
      (PtInRect (boxRect s) (mousePt s) = true →
        (RadioButton env s activeVal currentVal).1.ActiveId = -1) ∧
      (PtInRect (boxRect s) (mousePt s) = false →
        (RadioButton env s activeVal currentVal).1.ActiveId = s.CurrentId)) := by
  refine ⟨⟨?_, ?_⟩, ⟨?_, ?_⟩, ⟨?_, ?_, ?_⟩, ⟨?_, ?_, ?_⟩⟩
  · rw [Button_ActiveId]
    simp [hup, hact]
  · rw [Button_trigger]
    simp [hup, hact]
  · exact (CollapsingHeader_release env s collapsed hup hact).1
  · rw [(CollapsingHeader_release env s collapsed hup hact).2]
    cases PtInRect (CollapsingHeader.rect s collapsed) (mousePt s) <;> cases collapsed <;> simp
  · rw [(CheckBox_release env s checked hup hact).1]
    cases PtInRect (boxRect s) (mousePt s) <;> cases checked <;> simp
  · intro h
    rw [(CheckBox_release env s checked hup hact).2, h]
    rfl
  · intro h
    rw [(CheckBox_release env s checked hup hact).2, h]
    rfl
  · exact (RadioButton_release env s activeVal currentVal hup hact).1
  · intro h
    rw [(RadioButton_release env s activeVal currentVal hup hact).2, h]
    rfl
  · intro h
    rw [(RadioButton_release env s activeVal currentVal hup hact).2, h]
    rfl

/-- Witness for C4: a release at (30, 30), inside the rects of a 100 by 20
button and of a check box at (25, 25), with id 0 active. -/
theorem release_commits_iff_inside_witness :
    (sampleStates (sampleMouse 30 30 MouseAction.LButtonUp) 0).MouseState.Action
      = MouseAction.LButtonUp ∧
    (sampleStates (sampleMouse 30 30 MouseAction.LButtonUp) 0).ActiveId
      = (sampleStates (sampleMouse 30 30 MouseAction.LButtonUp) 0).CurrentId ∧
    (Button sampleEnv (sampleStates (sampleMouse 30 30 MouseAction.LButtonUp) 0)
      100 20).1.ActiveId = -1 ∧
    (CheckBox sampleEnv (sampleStates (sampleMouse 30 30 MouseAction.LButtonUp) 0)
      false).1.ActiveId = -1 :=
  ⟨rfl, rfl,
    (release_commits_iff_inside sampleEnv (sampleStates (sampleMouse 30 30 MouseAction.LButtonUp) 0)
      100 20 false false 1 0 rfl rfl).1.1,
    (release_commits_iff_inside sampleEnv (sampleStates (sampleMouse 30 30 MouseAction.LButtonUp) 0)
      100 20 false false 1 0 rfl rfl).2.2.1.2.1 (by decide)⟩

/-! ## Sequences of buttons -/

theorem Buttons_append (env : Env) (bs : List (Int × Int)) (b : Int × Int) (s : GuiStates) :
    Buttons env (bs ++ [b]) s = (Button env (Buttons env bs s) b.1 b.2).1 := by
  induction bs generalizing s with
  | nil => rfl
  | cons a as ih => exact ih (Button env s a.1 a.2).1

theorem Buttons_CurrentId (env : Env) (bs : List (Int × Int)) (s : GuiStates) :
    (Buttons env bs s).CurrentId = s.CurrentId + bs.length := by
  induction bs generalizing s with
  | nil => simp [Buttons]
  | cons a as ih =>
    rw [Buttons, ih, Button_CurrentId, List.length_cons]
    push_cast
    ring

theorem Buttons_MouseState (env : Env) (bs : List (Int × Int)) (s : GuiStates) :
    (Buttons env bs s).MouseState = s.MouseState := by
  induction bs generalizing s with
  | nil => rfl
  | cons a as ih => rw [Buttons, ih, Button_MouseState]

theorem Buttons_hit_append_lt (env : Env) (bs : List (Int × Int)) (b : Int × Int)
    (s : GuiStates) (k : Nat) (hk : k < bs.length) :
    Buttons.hit env (bs ++ [b]) s k = Buttons.hit env bs s k := by
  unfold Buttons.hit
  rw [List.getElem?_append_left hk, List.take_append_of_le_length (le_of_lt hk)]

theorem Buttons_hit_append_last (env : Env) (bs : List (Int × Int)) (b : Int × Int)
    (s : GuiStates) :
    Buttons.hit env (bs ++ [b]) s bs.length =
      PtInRect (Button.rect (Buttons env bs s) b.1 b.2) (mousePt (Buttons env bs s)) := by
  unfold Buttons.hit
  have hm : mousePt (Buttons env bs s) = mousePt s := by
    unfold mousePt
    rw [Buttons_MouseState]
  simp [hm]

/-- Hover and press bookkeeping of a button sequence, by induction from the
last declaration: without a hit both ids are the ones on entry; otherwise the
hover id is the position of the last hit, and so is the active id on a press. -/
theorem Buttons_last_hit (env : Env) (bs : List (Int × Int)) (t : GuiStates)
    (hid : t.CurrentId = 0) :
    ((∀ k, k < bs.length → Buttons.hit env bs t k = false) →
      (Buttons env bs t).HoveredId = t.HoveredId) ∧
    (∀ k, k < bs.length → Buttons.hit env bs t k = true →
      (∀ j, k < j → j < bs.length → Buttons.hit env bs t j = false) →
      (Buttons env bs t).HoveredId = (k : Int) ∧
        (t.MouseState.Action = MouseAction.LButtonDown →
          (Buttons env bs t).ActiveId = (k : Int))) := by
  induction bs using List.reverseRecOn with
  | nil =>
    exact ⟨fun _ => rfl, fun k hk => absurd hk (Nat.not_lt_zero k)⟩
  | append_singleton bs b ih =>
    obtain ⟨ihA, ihB⟩ := ih
    have hlen : (bs ++ [b]).length = bs.length + 1 := by simp
    have hcur : (Buttons env bs t).CurrentId = (bs.length : Int) := by
      rw [Buttons_CurrentId, hid, zero_add]
    constructor
    · intro hall
      have hlast := hall bs.length (by omega)
      rw [Buttons_hit_append_last] at hlast
      rw [Buttons_append, Button_HoveredId, hlast]
      simp only [Bool.false_eq_true, if_false]
      apply ihA
      intro k hk
      rw [← Buttons_hit_append_lt env bs b t k hk]
      exact hall k (by omega)
    · intro k hk hhit hlater
      rw [hlen] at hk
      rcases Nat.lt_succ_iff_lt_or_eq.mp hk with hlt | heq
      · have hlast := hlater bs.length hlt (by omega)
        rw [Buttons_hit_append_last] at hlast
        rw [Buttons_hit_append_lt env bs b t k hlt] at hhit
        have hrest := ihB k hlt hhit (fun j hkj hj => by
          rw [← Buttons_hit_append_lt env bs b t j hj]
          exact hlater j hkj (by omega))
        constructor
        · rw [Buttons_append, Button_HoveredId, hlast]
          simp only [Bool.false_eq_true, if_false]
          exact hrest.1
        · intro hdown
          rw [Buttons_append, Button_ActiveId, hlast, Buttons_MouseState, hdown]
          simp only [Bool.false_eq_true, and_false, if_false]
          simpa using hrest.2 hdown
      · subst heq
        rw [Buttons_hit_append_last] at hhit
        constructor
        · rw [Buttons_append, Button_HoveredId, hhit]
          simpa using hcur
        · intro hdown
          rw [Buttons_append, Button_ActiveId, hhit, Buttons_MouseState, hdown]
          simpa using hcur

/-- C3: for buttons declared in one frame after `BeginFrame` (id counter 0,
hover id -1) under one mouse snapshot, the hover id after the last call is -1
when no rect contains the pointer and otherwise the id (the position) of the
last declared button whose rect contains it; on a press (LButtonDown) the
active id is that same id. -/
theorem Buttons_last_writer_wins (env : Env) (t : GuiStates) (bs : List (Int × Int))
    (hid : t.CurrentId = 0) (hhov : t.HoveredId = -1) :
    ((∀ k, k < bs.length → Buttons.hit env bs t k = false) →
      (Buttons env bs t).HoveredId = -1) ∧
    (∀ k, k < bs.length → Buttons.hit env bs t k = true →
      (∀ j, k < j → j < bs.length → Buttons.hit env bs t j = false) →
      (Buttons env bs t).HoveredId = (k : Int) ∧
        (t.MouseState.Action = MouseAction.LButtonDown →
          (Buttons env bs t).ActiveId = (k : Int))) := by
  obtain ⟨hA, hB⟩ := Buttons_last_hit env bs t hid
  exact ⟨fun h => (hA h).trans hhov, hB⟩

/-- Witness for C3: under horizontal growth two 100 by 20 buttons overlap (the
second one starts 5 pixels to the right); a press at (40, 30) lies in both
rects and the second button (id 1) ends up hovered and active. -/
theorem Buttons_last_writer_wins_witness :
    ({ sampleStates (sampleMouse 40 30 MouseAction.LButtonDown) (-1) with
        CurrentGrowthStrategy := GrowthStrategy.Horizontal } : GuiStates).CurrentId = 0 ∧
    Buttons.hit sampleEnv [(100, 20), (100, 20)]
      { sampleStates (sampleMouse 40 30 MouseAction.LButtonDown) (-1) with
        CurrentGrowthStrategy := GrowthStrategy.Horizontal } 0 = true ∧
    Buttons.hit sampleEnv [(100, 20), (100, 20)]
      { sampleStates (sampleMouse 40 30 MouseAction.LButtonDown) (-1) with
        CurrentGrowthStrategy := GrowthStrategy.Horizontal } 1 = true ∧
    (Buttons sampleEnv [(100, 20), (100, 20)]
      { sampleStates (sampleMouse 40 30 MouseAction.LButtonDown) (-1) with
        CurrentGrowthStrategy := GrowthStrategy.Horizontal }).HoveredId = 1 ∧
    (Buttons sampleEnv [(100, 20), (100, 20)]
      { sampleStates (sampleMouse 40 30 MouseAction.LButtonDown) (-1) with
        CurrentGrowthStrategy := GrowthStrategy.Horizontal }).ActiveId = 1 :=
  have h1 : Buttons.hit sampleEnv [(100, 20), (100, 20)]
      { sampleStates (sampleMouse 40 30 MouseAction.LButtonDown) (-1) with
        CurrentGrowthStrategy := GrowthStrategy.Horizontal } 1 = true := by decide
  have hlast := (Buttons_last_writer_wins sampleEnv
      { sampleStates (sampleMouse 40 30 MouseAction.LButtonDown) (-1) with
        CurrentGrowthStrategy := GrowthStrategy.Horizontal }
      [(100, 20), (100, 20)] rfl rfl).2 1 (by decide) h1
      (fun j hj hj2 => absurd hj2 (by simp only [List.length_cons, List.length_nil]; omega))
  ⟨rfl, by decide, h1, hlast.1, hlast.2 rfl⟩

/-! ## Text-edit state -/

theorem CalcCharWidthPrefixSum_loop_length (env : Env) (str : List Char) (last : Int) :
    (CalcCharWidthPrefixSum.loop env str last).length = str.length := by
  induction str generalizing last with
  | nil => rfl
  | cons c cs ih => simp [CalcCharWidthPrefixSum.loop, ih]

theorem CalcCharWidthPrefixSum_length (env : Env) (str : List Char) :
    (CalcCharWidthPrefixSum env str).length = str.length + 1 := by
  simp [CalcCharWidthPrefixSum, CalcCharWidthPrefixSum_loop_length]

theorem lower_bound_loop_le (v : List Int) (value : Int) (fuel first count : Nat)
    (h : first + count ≤ v.length) :
    lower_bound.loop v value fuel first count ≤ v.length := by
  induction fuel generalizing first count with
  | zero => simp only [lower_bound.loop]; omega
  | succ n ih =>
    simp only [lower_bound.loop]
    split_ifs with h0 h1
    · omega
    · apply ih
      have := Nat.div_le_self count 2
      omega
    · apply ih
      have := Nat.div_le_self count 2
      omega

theorem lower_bound_le (v : List Int) (value : Int) : lower_bound v value ≤ v.length := by
  unfold lower_bound
  exact lower_bound_loop_le v value v.length 0 v.length (by omega)

theorem vecAt_isSome (v : List Int) (i : Int) (h0 : 0 ≤ i) (h1 : i < v.length) :
    ∃ w, vecAt v i = some w := by
  have hlt : i.toNat < v.length := by omega
  exact ⟨v[i.toNat], by simp [vecAt, h0, List.getElem?_eq_getElem hlt]⟩

theorem strErase_isSome (str : List Char) (pos len : Int) (h0 : 0 ≤ pos)
    (h1 : pos ≤ str.length) :
    ∃ r, strErase str pos len = some r ∧
      r.length = pos.toNat + (str.length - (pos.toNat + len.toNat)) := by
  refine ⟨str.take pos.toNat ++ str.drop (pos.toNat + len.toNat),
    by simp [strErase, h0, h1], ?_⟩
  simp only [List.length_append, List.length_take, List.length_drop]
  omega

theorem strInsert_isSome (str : List Char) (pos : Int) (c : Char) (h0 : 0 ≤ pos)
    (h1 : pos ≤ str.length) :
    ∃ r, strInsert str pos c = some r ∧ r.length = str.length + 1 := by
  refine ⟨str.take pos.toNat ++ c :: str.drop pos.toNat, by simp [strInsert, h0, h1], ?_⟩
  simp only [List.length_append, List.length_take, List.length_cons, List.length_drop]
  omega

theorem getLast?_isSome_of_length (v : List Int) (n : Nat) (h : v.length = n + 1) :
    ∃ w, v.getLast? = some w := by
  cases v with
  | nil => simp at h
  | cons a as => exact ⟨_, List.getLast?_eq_getLast _ (List.cons_ne_nil a as)⟩

/-- Erasing the selection of a well-shaped text state succeeds and leaves the
cursor inside the shortened string. -/
theorem eraseSelection_ok (env : Env) (s : GuiStates) (h : TextOK s) :
    ∃ t, eraseSelection env s = some t ∧ sameOutsideText s t ∧ t.SelectIdx = s.SelectIdx ∧
      t.CursorIdx = min s.CursorIdx s.SelectIdx ∧
      TextOK { t with SelectIdx := t.CursorIdx } := by
  obtain ⟨hl, hc0, hc1, hs0, hs1⟩ := h
  have hmin0 : 0 ≤ min s.CursorIdx s.SelectIdx := le_min hc0 hs0
  have hmin1 : min s.CursorIdx s.SelectIdx ≤ s.BufferedString.length :=
    le_trans (min_le_left _ _) hc1
  obtain ⟨str, hstr, hlen⟩ := strErase_isSome s.BufferedString (min s.CursorIdx s.SelectIdx)
    (max s.CursorIdx s.SelectIdx - min s.CursorIdx s.SelectIdx) hmin0 hmin1
  obtain ⟨w, hw⟩ := vecAt_isSome s.StrWidthPrefixSum (min s.CursorIdx s.SelectIdx) hmin0
    (by rw [hl]; push_cast; omega)
  refine ⟨{ s with
      BufferedString := str
      CursorIdx := min s.CursorIdx s.SelectIdx
      CursorPos := 4 + w
      StrWidthPrefixSum := CalcCharWidthPrefixSum env str },
    by simp only [eraseSelection, Math_Min_eq_min, Math_Max_eq_max, hstr, hw,
      Option.some_bind], rfl, rfl, rfl, ?_⟩
  refine ⟨by simp [CalcCharWidthPrefixSum_length], hmin0, ?_, hmin0, ?_⟩ <;>
  · simp only [hlen]
    have hmax : max s.CursorIdx s.SelectIdx ≤ s.BufferedString.length := max_le hc1 hs1
    have hmm : min s.CursorIdx s.SelectIdx ≤ max s.CursorIdx s.SelectIdx :=
      le_trans (min_le_left _ _) (le_max_left _ _)
    omega

theorem sameOutsideText_refl (s : GuiStates) : sameOutsideText s s := rfl

theorem sameOutsideText_trans {s t u : GuiStates} (h1 : sameOutsideText s t)
    (h2 : sameOutsideText t u) : sameOutsideText s u := by
  unfold sameOutsideText at *
  rw [h2, h1]

theorem caseLeftArrow_ok (s : GuiStates) (h : TextOK s) :
    ∃ t, InputText.caseLeftArrow s = some t ∧ sameOutsideText s t ∧
      t.BufferedString = s.BufferedString ∧ t.CursorIdx = max (s.CursorIdx - 1) 0 ∧
      TextOK { t with SelectIdx := t.CursorIdx } := by
  obtain ⟨hl, hc0, hc1, hs0, hs1⟩ := h
  obtain ⟨a, ha⟩ := vecAt_isSome s.StrWidthPrefixSum s.CursorIdx hc0 (by rw [hl]; push_cast; omega)
  obtain ⟨b, hb⟩ := vecAt_isSome s.StrWidthPrefixSum (max (s.CursorIdx - 1) 0)
    (le_max_right _ _) (by rw [hl]; push_cast; omega)
  refine ⟨{ s with CursorIdx := max (s.CursorIdx - 1) 0, CursorPos := s.CursorPos - (a - b) },
    by simp only [InputText.caseLeftArrow, Math_Max_eq_max, ha, hb, Option.some_bind],
    rfl, rfl, rfl, ?_⟩
  unfold TextOK
  dsimp only
  omega

theorem caseRightArrow_ok (s : GuiStates) (h : TextOK s) :
    ∃ t, InputText.caseRightArrow s = some t ∧ sameOutsideText s t ∧
      t.BufferedString = s.BufferedString ∧
      t.CursorIdx = min (s.CursorIdx + 1) s.BufferedString.length ∧
      TextOK { t with SelectIdx := t.CursorIdx } := by
  obtain ⟨hl, hc0, hc1, hs0, hs1⟩ := h
  obtain ⟨b, hb⟩ := vecAt_isSome s.StrWidthPrefixSum s.CursorIdx hc0 (by rw [hl]; push_cast; omega)
  obtain ⟨a, ha⟩ := vecAt_isSome s.StrWidthPrefixSum
    (min (s.CursorIdx + 1) s.BufferedString.length)
    (by omega) (by rw [hl]; push_cast; omega)
  refine ⟨{ s with CursorIdx := min (s.CursorIdx + 1) s.BufferedString.length,
                   CursorPos := s.CursorPos + (a - b) },
    by simp only [InputText.caseRightArrow, Math_Min_eq_min, ha, hb, Option.some_bind],
    rfl, rfl, rfl, ?_⟩
  unfold TextOK
  dsimp only
  omega

theorem caseBackSpace_ok (env : Env) (s : GuiStates) (h : TextOK s) :
    ∃ t, InputText.caseBackSpace env s = some t ∧ sameOutsideText s t ∧
      TextOK { t with SelectIdx := t.CursorIdx } := by
  unfold InputText.caseBackSpace
  split_ifs with hsel hpos
  · obtain ⟨t, ht, hsame, -, -, hok⟩ := eraseSelection_ok env s h
    exact ⟨t, ht, hsame, hok⟩
  · obtain ⟨hl, hc0, hc1, hs0, hs1⟩ := h
    obtain ⟨a, ha⟩ := vecAt_isSome s.StrWidthPrefixSum s.CursorIdx hc0
      (by rw [hl]; push_cast; omega)
    obtain ⟨b, hb⟩ := vecAt_isSome s.StrWidthPrefixSum (s.CursorIdx - 1) (by omega)
      (by rw [hl]; push_cast; omega)
    obtain ⟨str, hstr, hlen⟩ := strErase_isSome s.BufferedString (s.CursorIdx - 1) 1
      (by omega) (by omega)
    refine ⟨{ s with
        BufferedString := str
        StrWidthPrefixSum := CalcCharWidthPrefixSum env str
        CursorPos := s.CursorPos - (a - b)
        CursorIdx := s.CursorIdx - 1 },
      by simp only [ha, hb, hstr, Option.some_bind], rfl, ?_⟩
    unfold TextOK
    dsimp only
    rw [CalcCharWidthPrefixSum_length, hlen]
    have h1 : (1 : Int).toNat = 1 := rfl
    omega
  · refine ⟨s, rfl, rfl, ?_⟩
    obtain ⟨hl, hc0, hc1, hs0, hs1⟩ := h
    unfold TextOK
    dsimp only
    omega

theorem caseHome_ok (s : GuiStates) (h : TextOK s) :
    sameOutsideText s (InputText.caseHome s) ∧
      TextOK { InputText.caseHome s with SelectIdx := (InputText.caseHome s).CursorIdx } := by
  refine ⟨rfl, ?_⟩
  obtain ⟨hl, hc0, hc1, hs0, hs1⟩ := h
  unfold TextOK InputText.caseHome
  dsimp only
  omega

theorem caseEnd_ok (s : GuiStates) (h : TextOK s) :
    ∃ t, InputText.caseEnd s = some t ∧ sameOutsideText s t ∧
      TextOK { t with SelectIdx := t.CursorIdx } := by
  obtain ⟨hl, hc0, hc1, hs0, hs1⟩ := h
  obtain ⟨last, hlast⟩ := getLast?_isSome_of_length s.StrWidthPrefixSum _ hl
  refine ⟨{ s with CursorPos := last + 4, CursorIdx := (s.StrWidthPrefixSum.length : Int) - 1 },
    by simp only [InputText.caseEnd, hlast, Option.some_bind], rfl, ?_⟩
  unfold TextOK
  dsimp only
  omega

theorem insertChar_ok (env : Env) (s : GuiStates) (width : Int)
    (h : TextOK { s with SelectIdx := s.CursorIdx }) :
    ∃ t, InputText.insertChar env s width = some t ∧ sameOutsideText s t ∧
      TextOK { t with SelectIdx := t.CursorIdx } := by
  obtain ⟨hl, hc0, hc1, -, -⟩ := h
  dsimp only at hl hc0 hc1
  obtain ⟨last, hlast⟩ := getLast?_isSome_of_length s.StrWidthPrefixSum _ hl
  unfold InputText.insertChar
  simp only [hlast, Option.some_bind]
  split_ifs with hcap
  · refine ⟨s, rfl, rfl, ?_⟩
    unfold TextOK
    dsimp only
    omega
  · obtain ⟨str, hstr, hlen⟩ := strInsert_isSome s.BufferedString s.CursorIdx s.KeyState.key
      hc0 hc1
    refine ⟨{ s with
        BufferedString := str
        StrWidthPrefixSum := CalcCharWidthPrefixSum env str
        CursorPos := s.CursorPos + env.textExtentCx s.KeyState.key
        CursorIdx := s.CursorIdx + 1 },
      by simp only [hstr, Option.some_bind], rfl, ?_⟩
    unfold TextOK
    dsimp only
    rw [CalcCharWidthPrefixSum_length, hlen]
    omega

theorem caseDefault_ok (env : Env) (s : GuiStates) (width : Int) (h : TextOK s) :
    ∃ t, InputText.caseDefault env s width = some t ∧ sameOutsideText s t ∧
      TextOK { t with SelectIdx := t.CursorIdx } := by
  unfold InputText.caseDefault
  split_ifs with hkey hsel
  · refine ⟨s, rfl, rfl, ?_⟩
    obtain ⟨hl, hc0, hc1, hs0, hs1⟩ := h
    unfold TextOK
    dsimp only
    omega
  · obtain ⟨s1, hs1, hsame1, -, -, hok1⟩ := eraseSelection_ok env s h
    obtain ⟨t, ht, hsame, hok⟩ := insertChar_ok env s1 width hok1
    exact ⟨t, by simp only [hs1, Option.some_bind, ht], sameOutsideText_trans hsame1 hsame, hok⟩
  · have h1 : TextOK { s with SelectIdx := s.CursorIdx } := by
      obtain ⟨hl, hc0, hc1, hs0, hs1⟩ := h
      unfold TextOK
      dsimp only
      omega
    exact insertChar_ok env s width h1

theorem keySwitch_ok (env : Env) (s : GuiStates) (width : Int) (h : TextOK s) :
    ∃ t, InputText.keySwitch env s width = some t ∧ sameOutsideText s t ∧
      TextOK { t with SelectIdx := t.CursorIdx } := by
  unfold InputText.keySwitch
  split_ifs
  · obtain ⟨t, ht, hsame, -, -, hok⟩ := caseLeftArrow_ok s h
    exact ⟨t, ht, hsame, hok⟩
  · obtain ⟨t, ht, hsame, -, -, hok⟩ := caseRightArrow_ok s h
    exact ⟨t, ht, hsame, hok⟩
  · exact caseBackSpace_ok env s h
  · exact ⟨_, rfl, (caseHome_ok s h).1, (caseHome_ok s h).2⟩
  · exact caseEnd_ok s h
  · exact caseDefault_ok env s width h

/-- The key part of `InputText` never fails on a well-shaped text state, keeps
the shape, and touches the text-edit fields only. -/
theorem InputText_key_ok (env : Env) (s : GuiStates) (Id width : Int) (h : TextOK s) :
    ∃ t, InputText.key env s Id width = some t ∧ sameOutsideText s t ∧ TextOK t := by
  unfold InputText.key
  split_ifs with hact
  · obtain ⟨t, ht, hsame, hok⟩ := keySwitch_ok env s width h
    refine ⟨{ t with SelectIdx := t.CursorIdx }, by simp only [ht, Option.some_bind], ?_, hok⟩
    unfold sameOutsideText at hsame ⊢
    rw [hsame]
  · exact ⟨s, rfl, rfl, h⟩

/-! ## Mouse part of InputText and declaration sequences -/

theorem placeCursor_CursorIdx_bounds (s : GuiStates) :
    0 ≤ (placeCursor s).CursorIdx ∧
      (placeCursor s).CursorIdx + 1 ≤ max 1 (s.StrWidthPrefixSum.length : Int) := by
  have hle := lower_bound_le s.StrWidthPrefixSum (s.MouseState.x - (s.CurrentPosX + 3))
  unfold placeCursor
  dsimp only
  split_ifs with h0
  · constructor <;> omega
  · constructor <;> omega

theorem placeCursor_TextOK (s : GuiStates)
    (hl : s.StrWidthPrefixSum.length = s.BufferedString.length + 1)
    (hs0 : 0 ≤ s.SelectIdx) (hs1 : s.SelectIdx ≤ s.BufferedString.length) :
    TextOK (placeCursor s) := by
  obtain ⟨h0, h1⟩ := placeCursor_CursorIdx_bounds s
  have e1 : (placeCursor s).BufferedString = s.BufferedString := rfl
  have e2 : (placeCursor s).StrWidthPrefixSum = s.StrWidthPrefixSum := rfl
  have e3 : (placeCursor s).SelectIdx = s.SelectIdx := rfl
  unfold TextOK
  rw [e1, e2, e3]
  omega

theorem enterEdit_length (env : Env) (s : GuiStates) (Id : Int) (buf : List Char) :
    (enterEdit env s Id buf).StrWidthPrefixSum.length =
      (enterEdit env s Id buf).BufferedString.length + 1 := by
  unfold enterEdit
  dsimp only
  rw [CalcCharWidthPrefixSum_length]

theorem enterEdit_CurrentId (env : Env) (s : GuiStates) (Id : Int) (buf : List Char) :
    (enterEdit env s Id buf).CurrentId = s.CurrentId := by
  unfold enterEdit
  dsimp only
  split_ifs <;> rfl

theorem placeCursor_CurrentId (s : GuiStates) : (placeCursor s).CurrentId = s.CurrentId := rfl

theorem selectAll_ok (env : Env) (s : GuiStates) (Id : Int) (buf : List Char) :
    (InputText.selectAll env s Id buf).CurrentId = s.CurrentId ∧
      TextOK (InputText.selectAll env s Id buf) := by
  refine ⟨enterEdit_CurrentId env s Id buf, ?_⟩
  have hl := enterEdit_length env s Id buf
  unfold TextOK InputText.selectAll
  dsimp only
  omega

theorem click_ok (env : Env) (s : GuiStates) (Id : Int) (buf : List Char) :
    (InputText.click env s Id buf).CurrentId = s.CurrentId ∧
      TextOK (InputText.click env s Id buf) := by
  refine ⟨enterEdit_CurrentId env s Id buf, ?_⟩
  have hl := enterEdit_length env s Id buf
  obtain ⟨h0, h1⟩ := placeCursor_CursorIdx_bounds (enterEdit env s Id buf)
  have e1 : (placeCursor (enterEdit env s Id buf)).BufferedString
      = (enterEdit env s Id buf).BufferedString := rfl
  have e2 : (placeCursor (enterEdit env s Id buf)).StrWidthPrefixSum
      = (enterEdit env s Id buf).StrWidthPrefixSum := rfl
  unfold TextOK InputText.click
  dsimp only
  rw [e1, e2]
  omega

theorem blur_ok (s : GuiStates) (Id : Int) (buf : List Char) :
    (InputText.blur s Id buf).1.CurrentId = s.CurrentId ∧
      (TextOK s → TextOK (InputText.blur s Id buf).1) := by
  unfold InputText.blur
  dsimp only
  split_ifs <;> exact ⟨rfl, fun h => h⟩

theorem press_ok (env : Env) (s : GuiStates) (Id : Int) (rect : RECT)
    (buf : List Char) (autoSelectAll : Bool) :
    (InputText.press env s Id rect buf autoSelectAll).1.CurrentId = s.CurrentId ∧
      (TextOK s → TextOK (InputText.press env s Id rect buf autoSelectAll).1) := by
  unfold InputText.press
  split_ifs
  · exact ⟨(selectAll_ok env s Id buf).1, fun _ => (selectAll_ok env s Id buf).2⟩
  · exact ⟨(click_ok env s Id buf).1, fun _ => (click_ok env s Id buf).2⟩
  · exact ⟨rfl, fun h => h⟩
  · exact blur_ok s Id buf
  · exact ⟨rfl, fun h => h⟩

theorem drag_ok (s : GuiStates) (Id : Int) :
    (InputText.drag s Id).CurrentId = s.CurrentId ∧
      (TextOK s → TextOK (InputText.drag s Id)) := by
  unfold InputText.drag
  split_ifs
  · exact ⟨rfl, fun h => placeCursor_TextOK s h.1 h.2.2.2.1 h.2.2.2.2⟩
  · exact ⟨rfl, fun h => h⟩

/-- The mouse part of `InputText` keeps a well-shaped text state well-shaped
and leaves the id counter alone. -/
theorem InputText_mouse_ok (env : Env) (s : GuiStates) (Id : Int) (rect : RECT)
    (buf : List Char) (autoSelectAll : Bool) :
    (InputText.mouse env s Id rect buf autoSelectAll).1.CurrentId = s.CurrentId ∧
      (TextOK s → TextOK (InputText.mouse env s Id rect buf autoSelectAll).1) := by
  obtain ⟨hp1, hp2⟩ := press_ok env s Id rect buf autoSelectAll
  obtain ⟨hd1, hd2⟩ := drag_ok (InputText.press env s Id rect buf autoSelectAll).1 Id
  exact ⟨hd1.trans hp1, fun h => hd2 (hp2 h)⟩

theorem advance_TextOK (env : Env) (s : GuiStates) (h : Int) (hs : TextOK s) :
    TextOK (advance env s h) := by
  unfold advance
  split_ifs <;> exact hs

theorem eraseSelection_same (env : Env) (s t : GuiStates)
    (h : eraseSelection env s = some t) : sameOutsideText s t := by
  unfold eraseSelection at h
  simp only [Option.bind_eq_some, Option.some.injEq] at h
  obtain ⟨str, -, w, -, rfl⟩ := h
  rfl

theorem insertChar_same (env : Env) (s t : GuiStates) (width : Int)
    (h : InputText.insertChar env s width = some t) : sameOutsideText s t := by
  unfold InputText.insertChar at h
  simp only [Option.bind_eq_some] at h
  obtain ⟨last, -, h⟩ := h
  split_ifs at h
  · simp only [Option.some.injEq] at h
    subst h
    rfl
  · simp only [Option.bind_eq_some, Option.some.injEq] at h
    obtain ⟨str, -, rfl⟩ := h
    rfl

theorem keySwitch_same (env : Env) (s t : GuiStates) (width : Int)
    (h : InputText.keySwitch env s width = some t) : sameOutsideText s t := by
  unfold InputText.keySwitch at h
  split_ifs at h
  · unfold InputText.caseLeftArrow at h
    simp only [Option.bind_eq_some, Option.some.injEq] at h
    obtain ⟨a, -, b, -, rfl⟩ := h
    rfl
  · unfold InputText.caseRightArrow at h
    simp only [Option.bind_eq_some, Option.some.injEq] at h
    obtain ⟨a, -, b, -, rfl⟩ := h
    rfl
  · unfold InputText.caseBackSpace at h
    split_ifs at h
    · exact eraseSelection_same env s t h
    · simp only [Option.bind_eq_some, Option.some.injEq] at h
      obtain ⟨a, -, b, -, str, -, rfl⟩ := h
      rfl
    · simp only [Option.some.injEq] at h
      subst h
      rfl
  · simp only [Option.some.injEq] at h
    subst h
    rfl
  · unfold InputText.caseEnd at h
    simp only [Option.bind_eq_some, Option.some.injEq] at h
    obtain ⟨last, -, rfl⟩ := h
    rfl
  · unfold InputText.caseDefault at h
    split_ifs at h
    · simp only [Option.some.injEq] at h
      subst h
      rfl
    · simp only [Option.bind_eq_some] at h
      obtain ⟨s1, h1, h2⟩ := h
      exact sameOutsideText_trans (eraseSelection_same env s s1 h1)
        (insertChar_same env s1 t width h2)
    · exact insertChar_same env s t width h

theorem InputText_key_same (env : Env) (s t : GuiStates) (Id width : Int)
    (h : InputText.key env s Id width = some t) : sameOutsideText s t := by
  unfold InputText.key at h
  split_ifs at h
  · simp only [Option.bind_eq_some, Option.some.injEq] at h
    obtain ⟨s1, h1, rfl⟩ := h
    have hs := keySwitch_same env s s1 width h1
    unfold sameOutsideText at hs ⊢
    rw [hs]
  · simp only [Option.some.injEq] at h
    subst h
    rfl

theorem sameOutsideText_CurrentId {s t : GuiStates} (h : sameOutsideText s t) :
    t.CurrentId = s.CurrentId := by
  unfold sameOutsideText at h
  rw [h]

/-- `InputText` takes exactly one id when it returns. -/
theorem InputText_CurrentId (env : Env) (s : GuiStates) (buf : List Char) (width : Int)
    (autoSelectAll : Bool) (r : GuiStates × List Char)
    (h : InputText env s buf width autoSelectAll = some r) :
    r.1.CurrentId = s.CurrentId + 1 := by
  unfold InputText at h
  simp only [Option.bind_eq_some, Option.some.injEq] at h
  obtain ⟨s2, hs2, rfl⟩ := h
  rw [advance_CurrentId, sameOutsideText_CurrentId (InputText_key_same env _ s2 _ _ hs2),
    (InputText_mouse_ok env _ _ _ buf autoSelectAll).1]

/-- `InputText` returns on every well-shaped text state and keeps the shape. -/
theorem InputText_ok (env : Env) (s : GuiStates) (buf : List Char) (width : Int)
    (autoSelectAll : Bool) (h : TextOK s) :
    ∃ r, InputText env s buf width autoSelectAll = some r ∧ TextOK r.1 := by
  have h1 : TextOK { s with CurrentId := s.CurrentId + 1 } := h
  have hm := (InputText_mouse_ok env { s with CurrentId := s.CurrentId + 1 } s.CurrentId
    (InputText.rect { s with CurrentId := s.CurrentId + 1 } width) buf autoSelectAll).2 h1
  have hkey : ∀ m : GuiStates × List Char, TextOK m.1 →
      ∃ r, ((InputText.key env m.1 s.CurrentId width).bind fun s2 =>
        some (advance env s2 18, m.2)) = some r ∧ TextOK r.1 := by
    intro m hm1
    obtain ⟨t, ht, -, hok⟩ := InputText_key_ok env m.1 s.CurrentId width hm1
    exact ⟨(advance env t 18, m.2), by simp only [ht, Option.some_bind],
      advance_TextOK env t 18 hok⟩
  exact hkey _ hm

/-! ## Id allocation -/

theorem advance_ok (env : Env) (s : GuiStates) (h : Int) :
    (advance env s h).CurrentId = s.CurrentId ∧ (TextOK s → TextOK (advance env s h)) :=
  ⟨advance_CurrentId env s h, advance_TextOK env s h⟩

theorem Text_ok (env : Env) (s : GuiStates) :
    (Text env s).CurrentId = s.CurrentId + 1 ∧ (TextOK s → TextOK (Text env s)) := by
  unfold Text
  exact ⟨(advance_ok env _ _).1, fun h => (advance_ok env _ _).2 h⟩

theorem MultilineText_ok (env : Env) (s : GuiStates) (buff : List Char) :
    (MultilineText env s buff).CurrentId = s.CurrentId + 1 ∧
      (TextOK s → TextOK (MultilineText env s buff)) := by
  unfold MultilineText
  exact ⟨(advance_ok env _ _).1, fun h => (advance_ok env _ _).2 h⟩

theorem CollapsingHeader_ok (env : Env) (s : GuiStates) (collapsed : Bool) :
    (CollapsingHeader env s collapsed).1.CurrentId = s.CurrentId + 1 ∧
      (TextOK s → TextOK (CollapsingHeader env s collapsed).1) := by
  unfold CollapsingHeader
  dsimp only
  refine ⟨?_, fun h => ?_⟩
  · rw [advance_CurrentId]
    split_ifs <;> rfl
  · apply advance_TextOK
    split_ifs <;> exact h

theorem Button_ok (env : Env) (s : GuiStates) (width height : Int) :
    (Button env s width height).1.CurrentId = s.CurrentId + 1 ∧
      (TextOK s → TextOK (Button env s width height).1) := by
  refine ⟨Button_CurrentId env s width height, fun h => ?_⟩
  unfold Button
  dsimp only
  apply advance_TextOK
  split_ifs <;> exact h

theorem CheckBox_ok (env : Env) (s : GuiStates) (checked : Bool) :
    (CheckBox env s checked).1.CurrentId = s.CurrentId + 1 ∧
      (TextOK s → TextOK (CheckBox env s checked).1) := by
  unfold CheckBox
  dsimp only
  refine ⟨?_, fun h => ?_⟩
  · split_ifs <;> rw [advance_CurrentId]
  · split_ifs <;> exact advance_TextOK env _ _ h

theorem RadioButton_ok (env : Env) (s : GuiStates) (activeVal currentVal : Int) :
    (RadioButton env s activeVal currentVal).1.CurrentId = s.CurrentId + 1 ∧
      (TextOK s → TextOK (RadioButton env s activeVal currentVal).1) := by
  unfold RadioButton
  dsimp only
  refine ⟨?_, fun h => ?_⟩
  · split_ifs <;> rw [advance_CurrentId]
  · split_ifs <;> exact advance_TextOK env _ _ h

theorem ComboBox_ok (env : Env) (s : GuiStates) (numItems selected : Int) :
    (ComboBox env s numItems selected).1.CurrentId = s.CurrentId + 1 ∧
      (TextOK s → TextOK (ComboBox env s numItems selected).1) := by
  unfold ComboBox
  dsimp only
  refine ⟨?_, fun h => ?_⟩
  · split_ifs <;> rw [advance_CurrentId]
  · split_ifs <;> exact advance_TextOK env _ _ h

/-- Every widget declaration that returns has taken exactly one id. -/
theorem declare_CurrentId (env : Env) (s t : GuiStates) (w : Widget)
    (h : declare env s w = some t) : t.CurrentId = s.CurrentId + 1 := by
  cases w with
  | Text =>
    simp only [declare, Option.some.injEq] at h
    rw [← h]; exact (Text_ok env s).1
  | MultilineText buff =>
    simp only [declare, Option.some.injEq] at h
    rw [← h]; exact (MultilineText_ok env s buff).1
  | CollapsingHeader collapsed =>
    simp only [declare, Option.some.injEq] at h
    rw [← h]; exact (CollapsingHeader_ok env s collapsed).1
  | Button width height =>
    simp only [declare, Option.some.injEq] at h
    rw [← h]; exact (Button_ok env s width height).1
  | CheckBox checked =>
    simp only [declare, Option.some.injEq] at h
    rw [← h]; exact (CheckBox_ok env s checked).1
  | RadioButton activeVal currentVal =>
    simp only [declare, Option.some.injEq] at h
    rw [← h]; exact (RadioButton_ok env s activeVal currentVal).1
  | ComboBox numItems selected =>
    simp only [declare, Option.some.injEq] at h
    rw [← h]; exact (ComboBox_ok env s numItems selected).1
  | InputText buf width autoSelectAll =>
    simp only [declare, Option.map_eq_some'] at h
    obtain ⟨r, hr, rfl⟩ := h
    exact InputText_CurrentId env s buf width autoSelectAll r hr

/-- Every widget declaration returns on a well-shaped text state and keeps the
shape. -/
theorem declare_ok (env : Env) (s : GuiStates) (w : Widget) (h : TextOK s) :
    ∃ t, declare env s w = some t ∧ TextOK t := by
  cases w with
  | Text => exact ⟨_, rfl, (Text_ok env s).2 h⟩
  | MultilineText buff => exact ⟨_, rfl, (MultilineText_ok env s buff).2 h⟩
  | CollapsingHeader collapsed => exact ⟨_, rfl, (CollapsingHeader_ok env s collapsed).2 h⟩
  | Button width height => exact ⟨_, rfl, (Button_ok env s width height).2 h⟩
  | CheckBox checked => exact ⟨_, rfl, (CheckBox_ok env s checked).2 h⟩
  | RadioButton activeVal currentVal =>
    exact ⟨_, rfl, (RadioButton_ok env s activeVal currentVal).2 h⟩
  | ComboBox numItems selected => exact ⟨_, rfl, (ComboBox_ok env s numItems selected).2 h⟩
  | InputText buf width autoSelectAll =>
    obtain ⟨r, hr, hok⟩ := InputText_ok env s buf width autoSelectAll h
    exact ⟨r.1, by simp only [declare, hr, Option.map_some'], hok⟩

theorem declareAll_CurrentId (env : Env) (ws : List Widget) (s t : GuiStates)
    (h : declareAll env ws s = some t) : t.CurrentId = s.CurrentId + ws.length := by
  induction ws generalizing s with
  | nil =>
    simp only [declareAll, Option.some.injEq] at h
    simp [h]
  | cons w ws ih =>
    simp only [declareAll, Option.bind_eq_some] at h
    obtain ⟨u, hu, hrest⟩ := h
    rw [ih u hrest, declare_CurrentId env s u w hu, List.length_cons]
    push_cast
    ring

theorem declareAll_ok (env : Env) (ws : List Widget) (s : GuiStates) (h : TextOK s) :
    ∃ t, declareAll env ws s = some t ∧ TextOK t := by
  induction ws generalizing s with
  | nil => exact ⟨s, rfl, h⟩
  | cons w ws ih =>
    obtain ⟨u, hu, huok⟩ := declare_ok env s w h
    obtain ⟨t, ht, htok⟩ := ih u huok
    exact ⟨t, by simp only [declareAll, hu, Option.some_bind, ht], htok⟩

theorem declareAll_noInputText (env : Env) (ws : List Widget) (s : GuiStates)
    (h : ∀ w ∈ ws, ∀ buf width a, w ≠ Widget.InputText buf width a) :
    ∃ t, declareAll env ws s = some t := by
  induction ws generalizing s with
  | nil => exact ⟨s, rfl⟩
  | cons w ws ih =>
    have hw := h w (List.mem_cons_self _ _)
    have hws : ∀ x ∈ ws, ∀ buf width a, x ≠ Widget.InputText buf width a :=
      fun x hx => h x (List.mem_cons_of_mem _ hx)
    cases w with
    | InputText buf width a => exact absurd rfl (hw buf width a)
    | _ =>
      simp only [declareAll, declare, Option.some_bind]
      exact ih _ hws

/-- C2: after `BeginFrame` (and likewise after a following `BeginDialog`) every
widget declaration takes exactly one id, so the first `n` declarations of any
sequence leave the id counter at `n`: declaration `n + 1` reads id `n`, whatever
the record left by earlier frames and whatever the widget arguments; two frames
therefore give the same id to the same position in the call order. The sequence
runs to its end whenever the text-edit state is well-shaped or no `InputText` is
declared. -/
theorem widgets_take_ids_in_call_order (env : Env) (s : GuiStates) (ws : List Widget)
    (n : Nat) (hn : n ≤ ws.length) :
    (∀ (u t : GuiStates) (w : Widget), declare env u w = some t →
      t.CurrentId = u.CurrentId + 1) ∧
    (∀ t, declareAll env (ws.take n) (BeginFrame s) = some t → t.CurrentId = (n : Int)) ∧
    (∀ layout x y dw dh t,
      declareAll env (ws.take n) (BeginDialog (BeginFrame s) layout x y dw dh) = some t →
        t.CurrentId = (n : Int)) ∧
    (∀ (s' : GuiStates) (ws' : List Widget) (t t' : GuiStates), n ≤ ws'.length →
      declareAll env (ws.take n) (BeginFrame s) = some t →
      declareAll env (ws'.take n) (BeginFrame s') = some t' → t.CurrentId = t'.CurrentId) ∧
    ((TextOK s ∨ ∀ w ∈ ws, ∀ buf width a, w ≠ Widget.InputText buf width a) →
      ∃ t, declareAll env ws (BeginFrame s) = some t ∧ t.CurrentId = (ws.length : Int)) := by
  have hlen : ∀ l : List Widget, n ≤ l.length → (l.take n).length = n :=
    fun l hl => by rw [List.length_take]; omega
  have hbegin : ∀ (u : GuiStates) (l : List Widget) (t : GuiStates), n ≤ l.length →
      declareAll env (l.take n) (BeginFrame u) = some t → t.CurrentId = (n : Int) := by
    intro u l t hl ht
    rw [declareAll_CurrentId env _ _ t ht, hlen l hl]
    show (0 : Int) + n = n
    omega
  refine ⟨fun u t w => declare_CurrentId env u t w, fun t ht => hbegin s ws t hn ht, ?_, ?_, ?_⟩
  · intro layout x y dw dh t ht
    rw [declareAll_CurrentId env _ _ t ht, hlen ws hn]
    have h0 : (BeginDialog (BeginFrame s) layout x y dw dh).CurrentId = 0 := by
      cases layout <;> rfl
    rw [h0]
    omega
  · intro s' ws' t t' hn' ht ht'
    rw [hbegin s ws t hn ht, hbegin s' ws' t' hn' ht']
  · intro hcases
    have hex : ∃ t, declareAll env ws (BeginFrame s) = some t := by
      rcases hcases with hok | hno
      · obtain ⟨t, ht, -⟩ := declareAll_ok env ws (BeginFrame s) hok
        exact ⟨t, ht⟩
      · exact declareAll_noInputText env ws (BeginFrame s) hno
    obtain ⟨t, ht⟩ := hex
    refine ⟨t, ht, ?_⟩
    rw [declareAll_CurrentId env _ _ t ht]
    show (0 : Int) + ws.length = ws.length
    omega

/-- Witness for C2: the declarations Text, Button, InputText after `BeginFrame`
run to their end and leave the id counter at 3. -/
theorem widgets_take_ids_in_call_order_witness :
    3 ≤ [Widget.Text, Widget.Button 100 20, Widget.InputText [] 100 false].length ∧
    TextOK (sampleStates (sampleMouse 30 30 MouseAction.LButtonDown) (-1)) ∧
    ∃ t, declareAll sampleEnv
        [Widget.Text, Widget.Button 100 20, Widget.InputText [] 100 false]
        (BeginFrame (sampleStates (sampleMouse 30 30 MouseAction.LButtonDown) (-1))) = some t ∧
      t.CurrentId = 3 :=
  have hok : TextOK (sampleStates (sampleMouse 30 30 MouseAction.LButtonDown) (-1)) := by
    unfold TextOK
    decide
  ⟨by decide, hok,
    (widgets_take_ids_in_call_order sampleEnv
      (sampleStates (sampleMouse 30 30 MouseAction.LButtonDown) (-1))
      [Widget.Text, Widget.Button 100 20, Widget.InputText [] 100 false] 3
      (by decide)).2.2.2.2 (Or.inl hok)⟩

/-! ## ComboBox -/

theorem ComboBox_dropDown_click (env : Env) (s : GuiStates) (numItems selected : Int)
    (hopen : s.ActiveId = s.CurrentId)
    (hdown : s.MouseState.Action = MouseAction.LButtonDown)
    (hin : PtInRect (ComboBox.dropDownRect s numItems) (mousePt s) = true) :
    (ComboBox env s numItems selected).2 =
      Int.tdiv (s.MouseState.y - (s.CurrentPosY + 18)) 20 := by
  have hnotmain : PtInRect (ComboBox.mainRect s) (mousePt s) = false := by
    simp only [PtInRect, ComboBox.dropDownRect, ComboBox.mainRect, SetRect, mousePt,
      decide_eq_true_eq, decide_eq_false_iff_not] at hin ⊢
    omega
  unfold ComboBox
  have e1 : ComboBox.mainRect { s with CurrentId := s.CurrentId + 1 } = ComboBox.mainRect s := rfl
  have e2 : mousePt { s with CurrentId := s.CurrentId + 1 } = mousePt s := rfl
  have e3 : ComboBox.dropDownRect { s with CurrentId := s.CurrentId + 1 } numItems
      = ComboBox.dropDownRect s numItems := rfl
  simp only [e1, e2]
  simp only [hnotmain, Bool.false_eq_true, if_false]
  simp only [e3, hin, hdown, and_self, if_true]
  rw [if_pos hopen]
  rfl

/-- C9: in an open `ComboBox` (its id is the active id) a press (LButtonDown)
inside the dropdown rect sets `selected` to `(mouseY - dropdownTop) / 20` by
integer division, where `dropdownTop = CurrentPosY + 18`; with 5 items,
dropdown top 100 and mouse y 137 the selected row is 1. -/
theorem ComboBox_selects_clicked_row (env : Env) (s : GuiStates) (numItems selected : Int)
    (hopen : s.ActiveId = s.CurrentId)
    (hdown : s.MouseState.Action = MouseAction.LButtonDown)
    (hin : PtInRect (ComboBox.dropDownRect s numItems) (mousePt s) = true) :
    (ComboBox.dropDownRect s numItems).top = s.CurrentPosY + 18 ∧
    (ComboBox env s numItems selected).2 = (s.MouseState.y - (s.CurrentPosY + 18)) / 20 ∧
    (ComboBox env s numItems selected).2 =
      Int.tdiv (s.MouseState.y - (s.CurrentPosY + 18)) 20 ∧
    (numItems = 5 → s.CurrentPosY + 18 = 100 → s.MouseState.y = 137 →
      (ComboBox env s numItems selected).2 = 1) := by
  have hsel := ComboBox_dropDown_click env s numItems selected hopen hdown hin
  have hy : 0 ≤ s.MouseState.y - (s.CurrentPosY + 18) := by
    simp only [PtInRect, ComboBox.dropDownRect, SetRect, mousePt, decide_eq_true_eq] at hin
    omega
  refine ⟨rfl, ?_, hsel, ?_⟩
  · rw [hsel, Int.tdiv_eq_ediv hy (by norm_num)]
  · intro _ htop hmy
    rw [hsel, htop, hmy]
    decide

/-- Witness for C9: with the layout cursor at y = 82 the dropdown top is 100;
a press at (30, 137) on the open five-item box selects row 1. -/
theorem ComboBox_selects_clicked_row_witness :
    ({ sampleStates (sampleMouse 30 137 MouseAction.LButtonDown) 0 with
        CurrentPosY := 82 } : GuiStates).ActiveId =
      ({ sampleStates (sampleMouse 30 137 MouseAction.LButtonDown) 0 with
        CurrentPosY := 82 } : GuiStates).CurrentId ∧
    PtInRect
      (ComboBox.dropDownRect
        { sampleStates (sampleMouse 30 137 MouseAction.LButtonDown) 0 with CurrentPosY := 82 } 5)
      (mousePt
        { sampleStates (sampleMouse 30 137 MouseAction.LButtonDown) 0 with CurrentPosY := 82 })
      = true ∧
    (ComboBox sampleEnv
      { sampleStates (sampleMouse 30 137 MouseAction.LButtonDown) 0 with CurrentPosY := 82 }
      5 0).2 = 1 :=
  have hin : PtInRect
      (ComboBox.dropDownRect
        { sampleStates (sampleMouse 30 137 MouseAction.LButtonDown) 0 with CurrentPosY := 82 } 5)
      (mousePt
        { sampleStates (sampleMouse 30 137 MouseAction.LButtonDown) 0 with CurrentPosY := 82 })
      = true := by decide
  ⟨rfl, hin,
    (ComboBox_selects_clicked_row sampleEnv
      { sampleStates (sampleMouse 30 137 MouseAction.LButtonDown) 0 with CurrentPosY := 82 }
      5 0 rfl rfl hin).2.2.2 rfl rfl rfl⟩

/-- C10 fails on the code: the dropdown rect reaches one pixel row below the
last item, so a press on that row (y = 200 with dropdown top 100 and 5 items)
is inside the rect of the open box and sets `selected` to 5, one past the last
index 4, while the hovered row computed for the same point is clamped to 4. -/
theorem ComboBox_selects_past_last_row :
    ({ sampleStates (sampleMouse 30 200 MouseAction.LButtonDown) 0 with
        CurrentPosY := 82 } : GuiStates).ActiveId =
      ({ sampleStates (sampleMouse 30 200 MouseAction.LButtonDown) 0 with
        CurrentPosY := 82 } : GuiStates).CurrentId ∧
    PtInRect
      (ComboBox.dropDownRect
        { sampleStates (sampleMouse 30 200 MouseAction.LButtonDown) 0 with CurrentPosY := 82 } 5)
      (mousePt
        { sampleStates (sampleMouse 30 200 MouseAction.LButtonDown) 0 with CurrentPosY := 82 })
      = true ∧
    (ComboBox sampleEnv
      { sampleStates (sampleMouse 30 200 MouseAction.LButtonDown) 0 with CurrentPosY := 82 }
      5 0).2 = 5 ∧
    ComboBox.hoveredIdx
      { sampleStates (sampleMouse 30 200 MouseAction.LButtonDown) 0 with CurrentPosY := 82 }
      5 = 4 := by
  decide

/-! ## Typing into an active InputText -/

theorem CalcCharWidthPrefixSum_loop_getLast (env : Env) (str : List Char) (last : Int) :
    (last :: CalcCharWidthPrefixSum.loop env str last).getLast? = some (last + strWidth env str) := by
  induction str generalizing last with
  | nil => simp [CalcCharWidthPrefixSum.loop, strWidth]
  | cons c cs ih =>
    rw [CalcCharWidthPrefixSum.loop, List.getLast?_cons_cons, ih]
    simp only [strWidth, List.map_cons, List.sum_cons]
    congr 1
    ring

theorem CalcCharWidthPrefixSum_getLast (env : Env) (str : List Char) :
    (CalcCharWidthPrefixSum env str).getLast? = some (strWidth env str) := by
  rw [CalcCharWidthPrefixSum, CalcCharWidthPrefixSum_loop_getLast, zero_add]

theorem printable_ne_of_valid (k : KeyCodes) (hk : k.Valid) (c : Char) (hc : printable c) :
    c ≠ k.None ∧ c ≠ k.LeftArrow ∧ c ≠ k.RightArrow ∧ c ≠ k.BackSpace ∧ c ≠ k.Home ∧
      c ≠ k.End := by
  obtain ⟨-, -, hnp⟩ := hk
  refine ⟨?_, ?_, ?_, ?_, ?_, ?_⟩ <;>
  · intro heq
    subst heq
    exact hnp _ (by simp) hc

theorem keySwitch_printable (env : Env) (x : GuiStates) (width : Int) (hk : env.Key.Valid)
    (hp : printable x.KeyState.key) (hctrl : x.KeyState.ctrlDown = false) :
    InputText.keySwitch env x width =
      if x.CursorIdx ≠ x.SelectIdx then
        (eraseSelection env x).bind fun s1 => InputText.insertChar env s1 width
      else InputText.insertChar env x width := by
  obtain ⟨-, h1, h2, h3, h4, h5⟩ := printable_ne_of_valid env.Key hk _ hp
  have hnot : ¬ (x.KeyState.key.toNat < 32 ∨ x.KeyState.key.toNat > 126 ∨
      x.KeyState.ctrlDown = true) := by
    unfold printable at hp
    rw [hctrl]
    simp only [Bool.false_eq_true, or_false, not_or, not_lt]
    omega
  unfold InputText.keySwitch InputText.caseDefault
  rw [if_neg h1, if_neg h2, if_neg h3, if_neg h4, if_neg h5, if_neg hnot]

theorem keySwitch_backspace (env : Env) (x : GuiStates) (width : Int) (hk : env.Key.Valid)
    (hb : x.KeyState.key = env.Key.BackSpace) :
    InputText.keySwitch env x width = InputText.caseBackSpace env x := by
  obtain ⟨hnd, -, -⟩ := hk
  simp only [List.nodup_cons, List.mem_cons, List.mem_singleton, not_or] at hnd
  unfold InputText.keySwitch
  rw [hb, if_neg (Ne.symm hnd.1.2.1), if_neg (Ne.symm hnd.2.1.1), if_pos rfl]

/-- In a frame without press and drag the mouse part of `InputText` changes at
most the hover id. -/
theorem InputText_mouse_idle (env : Env) (s : GuiStates) (Id : Int) (rect : RECT)
    (buf : List Char) (autoSelectAll : Bool) (hm : noPressNoDrag s.MouseState) :
    ∃ h : Int, InputText.mouse env s Id rect buf autoSelectAll = ({ s with HoveredId := h }, buf) := by
  obtain ⟨hdown, hdbl, hdrag⟩ := hm
  have hpress : ∃ h : Int,
      InputText.press env s Id rect buf autoSelectAll = ({ s with HoveredId := h }, buf) := by
    have hA : ¬ (s.MouseState.Action = MouseAction.LButtonDbClick ∨
        (s.MouseState.Action = MouseAction.LButtonDown ∧ autoSelectAll = true)) :=
      fun hc => hc.elim hdbl (fun hc2 => hdown hc2.1)
    have hC : ¬ (s.MouseState.Action = MouseAction.LButtonDown ∨
        s.MouseState.Action = MouseAction.LButtonDbClick) := fun hc => hc.elim hdown hdbl
    unfold InputText.press
    simp only [if_neg hA, if_neg hdown, if_neg hC]
    split_ifs
    · exact ⟨Id, rfl⟩
    · exact ⟨s.HoveredId, rfl⟩
  obtain ⟨h, hp⟩ := hpress
  refine ⟨h, ?_⟩
  unfold InputText.mouse
  rw [hp]
  unfold InputText.drag
  have hnd : ¬ (({ s with HoveredId := h } : GuiStates).MouseState.Action = MouseAction.Move ∧
      ({ s with HoveredId := h } : GuiStates).MouseState.lDown = true ∧
      ({ s with HoveredId := h } : GuiStates).ActiveId = Id) := fun hc => hdrag ⟨hc.1, hc.2.1⟩
  simp only [if_neg hnd]

/-- A key frame of the active `InputText`: without press and drag, the call is
the key `switch` run on a record with the same text-edit state and key, followed
by the reset of the selection anchor. -/
theorem InputText_idle_key (env : Env) (s : GuiStates) (buf : List Char) (width : Int)
    (autoSelectAll : Bool) (hm : noPressNoDrag s.MouseState)
    (hact : s.ActiveId = s.CurrentId) (hkey : s.KeyState.key ≠ env.Key.None) :
    ∃ x : GuiStates, sameText s x ∧
      ∀ t, InputText.keySwitch env x width = some t →
        ∃ r, InputText env s buf width autoSelectAll = some r ∧ r.2 = buf ∧
          r.1.ActiveId = s.ActiveId ∧ r.1.BufferedString = t.BufferedString ∧
          r.1.StrWidthPrefixSum = t.StrWidthPrefixSum ∧ r.1.CursorPos = t.CursorPos ∧
          r.1.CursorIdx = t.CursorIdx ∧ r.1.SelectIdx = t.CursorIdx := by
  obtain ⟨h, hmouse⟩ := InputText_mouse_idle env { s with CurrentId := s.CurrentId + 1 }
    s.CurrentId (InputText.rect { s with CurrentId := s.CurrentId + 1 } width) buf
    autoSelectAll hm
  refine ⟨{ s with CurrentId := s.CurrentId + 1, HoveredId := h },
    ⟨rfl, rfl, rfl, rfl, rfl, rfl⟩, ?_⟩
  intro t ht
  have hsame := keySwitch_same env _ t width ht
  refine ⟨(advance env { t with SelectIdx := t.CursorIdx } 18, buf), ?_, rfl, ?_, ?_, ?_, ?_, ?_, ?_⟩
  · unfold InputText
    dsimp only
    rw [hmouse]
    unfold InputText.key
    dsimp only
    rw [if_pos ⟨hact, hkey⟩, ht]
    rfl
  · rw [advance_ActiveId]
    unfold sameOutsideText at hsame
    rw [hsame]
  all_goals
    unfold advance
    split_ifs <;> rfl

theorem insertChar_at (env : Env) (x : GuiStates) (width : Int) (last : Int)
    (hlast : x.StrWidthPrefixSum.getLast? = some last)
    (hcap : last + env.textExtentCx x.KeyState.key < width - 4)
    (h0 : 0 ≤ x.CursorIdx) (h1 : x.CursorIdx ≤ x.BufferedString.length) :
    ∃ t, InputText.insertChar env x width = some t ∧
      t.BufferedString = x.BufferedString.take x.CursorIdx.toNat ++
        x.KeyState.key :: x.BufferedString.drop x.CursorIdx.toNat ∧
      t.StrWidthPrefixSum = CalcCharWidthPrefixSum env t.BufferedString ∧
      t.CursorIdx = x.CursorIdx + 1 := by
  refine ⟨{ x with
      BufferedString := x.BufferedString.take x.CursorIdx.toNat ++
        x.KeyState.key :: x.BufferedString.drop x.CursorIdx.toNat
      StrWidthPrefixSum := CalcCharWidthPrefixSum env
        (x.BufferedString.take x.CursorIdx.toNat ++
          x.KeyState.key :: x.BufferedString.drop x.CursorIdx.toNat)
      CursorPos := x.CursorPos + env.textExtentCx x.KeyState.key
      CursorIdx := x.CursorIdx + 1 }, ?_, rfl, rfl, rfl⟩
  unfold InputText.insertChar
  simp only [hlast, Option.some_bind, ge_iff_le, if_neg (not_le.mpr hcap), strInsert, h0, h1,
    and_self, if_true]

theorem atEnd_TextOK (env : Env) (Id : Int) (t : GuiStates) (p : List Char)
    (h : InputText.atEnd env Id t p) : TextOK t := by
  obtain ⟨-, hb, hc, hs, hw⟩ := h
  unfold TextOK
  rw [hw, hb, hc, hs, CalcCharWidthPrefixSum_length]
  omega

/-- One key frame that types a printable character at the end of the working
string. -/
theorem InputText_type_step (env : Env) (buf : List Char) (width : Int) (autoSelectAll : Bool)
    (first last : GuiStates) (p : List Char) (c : Char) (hk : env.Key.Valid)
    (hend : InputText.atEnd env first.CurrentId last p) (hp : printable c)
    (hcap : strWidth env p + env.textExtentCx c < width - 4) :
    ∃ r, InputText env
        (nextEntry first last { last.MouseState with Action := MouseAction.None }
          { key := c, ctrlDown := false })
        buf width autoSelectAll = some r ∧
      InputText.atEnd env first.CurrentId r.1 (p ++ [c]) := by
  obtain ⟨ha, hb, hc, hs, hw⟩ := hend
  have hnone := (printable_ne_of_valid env.Key hk c hp).1
  have hidle : noPressNoDrag (nextEntry first last
      { last.MouseState with Action := MouseAction.None }
      { key := c, ctrlDown := false }).MouseState := by
    unfold noPressNoDrag nextEntry
    simp
  obtain ⟨x, hx, hstep⟩ := InputText_idle_key env
    (nextEntry first last { last.MouseState with Action := MouseAction.None }
      { key := c, ctrlDown := false })
    buf width autoSelectAll hidle ha hnone
  obtain ⟨hxb, hxw, -, hxc, hxs, hxk⟩ := hx
  have hxb' : x.BufferedString = p := hxb.trans hb
  have hxw' : x.StrWidthPrefixSum = CalcCharWidthPrefixSum env p := hxw.trans hw
  have hxc' : x.CursorIdx = (p.length : Int) := hxc.trans hc
  have hxs' : x.SelectIdx = (p.length : Int) := hxs.trans hs
  have hxk' : x.KeyState = { key := c, ctrlDown := false } := hxk
  have hlast : x.StrWidthPrefixSum.getLast? = some (strWidth env p) := by
    rw [hxw', CalcCharWidthPrefixSum_getLast]
  obtain ⟨t, ht, htb, htw, htc⟩ := insertChar_at env x width _ hlast
    (by rw [hxk']; exact hcap) (by rw [hxc']; omega) (by rw [hxc', hxb'])
  have hswitch : InputText.keySwitch env x width = some t := by
    rw [keySwitch_printable env x width hk (by rw [hxk']; exact hp) (by rw [hxk']),
      if_neg (by rw [hxc', hxs']; exact fun hne => hne rfl)]
    exact ht
  obtain ⟨r, hr, -, hra, hrb, hrw, -, hrc, hrs⟩ := hstep t hswitch
  have htb' : t.BufferedString = p ++ [c] := by
    rw [htb, hxb', hxc', hxk']
    simp
  refine ⟨r, hr, hra.trans ha, hrb.trans htb', ?_, ?_, ?_⟩
  · rw [hrc, htc, hxc', List.length_append]
    simp
  · rw [hrs, htc, hxc', List.length_append]
    simp
  · rw [hrw, htw, htb']

theorem caseBackSpace_at_end (env : Env) (x : GuiStates) (p : List Char)
    (hb : x.BufferedString = p) (hc : x.CursorIdx = (p.length : Int))
    (hs : x.SelectIdx = (p.length : Int))
    (hw : x.StrWidthPrefixSum = CalcCharWidthPrefixSum env p) (hpos : 0 < p.length) :
    ∃ t, InputText.caseBackSpace env x = some t ∧
      t.BufferedString = p.take (p.length - 1) ∧
      t.StrWidthPrefixSum = CalcCharWidthPrefixSum env t.BufferedString ∧
      t.CursorIdx = (p.length : Int) - 1 := by
  have hlen : x.StrWidthPrefixSum.length = p.length + 1 := by
    rw [hw, CalcCharWidthPrefixSum_length]
  obtain ⟨a, ha⟩ := vecAt_isSome x.StrWidthPrefixSum x.CursorIdx (by omega)
    (by rw [hlen, hc]; push_cast; omega)
  obtain ⟨b, hb'⟩ := vecAt_isSome x.StrWidthPrefixSum (x.CursorIdx - 1) (by omega)
    (by rw [hlen, hc]; push_cast; omega)
  have hcur : (x.CursorIdx - 1).toNat = p.length - 1 := by omega
  have herase : strErase x.BufferedString (x.CursorIdx - 1) 1 = some (p.take (p.length - 1)) := by
    have h1 : (1 : Int).toNat = 1 := rfl
    have hdrop : List.drop (p.length - 1 + 1) p = [] := by
      rw [List.drop_eq_nil_iff]
      omega
    unfold strErase
    rw [if_pos (by rw [hb]; constructor <;> omega), hcur, h1, hb, hdrop, List.append_nil]
  refine ⟨{ x with
      BufferedString := p.take (p.length - 1)
      StrWidthPrefixSum := CalcCharWidthPrefixSum env (p.take (p.length - 1))
      CursorPos := x.CursorPos - (a - b)
      CursorIdx := x.CursorIdx - 1 }, ?_, rfl, rfl, by show x.CursorIdx - 1 = _; rw [hc]⟩
  unfold InputText.caseBackSpace
  rw [if_neg (by rw [hc, hs]; exact fun hne => hne rfl), if_pos (by omega), ha, hb', herase]
  rfl

/-- One key frame that deletes the last character of the working string. -/
theorem InputText_backspace_step (env : Env) (buf : List Char) (width : Int)
    (autoSelectAll : Bool) (first last : GuiStates) (p : List Char) (hk : env.Key.Valid)
    (hend : InputText.atEnd env first.CurrentId last p) (hpos : 0 < p.length) :
    ∃ r, InputText env
        (nextEntry first last { last.MouseState with Action := MouseAction.None }
          { key := env.Key.BackSpace, ctrlDown := false })
        buf width autoSelectAll = some r ∧
      InputText.atEnd env first.CurrentId r.1 (p.take (p.length - 1)) := by
  obtain ⟨ha, hb, hc, hs, hw⟩ := hend
  have hnone : env.Key.BackSpace ≠ env.Key.None := by
    obtain ⟨-, hn, -⟩ := hk
    simp only [List.mem_cons, List.mem_singleton, not_or] at hn
    exact Ne.symm hn.2.2.1
  have hidle : noPressNoDrag (nextEntry first last
      { last.MouseState with Action := MouseAction.None }
      { key := env.Key.BackSpace, ctrlDown := false }).MouseState := by
    unfold noPressNoDrag nextEntry
    simp
  obtain ⟨x, hx, hstep⟩ := InputText_idle_key env
    (nextEntry first last { last.MouseState with Action := MouseAction.None }
      { key := env.Key.BackSpace, ctrlDown := false })
    buf width autoSelectAll hidle ha hnone
  obtain ⟨hxb, hxw, -, hxc, hxs, hxk⟩ := hx
  have hxk' : x.KeyState = { key := env.Key.BackSpace, ctrlDown := false } := hxk
  obtain ⟨t, ht, htb, htw, htc⟩ := caseBackSpace_at_end env x p (hxb.trans hb) (hxc.trans hc)
    (hxs.trans hs) (hxw.trans hw) hpos
  have hswitch : InputText.keySwitch env x width = some t := by
    rw [keySwitch_backspace env x width hk (by rw [hxk']), ht]
  obtain ⟨r, hr, -, hra, hrb, hrw, -, hrc, hrs⟩ := hstep t hswitch
  have hlen : (p.take (p.length - 1)).length = p.length - 1 := by
    rw [List.length_take]
    omega
  refine ⟨r, hr, hra.trans ha, hrb.trans htb, ?_, ?_, ?_⟩
  · rw [hrc, htc, hlen]
    omega
  · rw [hrs, htc, hlen]
    omega
  · rw [hrw, htw, htb]

theorem InputText_keys_typed (env : Env) (buf : List Char) (width : Int)
    (autoSelectAll : Bool) (first : GuiStates) (hk : env.Key.Valid) (str : List Char) :
    ∀ (p : List Char) (last : GuiStates), InputText.atEnd env first.CurrentId last p →
      (∀ c ∈ str, printable c) →
      (∀ n (hn : n < str.length),
        strWidth env (p ++ str.take n) + env.textExtentCx str[n] < width - 4) →
      ∃ t, InputText.keys env buf width autoSelectAll first last str = some t ∧
        InputText.atEnd env first.CurrentId t (p ++ str) := by
  induction str with
  | nil =>
    intro p last hend _ _
    exact ⟨last, rfl, by rw [List.append_nil]; exact hend⟩
  | cons c cs ih =>
    intro p last hend hp hcap
    have hc0 := hcap 0 (by simp)
    simp only [List.take_zero, List.append_nil, List.getElem_cons_zero] at hc0
    obtain ⟨r, hr, hrend⟩ := InputText_type_step env buf width autoSelectAll first last p c hk
      hend (hp c (List.mem_cons_self _ _)) hc0
    obtain ⟨t, ht, htend⟩ := ih (p ++ [c]) r.1 hrend
      (fun x hx => hp x (List.mem_cons_of_mem _ hx))
      (fun n hn => by
        have h := hcap (n + 1) (by simp only [List.length_cons]; omega)
        simpa using h)
    refine ⟨t, ?_, by simpa using htend⟩
    simp only [InputText.keys, hr, Option.some_bind]
    exact ht

theorem InputText_keys_backspace (env : Env) (buf : List Char) (width : Int)
    (autoSelectAll : Bool) (first : GuiStates) (hk : env.Key.Valid) (k : Nat) :
    ∀ (p : List Char) (last : GuiStates), InputText.atEnd env first.CurrentId last p →
      k ≤ p.length →
      ∃ t, InputText.keys env buf width autoSelectAll first last
          (List.replicate k env.Key.BackSpace) = some t ∧
        InputText.atEnd env first.CurrentId t (p.take (p.length - k)) := by
  induction k with
  | zero =>
    intro p last hend _
    exact ⟨last, rfl, by simpa using hend⟩
  | succ j ih =>
    intro p last hend hle
    obtain ⟨r, hr, hrend⟩ := InputText_backspace_step env buf width autoSelectAll first last p
      hk hend (by omega)
    have hlen : (p.take (p.length - 1)).length = p.length - 1 := by
      rw [List.length_take]
      omega
    obtain ⟨t, ht, htend⟩ := ih (p.take (p.length - 1)) r.1 hrend (by rw [hlen]; omega)
    refine ⟨t, ?_, ?_⟩
    · simp only [List.replicate_succ, InputText.keys, hr, Option.some_bind]
      exact ht
    · rw [hlen, List.take_take] at htend
      have hmin : min (p.length - 1 - j) (p.length - 1) = p.length - (j + 1) := by omega
      rw [hmin] at htend
      exact htend

/-- C7: starting from an active `InputText` with an empty working string and
cursor and anchor at 0, typing the printable characters of `str` one key per
frame (each passing the width cap) yields the working string `str` with the
cursor at its end, and `k ≤ |str|` Backspace keys after that leave the first
`|str| - k` characters with the cursor at `|str| - k`. -/
theorem InputText_type_then_backspace (env : Env) (buf : List Char) (width : Int)
    (autoSelectAll : Bool) (first : GuiStates) (str : List Char) (k : Nat)
    (hk : env.Key.Valid) (hact : first.ActiveId = first.CurrentId)
    (hb : first.BufferedString = []) (hc : first.CursorIdx = 0) (hs : first.SelectIdx = 0)
    (hw : first.StrWidthPrefixSum = [0])
    (hp : ∀ c ∈ str, printable c)
    (hcap : ∀ n (hn : n < str.length),
      strWidth env (str.take n) + env.textExtentCx str[n] < width - 4)
    (hkl : k ≤ str.length) :
    ∃ t u, InputText.keys env buf width autoSelectAll first first str = some t ∧
      t.BufferedString = str ∧ t.CursorIdx = (str.length : Int) ∧
      InputText.keys env buf width autoSelectAll first t
        (List.replicate k env.Key.BackSpace) = some u ∧
      u.BufferedString = str.take (str.length - k) ∧
      u.CursorIdx = ((str.length - k : Nat) : Int) := by
  have hstart : InputText.atEnd env first.CurrentId first [] :=
    ⟨hact, hb, hc, hs, hw⟩
  obtain ⟨t, ht, htend⟩ := InputText_keys_typed env buf width autoSelectAll first hk str []
    first hstart hp (fun n hn => by simpa using hcap n hn)
  rw [List.nil_append] at htend
  obtain ⟨u, hu, huend⟩ := InputText_keys_backspace env buf width autoSelectAll first hk k
    str t htend hkl
  refine ⟨t, u, ht, htend.2.1, htend.2.2.1, hu, huend.2.1, ?_⟩
  rw [huend.2.2.1, List.length_take]
  congr 1
  omega

/-- Witness for C7: typing "abc" into the empty box and pressing Backspace
twice leaves "a" with the cursor at 1. -/
theorem InputText_type_then_backspace_witness :
    sampleEnv.Key.Valid ∧ (∀ c ∈ ['a', 'b', 'c'], printable c) ∧
    ∃ t u, InputText.keys sampleEnv [] 100 false (sampleEditing [] 0 0 (Char.ofNat 0))
        (sampleEditing [] 0 0 (Char.ofNat 0)) ['a', 'b', 'c'] = some t ∧
      t.BufferedString = ['a', 'b', 'c'] ∧ t.CursorIdx = 3 ∧
      InputText.keys sampleEnv [] 100 false (sampleEditing [] 0 0 (Char.ofNat 0)) t
        (List.replicate 2 sampleEnv.Key.BackSpace) = some u ∧
      u.BufferedString = ['a'] ∧ u.CursorIdx = 1 := by
  have hk : sampleEnv.Key.Valid := by
    unfold KeyCodes.Valid printable
    decide
  have hp : ∀ c ∈ ['a', 'b', 'c'], printable c := by
    unfold printable
    decide
  obtain ⟨t, u, ht, htb, htc, hu, hub, huc⟩ := InputText_type_then_backspace sampleEnv [] 100
    false (sampleEditing [] 0 0 (Char.ofNat 0)) ['a', 'b', 'c'] 2 hk rfl rfl rfl rfl rfl hp
    (by decide) (by decide)
  exact ⟨hk, hp, t, u, ht, htb, htc, hu, hub, huc⟩

/-! ## Focus loss and the bound string -/

theorem blur_fields (s : GuiStates) (Id : Int) (buf : List Char) :
    (InputText.blur s Id buf).1.EditingId = (if s.EditingId = Id then -1 else s.EditingId) ∧
    (InputText.blur s Id buf).1.ActiveId = (if s.ActiveId = Id then -1 else s.ActiveId) ∧
    (InputText.blur s Id buf).2 = (if s.EditingId = Id then s.BufferedString else buf) ∧
    (InputText.blur s Id buf).1.MouseState = s.MouseState := by
  unfold InputText.blur
  dsimp only
  by_cases he : s.EditingId = Id <;> by_cases ha : s.ActiveId = Id <;> simp [he, ha]

theorem press_buf (env : Env) (s : GuiStates) (Id : Int) (rect : RECT) (buf : List Char)
    (autoSelectAll : Bool) :
    (InputText.press env s Id rect buf autoSelectAll).2 =
      if (s.MouseState.Action = MouseAction.LButtonDown ∨
          s.MouseState.Action = MouseAction.LButtonDbClick) ∧
          PtInRect rect (mousePt s) = false ∧ s.EditingId = Id
      then s.BufferedString else buf := by
  unfold InputText.press
  cases hp : PtInRect rect (mousePt s)
  · by_cases hpress : s.MouseState.Action = MouseAction.LButtonDown ∨
        s.MouseState.Action = MouseAction.LButtonDbClick
    · simp [hpress, (blur_fields s Id buf).2.2.1]
    · simp [hpress]
  · simp

/-- What `InputText` returns, in terms of its parts. -/
theorem InputText_eq_some (env : Env) (s : GuiStates) (buf : List Char) (width : Int)
    (autoSelectAll : Bool) (r : GuiStates × List Char)
    (h : InputText env s buf width autoSelectAll = some r) :
    r.2 = (InputText.press env { s with CurrentId := s.CurrentId + 1 } s.CurrentId
      (InputText.rect s width) buf autoSelectAll).2 ∧
    ∃ t, InputText.key env
        (InputText.drag (InputText.press env { s with CurrentId := s.CurrentId + 1 } s.CurrentId
          (InputText.rect s width) buf autoSelectAll).1 s.CurrentId) s.CurrentId width = some t ∧
      r.1 = advance env t 18 := by
  unfold InputText at h
  simp only [Option.bind_eq_some, Option.some.injEq] at h
  obtain ⟨t, ht, rfl⟩ := h
  exact ⟨rfl, t, ht, rfl⟩

theorem press_outside (env : Env) (s : GuiStates) (Id : Int) (rect : RECT) (buf : List Char)
    (autoSelectAll : Bool) (hout : PtInRect rect (mousePt s) = false)
    (hpress : s.MouseState.Action = MouseAction.LButtonDown ∨
      s.MouseState.Action = MouseAction.LButtonDbClick) :
    InputText.press env s Id rect buf autoSelectAll = InputText.blur s Id buf := by
  unfold InputText.press
  simp only [hout, Bool.false_eq_true, if_false, if_pos hpress]

theorem drag_of_not_move (s : GuiStates) (Id : Int)
    (h : s.MouseState.Action ≠ MouseAction.Move) : InputText.drag s Id = s := by
  unfold InputText.drag
  rw [if_neg (fun hc => h hc.1)]

theorem sameOutsideText_fields {s t : GuiStates} (h : sameOutsideText s t) :
    t.ActiveId = s.ActiveId ∧ t.EditingId = s.EditingId ∧ t.HoveredId = s.HoveredId ∧
      t.MouseState = s.MouseState ∧ t.KeyState = s.KeyState := by
  unfold sameOutsideText at h
  rw [h]
  exact ⟨rfl, rfl, rfl, rfl, rfl⟩

theorem advance_EditingId (env : Env) (s : GuiStates) (h : Int) :
    (advance env s h).EditingId = s.EditingId := by
  unfold advance; split <;> rfl

/-- C11: when the editing `InputText` is declared in a frame with a click or
double click outside its rect, the bound string afterwards is the working
buffer held on entry, `EditingId` is -1, and `ActiveId` is -1 if it was this
id (and untouched otherwise); the call returns for every id other than -1. -/
theorem InputText_click_outside_commits (env : Env) (s : GuiStates) (buf : List Char)
    (width : Int) (autoSelectAll : Bool)
    (hed : s.EditingId = s.CurrentId)
    (hout : PtInRect (InputText.rect s width) (mousePt s) = false)
    (hpress : s.MouseState.Action = MouseAction.LButtonDown ∨
      s.MouseState.Action = MouseAction.LButtonDbClick) :
    (∀ r, InputText env s buf width autoSelectAll = some r →
      r.2 = s.BufferedString ∧ r.1.EditingId = -1 ∧
      (s.ActiveId = s.CurrentId → r.1.ActiveId = -1) ∧
      (s.ActiveId ≠ s.CurrentId → r.1.ActiveId = s.ActiveId)) ∧
    (s.CurrentId ≠ -1 → ∃ r, InputText env s buf width autoSelectAll = some r) := by
  have hnm : s.MouseState.Action ≠ MouseAction.Move := by
    rcases hpress with h | h <;> rw [h] <;> decide
  have hpr : InputText.press env { s with CurrentId := s.CurrentId + 1 } s.CurrentId
      (InputText.rect s width) buf autoSelectAll
      = InputText.blur { s with CurrentId := s.CurrentId + 1 } s.CurrentId buf :=
    press_outside env _ _ _ buf autoSelectAll hout hpress
  obtain ⟨hbe, hba, hbb, hbm⟩ := blur_fields { s with CurrentId := s.CurrentId + 1 } s.CurrentId buf
  have hdrag : InputText.drag
      (InputText.blur { s with CurrentId := s.CurrentId + 1 } s.CurrentId buf).1 s.CurrentId
      = (InputText.blur { s with CurrentId := s.CurrentId + 1 } s.CurrentId buf).1 :=
    drag_of_not_move _ _ (by rw [hbm]; exact hnm)
  constructor
  · intro r hr
    obtain ⟨h2, t, ht, h1⟩ := InputText_eq_some env s buf width autoSelectAll r hr
    rw [hpr] at h2 ht
    rw [hdrag] at ht
    obtain ⟨ha, he, -, -, -⟩ := sameOutsideText_fields (InputText_key_same env _ t _ _ ht)
    refine ⟨?_, ?_, ?_, ?_⟩
    · rw [h2, hbb]
      exact if_pos hed
    · rw [h1, advance_EditingId, he, hbe]
      exact if_pos hed
    · intro hact
      rw [h1, advance_ActiveId, ha, hba]
      exact if_pos hact
    · intro hact
      rw [h1, advance_ActiveId, ha, hba]
      exact if_neg hact
  · intro hid
    have hna : (InputText.blur { s with CurrentId := s.CurrentId + 1 } s.CurrentId buf).1.ActiveId
        ≠ s.CurrentId := by
      rw [hba]
      show (if s.ActiveId = s.CurrentId then (-1 : Int) else s.ActiveId) ≠ s.CurrentId
      split_ifs with h
      · exact fun hc => hid hc.symm
      · exact h
    refine ⟨(advance env
      (InputText.blur { s with CurrentId := s.CurrentId + 1 } s.CurrentId buf).1 18,
      (InputText.blur { s with CurrentId := s.CurrentId + 1 } s.CurrentId buf).2), ?_⟩
    unfold InputText
    dsimp only
    unfold InputText.mouse
    dsimp only
    have hrect : InputText.rect { s with CurrentId := s.CurrentId + 1 } width
        = InputText.rect s width := rfl
    rw [hrect, hpr, hdrag]
    unfold InputText.key
    rw [if_neg (fun hc => hna hc.1)]
    rfl

/-- Witness for C11: the box with id 0 is editing "foo" while its bound string
still holds "old"; a click at (300, 300), outside its rect, commits "foo". -/
theorem InputText_click_outside_commits_witness :
    PtInRect
      (InputText.rect
        { sampleEditing ['f', 'o', 'o'] 3 3 (Char.ofNat 0) with
          MouseState := sampleMouse 300 300 MouseAction.LButtonDown } 100)
      (mousePt
        { sampleEditing ['f', 'o', 'o'] 3 3 (Char.ofNat 0) with
          MouseState := sampleMouse 300 300 MouseAction.LButtonDown }) = false ∧
    ∃ r, InputText sampleEnv
        { sampleEditing ['f', 'o', 'o'] 3 3 (Char.ofNat 0) with
          MouseState := sampleMouse 300 300 MouseAction.LButtonDown }
        ['o', 'l', 'd'] 100 false = some r ∧
      r.2 = ['f', 'o', 'o'] ∧ r.1.EditingId = -1 ∧ r.1.ActiveId = -1 := by
  have hout : PtInRect
      (InputText.rect
        { sampleEditing ['f', 'o', 'o'] 3 3 (Char.ofNat 0) with
          MouseState := sampleMouse 300 300 MouseAction.LButtonDown } 100)
      (mousePt
        { sampleEditing ['f', 'o', 'o'] 3 3 (Char.ofNat 0) with
          MouseState := sampleMouse 300 300 MouseAction.LButtonDown }) = false := by decide
  have h := InputText_click_outside_commits sampleEnv
    { sampleEditing ['f', 'o', 'o'] 3 3 (Char.ofNat 0) with
      MouseState := sampleMouse 300 300 MouseAction.LButtonDown }
    ['o', 'l', 'd'] 100 false rfl hout (Or.inl rfl)
  obtain ⟨r, hr⟩ := h.2 (by decide)
  obtain ⟨h2, he, ha, -⟩ := h.1 r hr
  exact ⟨hout, r, hr, h2, he, ha rfl⟩

/-- C13: an `InputText` call leaves the bound string as it was unless the
call is a blur commit (click or double click outside the rect while this
widget is the editing one), in which case the bound string becomes the working
string; keys, clicks inside the rect and drags never touch it. The call returns
whenever the text-edit state is well-shaped. -/
theorem InputText_buf_changes_only_on_blur (env : Env) (s : GuiStates) (buf : List Char)
    (width : Int) (autoSelectAll : Bool) :
    (∀ r, InputText env s buf width autoSelectAll = some r →
      (¬ InputText.blurCommit s width → r.2 = buf) ∧
      (InputText.blurCommit s width → r.2 = s.BufferedString)) ∧
    (TextOK s → ∃ r, InputText env s buf width autoSelectAll = some r ∧
      (¬ InputText.blurCommit s width → r.2 = buf)) := by
  have hall : ∀ r, InputText env s buf width autoSelectAll = some r →
      (¬ InputText.blurCommit s width → r.2 = buf) ∧
      (InputText.blurCommit s width → r.2 = s.BufferedString) := by
    intro r hr
    obtain ⟨h2, -⟩ := InputText_eq_some env s buf width autoSelectAll r hr
    rw [press_buf] at h2
    constructor
    · intro hnb
      rw [h2]
      exact if_neg hnb
    · intro hb
      rw [h2]
      exact if_pos hb
  refine ⟨hall, fun hok => ?_⟩
  obtain ⟨r, hr, -⟩ := InputText_ok env s buf width autoSelectAll hok
  exact ⟨r, hr, (hall r hr).1⟩

/-- Witness for C13: a key press in the box editing "foo" leaves the bound
string "old" as it is. -/
theorem InputText_buf_changes_only_on_blur_witness :
    TextOK (sampleEditing ['f', 'o', 'o'] 3 3 'x') ∧
    ¬ InputText.blurCommit (sampleEditing ['f', 'o', 'o'] 3 3 'x') 100 ∧
    ∃ r, InputText sampleEnv (sampleEditing ['f', 'o', 'o'] 3 3 'x') ['o', 'l', 'd'] 100 false
        = some r ∧ r.2 = ['o', 'l', 'd'] := by
  have hok : TextOK (sampleEditing ['f', 'o', 'o'] 3 3 'x') := by
    unfold TextOK
    decide
  have hnb : ¬ InputText.blurCommit (sampleEditing ['f', 'o', 'o'] 3 3 'x') 100 := by
    unfold InputText.blurCommit
    decide
  obtain ⟨r, hr, hb⟩ := (InputText_buf_changes_only_on_blur sampleEnv
    (sampleEditing ['f', 'o', 'o'] 3 3 'x') ['o', 'l', 'd'] 100 false).2 hok
  exact ⟨hok, hnb, r, hr, hb hnb⟩

/-- C14: if on entry the width array has one entry more than the working
string and cursor and anchor are positions of the working string, then the
`InputText` call returns and the same holds on exit, for every mouse action,
pointer position and key. -/
theorem InputText_preserves_index_invariant (env : Env) (s : GuiStates) (buf : List Char)
    (width : Int) (autoSelectAll : Bool)
    (hlen : s.StrWidthPrefixSum.length = s.BufferedString.length + 1)
    (hc0 : 0 ≤ s.CursorIdx) (hc1 : s.CursorIdx ≤ s.BufferedString.length)
    (hs0 : 0 ≤ s.SelectIdx) (hs1 : s.SelectIdx ≤ s.BufferedString.length) :
    ∃ r, InputText env s buf width autoSelectAll = some r ∧
      r.1.StrWidthPrefixSum.length = r.1.BufferedString.length + 1 ∧
      0 ≤ r.1.CursorIdx ∧ r.1.CursorIdx ≤ r.1.BufferedString.length ∧
      0 ≤ r.1.SelectIdx ∧ r.1.SelectIdx ≤ r.1.BufferedString.length := by
  obtain ⟨r, hr, hok⟩ := InputText_ok env s buf width autoSelectAll ⟨hlen, hc0, hc1, hs0, hs1⟩
  exact ⟨r, hr, hok⟩

/-- Witness for C14: Backspace over the selection 1..4 of "hello". -/
theorem InputText_preserves_index_invariant_witness :
    (sampleEditing ['h', 'e', 'l', 'l', 'o'] 4 1 (Char.ofNat 8)).StrWidthPrefixSum.length
      = (sampleEditing ['h', 'e', 'l', 'l', 'o'] 4 1 (Char.ofNat 8)).BufferedString.length + 1 ∧
    ∃ r, InputText sampleEnv (sampleEditing ['h', 'e', 'l', 'l', 'o'] 4 1 (Char.ofNat 8))
        [] 100 false = some r ∧
      0 ≤ r.1.CursorIdx ∧ r.1.CursorIdx ≤ r.1.BufferedString.length ∧
      0 ≤ r.1.SelectIdx ∧ r.1.SelectIdx ≤ r.1.BufferedString.length := by
  obtain ⟨r, hr, -, h⟩ := InputText_preserves_index_invariant sampleEnv
    (sampleEditing ['h', 'e', 'l', 'l', 'o'] 4 1 (Char.ofNat 8)) [] 100 false
    (by decide) (by decide) (by decide) (by decide) (by decide)
  exact ⟨by decide, r, hr, h⟩

/-! ## Two text boxes in one frame -/

/-- C12 fails on the code when the clicked box is declared first. Box B (id 0,
bound to "bee") is declared before box A (id 1, bound to "old"), A is editing
the working buffer "foo", and a click lands at (30, 30) inside B: B's call
overwrites the shared working buffer with "bee" and takes `EditingId`, so A's
call finds no edit to commit and A's bound string stays "old". With A declared
first (id 0) and the click at (30, 50) inside B (id 1), A's call commits and
A's bound string becomes "foo". -/
theorem InputText_edit_lost_when_clicked_box_is_first :
    (InputText.pair sampleEnv
        { sampleEditing ['f', 'o', 'o'] 3 3 (Char.ofNat 0) with
          ActiveId := 1, EditingId := 1
          MouseState := sampleMouse 30 30 MouseAction.LButtonDown }
        ['b', 'e', 'e'] 100 ['o', 'l', 'd'] 100 false).map
      (fun r => (r.2.2, r.1.EditingId, r.1.BufferedString))
      = some (['o', 'l', 'd'], 0, ['b', 'e', 'e']) ∧
    (InputText.pair sampleEnv
        { sampleEditing ['f', 'o', 'o'] 3 3 (Char.ofNat 0) with
          MouseState := sampleMouse 30 50 MouseAction.LButtonDown }
        ['o', 'l', 'd'] 100 ['b', 'e', 'e'] 100 false).map
      (fun r => (r.2.1, r.1.EditingId, r.1.BufferedString))
      = some (['f', 'o', 'o'], 1, ['b', 'e', 'e']) := by
  decide

/-! ## Arrow keys and the width cap -/

/-- The search loop on a non-decreasing array keeps everything below the
result smaller than the value and everything from the result on at least the
value. -/
theorem lower_bound_loop_spec (v : List Int) (x : Int)
    (hsorted : ∀ i j, i ≤ j → j < v.length → v.getD i 0 ≤ v.getD j 0) :
    ∀ (fuel first count : Nat), count ≤ fuel → first + count ≤ v.length →
      (∀ i, i < first → v.getD i 0 < x) →
      (∀ i, first + count ≤ i → i < v.length → x ≤ v.getD i 0) →
      (∀ i, i < lower_bound.loop v x fuel first count → v.getD i 0 < x) ∧
      (∀ i, lower_bound.loop v x fuel first count ≤ i → i < v.length → x ≤ v.getD i 0) := by
  intro fuel
  induction fuel with
  | zero =>
    intro first count hc hle hlo hhi
    have hc0 : count = 0 := by omega
    subst hc0
    exact ⟨hlo, fun i hi => hhi i (by simpa using hi)⟩
  | succ n ih =>
    intro first count hc hle hlo hhi
    simp only [lower_bound.loop]
    split_ifs with h0 hlt
    · subst h0
      exact ⟨hlo, fun i hi => hhi i (by simpa using hi)⟩
    · have hdiv : count / 2 < count := Nat.div_lt_self (Nat.pos_of_ne_zero h0) (by decide)
      apply ih
      · omega
      · omega
      · intro i hi
        exact lt_of_le_of_lt (hsorted i (first + count / 2) (by omega) (by omega)) hlt
      · intro i hi hil
        exact hhi i (by omega) hil
    · have hdiv : count / 2 < count := Nat.div_lt_self (Nat.pos_of_ne_zero h0) (by decide)
      apply ih
      · omega
      · omega
      · exact hlo
      · intro i hi hil
        exact le_trans (not_lt.mp hlt) (hsorted (first + count / 2) i hi hil)

theorem lower_bound_spec (v : List Int) (x : Int)
    (hsorted : ∀ i j, i ≤ j → j < v.length → v.getD i 0 ≤ v.getD j 0) :
    (∀ i, i < lower_bound v x → v.getD i 0 < x) ∧
      (∀ i, lower_bound v x ≤ i → i < v.length → x ≤ v.getD i 0) := by
  unfold lower_bound
  exact lower_bound_loop_spec v x hsorted v.length 0 v.length (le_refl _) (by omega)
    (fun i hi => absurd hi (Nat.not_lt_zero i)) (fun i hi hil => absurd hil (by omega))

theorem strWidth_append (env : Env) (a b : List Char) :
    strWidth env (a ++ b) = strWidth env a + strWidth env b := by
  simp [strWidth]

theorem strWidth_nonneg (env : Env) (hw : ∀ c, 0 ≤ env.textExtentCx c) (a : List Char) :
    0 ≤ strWidth env a := by
  induction a with
  | nil => simp [strWidth]
  | cons c cs ih =>
    have h := hw c
    simp only [strWidth, List.map_cons, List.sum_cons] at ih ⊢
    omega

theorem strWidth_take_mono (env : Env) (hw : ∀ c, 0 ≤ env.textExtentCx c) (str : List Char)
    (i j : Nat) (hij : i ≤ j) :
    strWidth env (str.take i) ≤ strWidth env (str.take j) := by
  have h : str.take j = str.take i ++ (str.take j).drop i := by
    have := List.take_append_drop i (str.take j)
    rw [List.take_take, min_eq_left hij] at this
    exact this.symm
  rw [h, strWidth_append]
  have := strWidth_nonneg env hw ((str.take j).drop i)
  omega

theorem CalcCharWidthPrefixSum_loop_getD (env : Env) (str : List Char) :
    ∀ (last : Int) (i : Nat), i < str.length →
      (CalcCharWidthPrefixSum.loop env str last).getD i 0
        = last + strWidth env (str.take (i + 1)) := by
  induction str with
  | nil => intro last i hi; simp at hi
  | cons c cs ih =>
    intro last i hi
    cases i with
    | zero =>
      simp [CalcCharWidthPrefixSum.loop, strWidth]
      ring
    | succ k =>
      have hk : k < cs.length := by simpa using hi
      rw [CalcCharWidthPrefixSum.loop, List.getD_cons_succ, ih _ k hk]
      simp only [strWidth, List.take_succ_cons, List.map_cons, List.sum_cons]
      ring

/-- Entry `i` of the width array is the width of the first `i` characters. -/
theorem CalcCharWidthPrefixSum_getD (env : Env) (str : List Char) (i : Nat)
    (hi : i ≤ str.length) :
    (CalcCharWidthPrefixSum env str).getD i 0 = strWidth env (str.take i) := by
  unfold CalcCharWidthPrefixSum
  cases i with
  | zero => simp [strWidth]
  | succ k =>
    rw [List.getD_cons_succ, CalcCharWidthPrefixSum_loop_getD env str 0 k (by omega), zero_add]

theorem CalcCharWidthPrefixSum_sorted (env : Env) (hw : ∀ c, 0 ≤ env.textExtentCx c)
    (str : List Char) (i j : Nat) (hij : i ≤ j)
    (hj : j < (CalcCharWidthPrefixSum env str).length) :
    (CalcCharWidthPrefixSum env str).getD i 0 ≤ (CalcCharWidthPrefixSum env str).getD j 0 := by
  rw [CalcCharWidthPrefixSum_length] at hj
  rw [CalcCharWidthPrefixSum_getD env str i (by omega),
    CalcCharWidthPrefixSum_getD env str j (by omega)]
  exact strWidth_take_mono env hw str i j hij

theorem placeCursor_spec (env : Env) (hw : ∀ c, 0 ≤ env.textExtentCx c) (x : GuiStates)
    (w : List Char) (hsum : x.StrWidthPrefixSum = CalcCharWidthPrefixSum env w) :
    0 ≤ (placeCursor x).CursorIdx ∧ (placeCursor x).CursorIdx ≤ w.length ∧
    (∀ i : Nat, i ≤ w.length →
      strWidth env (w.take i) < x.MouseState.x - (x.CurrentPosX + 3) →
      (i : Int) ≤ (placeCursor x).CursorIdx) ∧
    ((placeCursor x).CursorIdx = 0 ∨
      strWidth env (w.take (placeCursor x).CursorIdx.toNat)
        < x.MouseState.x - (x.CurrentPosX + 3)) := by
  have hlen : x.StrWidthPrefixSum.length = w.length + 1 := by
    rw [hsum, CalcCharWidthPrefixSum_length]
  have hle := lower_bound_le x.StrWidthPrefixSum (x.MouseState.x - (x.CurrentPosX + 3))
  obtain ⟨hlo, hhi⟩ := lower_bound_spec x.StrWidthPrefixSum
    (x.MouseState.x - (x.CurrentPosX + 3))
    (by rw [hsum]; exact CalcCharWidthPrefixSum_sorted env hw w)
  have hcur : (placeCursor x).CursorIdx =
      if lower_bound x.StrWidthPrefixSum (x.MouseState.x - (x.CurrentPosX + 3)) = 0 then 0
      else ((lower_bound x.StrWidthPrefixSum (x.MouseState.x - (x.CurrentPosX + 3)) : Nat) : Int)
        - 1 := rfl
  rw [hcur]
  have hget : ∀ i : Nat, i ≤ w.length →
      x.StrWidthPrefixSum.getD i 0 = strWidth env (w.take i) := by
    intro i hi
    rw [hsum, CalcCharWidthPrefixSum_getD env w i hi]
  split_ifs with h0
  · refine ⟨le_refl _, by omega, ?_, Or.inl rfl⟩
    intro i hi hlt
    have := hhi i (by omega) (by omega)
    rw [hget i hi] at this
    omega
  · refine ⟨by omega, by omega, ?_, Or.inr ?_⟩
    · intro i hi hlt
      by_contra hcon
      have := hhi i (by omega) (by omega)
      rw [hget i hi] at this
      omega
    · have hidx : (((lower_bound x.StrWidthPrefixSum
          (x.MouseState.x - (x.CurrentPosX + 3)) : Nat) : Int) - 1).toNat
          = lower_bound x.StrWidthPrefixSum (x.MouseState.x - (x.CurrentPosX + 3)) - 1 := by
        omega
      rw [hidx, ← hget _ (by omega)]
      exact hlo _ (by omega)

theorem enterEdit_fields (env : Env) (s : GuiStates) (Id : Int) (buf : List Char) :
    (enterEdit env s Id buf).BufferedString = (if s.EditingId = Id then s.BufferedString else buf) ∧
    (enterEdit env s Id buf).StrWidthPrefixSum =
      CalcCharWidthPrefixSum env (enterEdit env s Id buf).BufferedString ∧
    (enterEdit env s Id buf).MouseState = s.MouseState ∧
    (enterEdit env s Id buf).CurrentPosX = s.CurrentPosX ∧
    (enterEdit env s Id buf).ActiveId = Id ∧ (enterEdit env s Id buf).EditingId = Id := by
  unfold enterEdit
  dsimp only
  by_cases h : s.EditingId = Id <;> simp [h]

theorem press_click (env : Env) (x : GuiStates) (Id : Int) (rect : RECT) (buf : List Char)
    (hin : PtInRect rect (mousePt x) = true)
    (hdown : x.MouseState.Action = MouseAction.LButtonDown) :
    InputText.press env x Id rect buf false =
      ({ InputText.click env x Id buf with HoveredId := Id }, buf) := by
  unfold InputText.press
  rw [hin, hdown]
  simp

theorem click_fields (env : Env) (x : GuiStates) (Id : Int) (buf : List Char) :
    (InputText.click env x Id buf).MouseState = x.MouseState ∧
    (InputText.click env x Id buf).KeyState = x.KeyState ∧
    (InputText.click env x Id buf).BufferedString
      = (if x.EditingId = Id then x.BufferedString else buf) ∧
    (InputText.click env x Id buf).SelectIdx = (InputText.click env x Id buf).CursorIdx ∧
    (InputText.click env x Id buf).CursorIdx = (placeCursor (enterEdit env x Id buf)).CursorIdx := by
  refine ⟨?_, ?_, (enterEdit_fields env x Id buf).1, rfl, rfl⟩
  · exact (enterEdit_fields env x Id buf).2.2.1
  · show (enterEdit env x Id buf).KeyState = _
    unfold enterEdit
    dsimp only
    split_ifs <;> rfl

/-- The `InputText` call of a plain click inside the rect with no key pending. -/
theorem InputText_click_eq (env : Env) (s : GuiStates) (buf : List Char) (width : Int)
    (hin : PtInRect (InputText.rect s width) (mousePt s) = true)
    (hdown : s.MouseState.Action = MouseAction.LButtonDown)
    (hkey : s.KeyState.key = env.Key.None) :
    ∃ r, InputText env s buf width false = some r ∧
      r.1.BufferedString = (if s.EditingId = s.CurrentId then s.BufferedString else buf) ∧
      r.1.SelectIdx = r.1.CursorIdx ∧
      r.1.CursorIdx =
        (placeCursor (enterEdit env { s with CurrentId := s.CurrentId + 1 } s.CurrentId buf)).CursorIdx
      := by
  have hstep : ∀ (x : GuiStates), PtInRect (InputText.rect s width) (mousePt x) = true →
      x.MouseState.Action = MouseAction.LButtonDown → x.KeyState.key = env.Key.None →
      ∃ t, InputText.key env
          (InputText.mouse env x s.CurrentId (InputText.rect s width) buf false).1
          s.CurrentId width = some t ∧
        (InputText.mouse env x s.CurrentId (InputText.rect s width) buf false).2 = buf ∧
        t.BufferedString = (if x.EditingId = s.CurrentId then x.BufferedString else buf) ∧
        t.SelectIdx = t.CursorIdx ∧
        t.CursorIdx = (placeCursor (enterEdit env x s.CurrentId buf)).CursorIdx := by
    intro x hxin hxdown hxkey
    obtain ⟨hcm, hck, hcb, hcs, hcc⟩ := click_fields env x s.CurrentId buf
    have hmouse : InputText.mouse env x s.CurrentId (InputText.rect s width) buf false =
        ({ InputText.click env x s.CurrentId buf with HoveredId := s.CurrentId }, buf) := by
      unfold InputText.mouse
      rw [press_click env x _ _ buf hxin hxdown]
      dsimp only
      rw [drag_of_not_move _ _ (by
        show (InputText.click env x s.CurrentId buf).MouseState.Action ≠ MouseAction.Move
        rw [hcm, hxdown]; decide)]
    rw [hmouse]
    refine ⟨{ InputText.click env x s.CurrentId buf with HoveredId := s.CurrentId }, ?_, rfl,
      hcb, hcs, hcc⟩
    unfold InputText.key
    rw [if_neg (fun hc => hc.2 (by
      show (InputText.click env x s.CurrentId buf).KeyState.key = env.Key.None
      rw [hck]; exact hxkey))]
  obtain ⟨t, ht, hb, htb, hts, htc⟩ := hstep { s with CurrentId := s.CurrentId + 1 } hin hdown hkey
  refine ⟨(advance env t 18, buf), ?_, ?_, ?_, ?_⟩
  · unfold InputText
    dsimp only
    have hrect : InputText.rect { s with CurrentId := s.CurrentId + 1 } width
        = InputText.rect s width := rfl
    rw [hrect, ht, hb]
    rfl
  · show (advance env t 18).BufferedString = _
    rw [← htb]
    unfold advance
    split_ifs <;> rfl
  · show (advance env t 18).SelectIdx = (advance env t 18).CursorIdx
    have : (advance env t 18).SelectIdx = t.SelectIdx ∧ (advance env t 18).CursorIdx = t.CursorIdx := by
      unfold advance
      split_ifs <;> exact ⟨rfl, rfl⟩
    rw [this.1, this.2, hts]
  · show (advance env t 18).CursorIdx = _
    rw [← htc]
    unfold advance
    split_ifs <;> rfl

/-- C16, as stated, fails: in the box bound to "ab" (offsets 0, 7, 14) a click
6 pixels right of the text origin is nearest to offset 7 (index 1, distance 1),
but the cursor and the anchor are put at index 0 (distance 6). -/
theorem InputText_click_not_nearest :
    PtInRect (InputText.rect (sampleStates (sampleMouse 34 30 MouseAction.LButtonDown) (-1)) 100)
      (mousePt (sampleStates (sampleMouse 34 30 MouseAction.LButtonDown) (-1))) = true ∧
    (InputText sampleEnv (sampleStates (sampleMouse 34 30 MouseAction.LButtonDown) (-1))
        ['a', 'b'] 100 false).map (fun r => (r.1.CursorIdx, r.1.SelectIdx)) = some (0, 0) ∧
    Int.natAbs (strWidth sampleEnv (['a', 'b'].take 1) - (34 - (25 + 3)))
      < Int.natAbs (strWidth sampleEnv (['a', 'b'].take 0) - (34 - (25 + 3))) := by
  decide

/-- C16 (amended): a single LButtonDown inside an `InputText` rect
(`autoSelectAll` false, no key pending, character widths non-negative) puts the
cursor on the last position of the working string whose pixel offset is
strictly left of the click offset `mouseX - (CurrentPosX + 3)`, and on position
0 when there is none; the selection anchor equals that cursor index. -/
theorem InputText_click_places_cursor_left_of_pointer (env : Env) (s : GuiStates)
    (buf : List Char) (width : Int) (hw : ∀ c, 0 ≤ env.textExtentCx c)
    (hin : PtInRect (InputText.rect s width) (mousePt s) = true)
    (hdown : s.MouseState.Action = MouseAction.LButtonDown)
    (hkey : s.KeyState.key = env.Key.None) :
    ∃ r, InputText env s buf width false = some r ∧
      r.1.BufferedString = (if s.EditingId = s.CurrentId then s.BufferedString else buf) ∧
      r.1.SelectIdx = r.1.CursorIdx ∧
      0 ≤ r.1.CursorIdx ∧ r.1.CursorIdx ≤ r.1.BufferedString.length ∧
      (∀ i : Nat, i ≤ r.1.BufferedString.length →
        strWidth env (r.1.BufferedString.take i) < s.MouseState.x - (s.CurrentPosX + 3) →
        (i : Int) ≤ r.1.CursorIdx) ∧
      (r.1.CursorIdx = 0 ∨
        strWidth env (r.1.BufferedString.take r.1.CursorIdx.toNat)
          < s.MouseState.x - (s.CurrentPosX + 3)) := by
  obtain ⟨r, hr, hb, hs, hc⟩ := InputText_click_eq env s buf width hin hdown hkey
  obtain ⟨heb, hes, hem, hex, -, -⟩ :=
    enterEdit_fields env { s with CurrentId := s.CurrentId + 1 } s.CurrentId buf
  have hrb : r.1.BufferedString
      = (enterEdit env { s with CurrentId := s.CurrentId + 1 } s.CurrentId buf).BufferedString := by
    rw [hb, heb]
  obtain ⟨h0, h1, hmax, hlt⟩ := placeCursor_spec env hw
    (enterEdit env { s with CurrentId := s.CurrentId + 1 } s.CurrentId buf) _ hes
  rw [hem, hex] at hmax hlt
  refine ⟨r, hr, hb, hs, ?_, ?_, ?_, ?_⟩
  · rw [hc]; exact h0
  · rw [hc, hrb]; exact h1
  · intro i hi hlti
    rw [hc]
    rw [hrb] at hi hlti
    exact hmax i hi hlti
  · rw [hc, hrb]
    exact hlt

/-- Witness for C16 (amended): in the box bound to "ab" a click 8 pixels right
of the text origin puts cursor and anchor at index 1 (offset 7). -/
theorem InputText_click_places_cursor_left_of_pointer_witness :
    (∀ c, 0 ≤ sampleEnv.textExtentCx c) ∧
    PtInRect (InputText.rect (sampleStates (sampleMouse 36 30 MouseAction.LButtonDown) (-1)) 100)
      (mousePt (sampleStates (sampleMouse 36 30 MouseAction.LButtonDown) (-1))) = true ∧
    ∃ r, InputText sampleEnv (sampleStates (sampleMouse 36 30 MouseAction.LButtonDown) (-1))
        ['a', 'b'] 100 false = some r ∧
      r.1.BufferedString = ['a', 'b'] ∧ r.1.SelectIdx = r.1.CursorIdx ∧
      (1 : Int) ≤ r.1.CursorIdx := by
  have hw : ∀ c, 0 ≤ sampleEnv.textExtentCx c := by
    intro c
    show (0 : Int) ≤ 7
    decide
  have hin : PtInRect
      (InputText.rect (sampleStates (sampleMouse 36 30 MouseAction.LButtonDown) (-1)) 100)
      (mousePt (sampleStates (sampleMouse 36 30 MouseAction.LButtonDown) (-1))) = true := by
    decide
  obtain ⟨r, hr, hb, hs, -, -, hmax, -⟩ := InputText_click_places_cursor_left_of_pointer
    sampleEnv (sampleStates (sampleMouse 36 30 MouseAction.LButtonDown) (-1)) ['a', 'b'] 100
    hw hin rfl rfl
  have hb' : r.1.BufferedString = ['a', 'b'] := hb.trans (by decide)
  refine ⟨hw, hin, r, hr, hb', hs, ?_⟩
  have h := hmax 1 (by rw [hb']; decide) (by rw [hb']; decide)
  exact h

/-! ## A frame without events -/

theorem sameInteraction_refl (s : GuiStates) : sameInteraction s s :=
  ⟨rfl, rfl, rfl, rfl, rfl, rfl, rfl, rfl, rfl⟩

theorem sameInteraction_trans {s t u : GuiStates} (h1 : sameInteraction s t)
    (h2 : sameInteraction t u) : sameInteraction s u := by
  obtain ⟨a1, a2, a3, a4, a5, a6, a7, a8, a9⟩ := h1
  obtain ⟨b1, b2, b3, b4, b5, b6, b7, b8, b9⟩ := h2
  exact ⟨b1.trans a1, b2.trans a2, b3.trans a3, b4.trans a4, b5.trans a5, b6.trans a6,
    b7.trans a7, b8.trans a8, b9.trans a9⟩

theorem sameInteraction_advance (env : Env) (s : GuiStates) (h : Int) :
    sameInteraction s (advance env s h) := by
  unfold advance
  split_ifs <;> exact sameInteraction_refl s

theorem sameInteraction_hover (s : GuiStates) (c h : Int) :
    sameInteraction s { s with CurrentId := c, HoveredId := h } :=
  ⟨rfl, rfl, rfl, rfl, rfl, rfl, rfl, rfl, rfl⟩

theorem Text_idle (env : Env) (s : GuiStates) : sameInteraction s (Text env s) := by
  unfold Text
  exact sameInteraction_trans (sameInteraction_hover s _ s.HoveredId)
    (sameInteraction_advance env _ _)

theorem MultilineText_idle (env : Env) (s : GuiStates) (buff : List Char) :
    sameInteraction s (MultilineText env s buff) := by
  unfold MultilineText
  exact sameInteraction_trans (sameInteraction_hover s _ s.HoveredId)
    (sameInteraction_advance env _ _)

theorem Button_idle (env : Env) (s : GuiStates) (width height : Int)
    (hA : s.MouseState.Action = MouseAction.None) :
    sameInteraction s (Button env s width height).1 ∧ (Button env s width height).2 = false := by
  constructor
  · unfold Button
    refine sameInteraction_trans ?_ (sameInteraction_advance env _ _)
    cases PtInRect (Button.rect { s with CurrentId := s.CurrentId + 1 } width height)
      (mousePt { s with CurrentId := s.CurrentId + 1 }) <;>
    · unfold sameInteraction
      simp [hA]
  · rw [Button_trigger, hA]
    simp

theorem CollapsingHeader_idle (env : Env) (s : GuiStates) (collapsed : Bool)
    (hA : s.MouseState.Action = MouseAction.None) :
    sameInteraction s (CollapsingHeader env s collapsed).1 ∧
      (CollapsingHeader env s collapsed).2.1 = collapsed := by
  unfold CollapsingHeader
  dsimp only
  cases PtInRect (CollapsingHeader.rect { s with CurrentId := s.CurrentId + 1 } collapsed)
      (mousePt { s with CurrentId := s.CurrentId + 1 }) <;>
  · refine ⟨sameInteraction_trans ?_ (sameInteraction_advance env _ _), ?_⟩
    · unfold sameInteraction
      cases collapsed <;> simp [hA]
    · simp [hA]

theorem CheckBox_idle (env : Env) (s : GuiStates) (checked : Bool)
    (hA : s.MouseState.Action = MouseAction.None) :
    sameInteraction s (CheckBox env s checked).1 ∧ (CheckBox env s checked).2 = checked := by
  unfold CheckBox
  dsimp only
  cases PtInRect (boxRect { s with CurrentId := s.CurrentId + 1 })
      (mousePt { s with CurrentId := s.CurrentId + 1 }) <;>
  · simp only [Bool.false_eq_true, if_false, if_true]
    refine ⟨sameInteraction_trans ?_ (sameInteraction_advance env _ _), ?_⟩
    · unfold sameInteraction
      simp [hA]
    · simp [hA]

theorem RadioButton_idle (env : Env) (s : GuiStates) (activeVal currentVal : Int)
    (hA : s.MouseState.Action = MouseAction.None) :
    sameInteraction s (RadioButton env s activeVal currentVal).1 ∧
      (RadioButton env s activeVal currentVal).2 = currentVal := by
  unfold RadioButton
  dsimp only
  cases PtInRect (boxRect { s with CurrentId := s.CurrentId + 1 })
      (mousePt { s with CurrentId := s.CurrentId + 1 }) <;>
  · simp only [Bool.false_eq_true, if_false, if_true]
    refine ⟨sameInteraction_trans ?_ (sameInteraction_advance env _ _), ?_⟩
    · unfold sameInteraction
      simp [hA]
    · simp [hA]

theorem ComboBox_idle (env : Env) (s : GuiStates) (numItems selected : Int)
    (hA : s.MouseState.Action = MouseAction.None) :
    sameInteraction s (ComboBox env s numItems selected).1 ∧
      (ComboBox env s numItems selected).2 = selected := by
  unfold ComboBox
  dsimp only
  cases PtInRect (ComboBox.mainRect { s with CurrentId := s.CurrentId + 1 })
      (mousePt { s with CurrentId := s.CurrentId + 1 }) <;>
  · simp only [Bool.false_eq_true, if_false, if_true, hA, reduceCtorEq, and_false]
    split_ifs <;>
    · refine ⟨sameInteraction_trans ?_ (sameInteraction_advance env _ _), rfl⟩
      unfold sameInteraction
      simp

theorem InputText_idle (env : Env) (s : GuiStates) (buf : List Char) (width : Int)
    (autoSelectAll : Bool) (hA : s.MouseState.Action = MouseAction.None)
    (hK : s.KeyState.key = env.Key.None) :
    ∃ t, InputText env s buf width autoSelectAll = some (t, buf) ∧ sameInteraction s t := by
  have hidle : noPressNoDrag ({ s with CurrentId := s.CurrentId + 1 } : GuiStates).MouseState := by
    unfold noPressNoDrag
    show s.MouseState.Action ≠ _ ∧ s.MouseState.Action ≠ _ ∧ ¬ (s.MouseState.Action = _ ∧ _)
    rw [hA]
    simp
  obtain ⟨h, hmouse⟩ := InputText_mouse_idle env { s with CurrentId := s.CurrentId + 1 }
    s.CurrentId (InputText.rect { s with CurrentId := s.CurrentId + 1 } width) buf
    autoSelectAll hidle
  refine ⟨advance env { s with CurrentId := s.CurrentId + 1, HoveredId := h } 18, ?_,
    sameInteraction_trans (sameInteraction_hover s _ h) (sameInteraction_advance env _ _)⟩
  unfold InputText
  dsimp only
  rw [hmouse]
  unfold InputText.key
  dsimp only
  rw [if_neg (fun hc => hc.2 hK)]
  rfl

/-- With mouse action `None` and key `None` a declaration returns, leaves the
interaction state and the by-reference arguments alone, and a `Button` returns
false. -/
theorem declareOut_idle (env : Env) (s : GuiStates) (w : Widget)
    (hA : s.MouseState.Action = MouseAction.None) (hK : s.KeyState.key = env.Key.None) :
    ∃ t b, declareOut env s w = some (t, w, b) ∧ sameInteraction s t ∧
      (∀ width height, w = Widget.Button width height → b = false) := by
  cases w with
  | Text => exact ⟨_, _, rfl, Text_idle env s, fun _ _ h => by cases h⟩
  | MultilineText buff => exact ⟨_, _, rfl, MultilineText_idle env s buff, fun _ _ h => by cases h⟩
  | CollapsingHeader collapsed =>
    obtain ⟨h1, h2⟩ := CollapsingHeader_idle env s collapsed hA
    exact ⟨_, (CollapsingHeader env s collapsed).2.2, by simp only [declareOut, h2], h1,
      fun _ _ h => by cases h⟩
  | Button width height =>
    obtain ⟨h1, h2⟩ := Button_idle env s width height hA
    exact ⟨_, _, rfl, h1, fun _ _ _ => h2⟩
  | CheckBox checked =>
    obtain ⟨h1, h2⟩ := CheckBox_idle env s checked hA
    exact ⟨_, false, by simp only [declareOut, h2], h1, fun _ _ h => by cases h⟩
  | RadioButton activeVal currentVal =>
    obtain ⟨h1, h2⟩ := RadioButton_idle env s activeVal currentVal hA
    exact ⟨_, false, by simp only [declareOut, h2], h1, fun _ _ h => by cases h⟩
  | ComboBox numItems selected =>
    obtain ⟨h1, h2⟩ := ComboBox_idle env s numItems selected hA
    exact ⟨_, false, by simp only [declareOut, h2], h1, fun _ _ h => by cases h⟩
  | InputText buf width autoSelectAll =>
    obtain ⟨t, ht, hs⟩ := InputText_idle env s buf width autoSelectAll hA hK
    exact ⟨t, false, by simp only [declareOut, ht, Option.map_some'], hs, fun _ _ h => by cases h⟩

theorem declareAllOut_idle (env : Env) (ws : List Widget) :
    ∀ s : GuiStates, s.MouseState.Action = MouseAction.None → s.KeyState.key = env.Key.None →
      ∃ t outs, declareAllOut env ws s = some (t, outs) ∧ sameInteraction s t ∧
        outs.map Prod.fst = ws ∧
        (∀ o ∈ outs, ∀ width height, o.1 = Widget.Button width height → o.2 = false) := by
  induction ws with
  | nil =>
    intro s _ _
    exact ⟨s, [], rfl, sameInteraction_refl s, rfl, fun o ho => by cases ho⟩
  | cons w ws ih =>
    intro s hA hK
    obtain ⟨u, b, hu, hsu, hb⟩ := declareOut_idle env s w hA hK
    obtain ⟨t, outs, ht, hst, hmap, hbtn⟩ := ih u (by rw [hsu.2.2.1]; exact hA)
      (by rw [hsu.2.2.2.1]; exact hK)
    refine ⟨t, (w, b) :: outs, ?_, sameInteraction_trans hsu hst, by simp [hmap], ?_⟩
    · simp only [declareAllOut, hu, Option.some_bind, ht, Option.map_some']
    · intro o ho width height hw
      rcases List.mem_cons.mp ho with rfl | ho
      · exact hb width height hw
      · exact hbtn o ho width height hw

/-- C18: `EndFrame` sets the global mouse action and the key to `None` and
leaves pointer position, button-held flag, `ActiveId` and `EditingId` alone;
if no event arrives, the next frame (`BeginFrame`, `BeginDialog`, any widget
declarations) runs to its end, no `Button` returns true, every by-reference
argument keeps its value, and `ActiveId` and `EditingId` are unchanged. -/
theorem EndFrame_makes_events_one_shot (env : Env) (s : GuiStates) (layout : LayoutStrategy)
    (x y dw dh : Int) (ws : List Widget) :
    ((EndFrame env s).GlobalMouseState.Action = MouseAction.None ∧
      (EndFrame env s).KeyState.key = env.Key.None ∧
      (EndFrame env s).GlobalMouseState.x = s.GlobalMouseState.x ∧
      (EndFrame env s).GlobalMouseState.y = s.GlobalMouseState.y ∧
      (EndFrame env s).GlobalMouseState.lDown = s.GlobalMouseState.lDown ∧
      (EndFrame env s).ActiveId = s.ActiveId ∧ (EndFrame env s).EditingId = s.EditingId) ∧
    ∃ t outs,
      declareAllOut env ws (BeginDialog (BeginFrame (EndFrame env s)) layout x y dw dh)
        = some (t, outs) ∧
      t.ActiveId = s.ActiveId ∧ t.EditingId = s.EditingId ∧
      outs.map Prod.fst = ws ∧
      (∀ o ∈ outs, ∀ width height, o.1 = Widget.Button width height → o.2 = false) := by
  refine ⟨⟨rfl, rfl, rfl, rfl, rfl, rfl, rfl⟩, ?_⟩
  have hA : (BeginDialog (BeginFrame (EndFrame env s)) layout x y dw dh).MouseState.Action
      = MouseAction.None := by cases layout <;> rfl
  have hK : (BeginDialog (BeginFrame (EndFrame env s)) layout x y dw dh).KeyState.key
      = env.Key.None := by cases layout <;> rfl
  have hact : (BeginDialog (BeginFrame (EndFrame env s)) layout x y dw dh).ActiveId
      = s.ActiveId := by cases layout <;> rfl
  have hed : (BeginDialog (BeginFrame (EndFrame env s)) layout x y dw dh).EditingId
      = s.EditingId := by cases layout <;> rfl
  obtain ⟨t, outs, ht, hst, hmap, hbtn⟩ := declareAllOut_idle env ws _ hA hK
  exact ⟨t, outs, ht, hst.1.trans hact, hst.2.1.trans hed, hmap, hbtn⟩

/-! ## Caret position and width array -/

theorem vecAt_Calc (env : Env) (str : List Char) (i : Int) (h0 : 0 ≤ i)
    (h1 : i ≤ str.length) :
    vecAt (CalcCharWidthPrefixSum env str) i = some (strWidth env (str.take i.toNat)) := by
  have hlt : i.toNat < (CalcCharWidthPrefixSum env str).length := by
    rw [CalcCharWidthPrefixSum_length]
    omega
  unfold vecAt
  rw [if_pos h0, List.getElem?_eq_getElem hlt, ← CalcCharWidthPrefixSum_getD env str i.toNat
    (by omega), List.getD_eq_getElem _ _ hlt]

theorem vecAt_widths (env : Env) (s : GuiStates) (hp : PrefixOK env s) (i : Int) (h0 : 0 ≤ i)
    (h1 : i ≤ s.BufferedString.length) :
    vecAt s.StrWidthPrefixSum i = some (strWidth env (s.BufferedString.take i.toNat)) := by
  rw [hp]
  exact vecAt_Calc env _ i h0 h1

theorem strWidth_take_erase (env : Env) (str : List Char) (a b : Nat) (ha : a ≤ str.length) :
    strWidth env ((str.take a ++ str.drop b).take a) = strWidth env (str.take a) := by
  rw [List.take_append_of_le_length (by rw [List.length_take]; omega), List.take_take,
    min_self]

theorem strWidth_take_insert (env : Env) (str : List Char) (a : Nat) (c : Char)
    (ha : a ≤ str.length) :
    strWidth env ((str.take a ++ c :: str.drop a).take (a + 1))
      = strWidth env (str.take a) + env.textExtentCx c := by
  have hl : (str.take a).length = a := by rw [List.length_take]; omega
  rw [List.take_append_eq_append_take, hl, List.take_of_length_le (by omega)]
  simp [strWidth]

theorem caret_eq (env : Env) (s : GuiStates) (h : EditOK env s) :
    s.CursorPos - 4 = strWidth env (s.BufferedString.take s.CursorIdx.toNat) := by
  obtain ⟨hp, ⟨-, hc0, hc1, -, -⟩, hcar⟩ := h
  unfold CaretOK at hcar
  rw [vecAt_widths env s hp _ hc0 hc1] at hcar
  exact (Option.some.inj hcar).symm

theorem EditOK_congr (env : Env) (s t : GuiStates) (h : EditOK env s)
    (h1 : t.BufferedString = s.BufferedString) (h2 : t.StrWidthPrefixSum = s.StrWidthPrefixSum)
    (h3 : t.CursorPos = s.CursorPos) (h4 : t.CursorIdx = s.CursorIdx)
    (h5 : t.SelectIdx = s.SelectIdx) : EditOK env t := by
  unfold EditOK PrefixOK TextOK CaretOK at *
  rw [h1, h2, h3, h4, h5]
  exact h

theorem caseLeftArrow_caret (env : Env) (s : GuiStates) (h : EditOK env s) :
    ∀ t, InputText.caseLeftArrow s = some t → PrefixOK env t ∧ CaretOK t := by
  intro t ht
  have hpos := caret_eq env s h
  obtain ⟨hp, ⟨hl, hc0, hc1, hs0, hs1⟩, -⟩ := h
  have ha := vecAt_widths env s hp s.CursorIdx hc0 hc1
  have hb := vecAt_widths env s hp (max (s.CursorIdx - 1) 0) (le_max_right _ _) (by omega)
  simp only [InputText.caseLeftArrow, Math_Max_eq_max, ha, hb, Option.some_bind,
    Option.some.injEq] at ht
  rw [← ht]
  refine ⟨hp, ?_⟩
  unfold CaretOK
  dsimp only
  rw [hb]
  congr 1
  omega

theorem caseRightArrow_caret (env : Env) (s : GuiStates) (h : EditOK env s) :
    ∀ t, InputText.caseRightArrow s = some t → PrefixOK env t ∧ CaretOK t := by
  intro t ht
  have hpos := caret_eq env s h
  obtain ⟨hp, ⟨hl, hc0, hc1, hs0, hs1⟩, -⟩ := h
  have hb := vecAt_widths env s hp s.CursorIdx hc0 hc1
  have ha := vecAt_widths env s hp (min (s.CursorIdx + 1) s.BufferedString.length)
    (by omega) (min_le_right _ _)
  simp only [InputText.caseRightArrow, Math_Min_eq_min, ha, hb, Option.some_bind,
    Option.some.injEq] at ht
  rw [← ht]
  refine ⟨hp, ?_⟩
  unfold CaretOK
  dsimp only
  rw [ha]
  congr 1
  omega

theorem eraseSelection_caret (env : Env) (s : GuiStates) (h : EditOK env s) :
    ∀ t, eraseSelection env s = some t → PrefixOK env t ∧ CaretOK t := by
  intro t ht
  obtain ⟨hp, ⟨hl, hc0, hc1, hs0, hs1⟩, -⟩ := h
  have hmin0 : 0 ≤ min s.CursorIdx s.SelectIdx := le_min hc0 hs0
  have hmin1 : min s.CursorIdx s.SelectIdx ≤ s.BufferedString.length :=
    le_trans (min_le_left _ _) hc1
  have hw := vecAt_widths env s hp _ hmin0 hmin1
  simp only [eraseSelection, Math_Min_eq_min, Math_Max_eq_max, strErase, hmin0, hmin1,
    and_self, if_true, Option.some_bind, hw, Option.some.injEq] at ht
  rw [← ht]
  refine ⟨rfl, ?_⟩
  unfold CaretOK
  dsimp only
  rw [vecAt_Calc env _ _ hmin0 (by
    rw [List.length_append, List.length_take]
    omega)]
  rw [strWidth_take_erase env _ _ _ (by omega)]
  congr 1
  omega

theorem insertChar_caret (env : Env) (s : GuiStates) (width : Int) (hp : PrefixOK env s)
    (hc0 : 0 ≤ s.CursorIdx) (hc1 : s.CursorIdx ≤ s.BufferedString.length)
    (hcar : CaretOK s) :
    ∀ t, InputText.insertChar env s width = some t → PrefixOK env t ∧ CaretOK t := by
  intro t ht
  have hlast : s.StrWidthPrefixSum.getLast? = some (strWidth env s.BufferedString) := by
    rw [hp, CalcCharWidthPrefixSum_getLast]
  have hpos : s.CursorPos - 4 = strWidth env (s.BufferedString.take s.CursorIdx.toNat) := by
    unfold CaretOK at hcar
    rw [vecAt_widths env s hp _ hc0 hc1] at hcar
    exact (Option.some.inj hcar).symm
  unfold InputText.insertChar at ht
  simp only [hlast, Option.some_bind] at ht
  split_ifs at ht with hcap
  · rw [← Option.some.inj ht]
    exact ⟨hp, hcar⟩
  · simp only [strInsert, hc0, hc1, and_self, if_true, Option.some_bind,
      Option.some.injEq] at ht
    rw [← ht]
    refine ⟨rfl, ?_⟩
    unfold CaretOK
    dsimp only
    have hidx : (s.CursorIdx + 1).toNat = s.CursorIdx.toNat + 1 := by omega
    rw [vecAt_Calc env _ _ (by omega) (by
      rw [List.length_append, List.length_take, List.length_cons, List.length_drop]
      omega), hidx, strWidth_take_insert env _ _ _ (by omega)]
    congr 1
    omega

theorem caseBackSpace_caret (env : Env) (s : GuiStates) (h : EditOK env s) :
    ∀ t, InputText.caseBackSpace env s = some t → PrefixOK env t ∧ CaretOK t := by
  intro t ht
  unfold InputText.caseBackSpace at ht
  split_ifs at ht with hsel hpos0
  · exact eraseSelection_caret env s h t ht
  · have hpos := caret_eq env s h
    obtain ⟨hp, ⟨hl, hc0, hc1, hs0, hs1⟩, -⟩ := h
    have ha := vecAt_widths env s hp s.CursorIdx hc0 hc1
    have hb := vecAt_widths env s hp (s.CursorIdx - 1) (by omega) (by omega)
    have h01 : (0 : Int) ≤ s.CursorIdx - 1 := by omega
    have h11 : s.CursorIdx - 1 ≤ s.BufferedString.length := by omega
    simp only [ha, hb, strErase, h01, h11, and_self, if_true, Option.some_bind,
      Option.some.injEq] at ht
    rw [← ht]
    refine ⟨rfl, ?_⟩
    unfold CaretOK
    dsimp only
    rw [vecAt_Calc env _ _ h01 (by
      rw [List.length_append, List.length_take]
      omega)]
    rw [strWidth_take_erase env _ _ _ (by omega)]
    congr 1
    omega
  · rw [← Option.some.inj ht]
    exact ⟨h.1, h.2.2⟩

theorem caseHome_caret (env : Env) (s : GuiStates) (h : EditOK env s) :
    PrefixOK env (InputText.caseHome s) ∧ CaretOK (InputText.caseHome s) := by
  obtain ⟨hp, ⟨hl, hc0, hc1, hs0, hs1⟩, -⟩ := h
  refine ⟨hp, ?_⟩
  unfold CaretOK InputText.caseHome
  dsimp only
  rw [vecAt_widths env s hp 0 (le_refl _) (by omega)]
  simp [strWidth]

theorem caseEnd_caret (env : Env) (s : GuiStates) (h : EditOK env s) :
    ∀ t, InputText.caseEnd s = some t → PrefixOK env t ∧ CaretOK t := by
  intro t ht
  obtain ⟨hp, ⟨hl, hc0, hc1, hs0, hs1⟩, -⟩ := h
  have hlast : s.StrWidthPrefixSum.getLast? = some (strWidth env s.BufferedString) := by
    rw [hp, CalcCharWidthPrefixSum_getLast]
  simp only [InputText.caseEnd, hlast, Option.some_bind, Option.some.injEq] at ht
  rw [← ht]
  refine ⟨hp, ?_⟩
  unfold CaretOK
  dsimp only
  rw [vecAt_widths env s hp _ (by omega) (by omega)]
  have hidx : ((s.StrWidthPrefixSum.length : Int) - 1).toNat = s.BufferedString.length := by
    omega
  rw [hidx, List.take_length]
  congr 1
  omega

theorem caseDefault_caret (env : Env) (s : GuiStates) (width : Int) (h : EditOK env s) :
    ∀ t, InputText.caseDefault env s width = some t → PrefixOK env t ∧ CaretOK t := by
  intro t ht
  unfold InputText.caseDefault at ht
  split_ifs at ht with hkey hsel
  · rw [← Option.some.inj ht]
    exact ⟨h.1, h.2.2⟩
  · obtain ⟨s1, hs1, -, -, -, hok1⟩ := eraseSelection_ok env s h.2.1
    rw [hs1, Option.some_bind] at ht
    obtain ⟨hp1, hcar1⟩ := eraseSelection_caret env s h s1 hs1
    exact insertChar_caret env s1 width hp1 hok1.2.1 hok1.2.2.1 hcar1 t ht
  · exact insertChar_caret env s width h.1 h.2.1.2.1 h.2.1.2.2.1 h.2.2 t ht

theorem keySwitch_caret (env : Env) (s : GuiStates) (width : Int) (h : EditOK env s) :
    ∀ t, InputText.keySwitch env s width = some t → PrefixOK env t ∧ CaretOK t := by
  intro t ht
  unfold InputText.keySwitch at ht
  split_ifs at ht
  · exact caseLeftArrow_caret env s h t ht
  · exact caseRightArrow_caret env s h t ht
  · exact caseBackSpace_caret env s h t ht
  · rw [← Option.some.inj ht]
    exact caseHome_caret env s h
  · exact caseEnd_caret env s h t ht
  · exact caseDefault_caret env s width h t ht

theorem InputText_key_edit (env : Env) (s : GuiStates) (Id width : Int) (h : EditOK env s) :
    ∃ t, InputText.key env s Id width = some t ∧ EditOK env t := by
  obtain ⟨t, ht, -, hok⟩ := InputText_key_ok env s Id width h.2.1
  refine ⟨t, ht, ?_, hok, ?_⟩ <;>
  · unfold InputText.key at ht
    split_ifs at ht with hact
    · obtain ⟨u, hu, -, -⟩ := keySwitch_ok env s width h.2.1
      rw [hu, Option.some_bind] at ht
      rw [← Option.some.inj ht]
      first
        | exact (keySwitch_caret env s width h u hu).1
        | exact (keySwitch_caret env s width h u hu).2
    · rw [← Option.some.inj ht]
      first
        | exact h.1
        | exact h.2.2

theorem enterEdit_PrefixOK (env : Env) (s : GuiStates) (Id : Int) (buf : List Char) :
    PrefixOK env (enterEdit env s Id buf) := by
  unfold PrefixOK enterEdit
  rfl

theorem selectAll_edit (env : Env) (s : GuiStates) (Id : Int) (buf : List Char) :
    EditOK env (InputText.selectAll env s Id buf) := by
  have hp : PrefixOK env (InputText.selectAll env s Id buf) := enterEdit_PrefixOK env s Id buf
  refine ⟨hp, (selectAll_ok env s Id buf).2, ?_⟩
  unfold CaretOK
  rw [vecAt_widths env _ hp _ (selectAll_ok env s Id buf).2.2.1
    (selectAll_ok env s Id buf).2.2.2.1]
  have hlast : (enterEdit env s Id buf).StrWidthPrefixSum.getLastD 0
      = strWidth env (enterEdit env s Id buf).BufferedString := by
    rw [enterEdit_PrefixOK env s Id buf, List.getLastD_eq_getLast?,
      CalcCharWidthPrefixSum_getLast]
    rfl
  have hidx : (InputText.selectAll env s Id buf).CursorIdx.toNat
      = (enterEdit env s Id buf).BufferedString.length := by
    show ((enterEdit env s Id buf).BufferedString.length : Int).toNat = _
    omega
  have hstr : (InputText.selectAll env s Id buf).BufferedString
      = (enterEdit env s Id buf).BufferedString := rfl
  rw [hidx, hstr, List.take_length]
  congr 1
  show _ = 4 + (if (enterEdit env s Id buf).BufferedString.length > 0 then
    (enterEdit env s Id buf).StrWidthPrefixSum.getLastD 0 else 0) - 4
  rw [hlast]
  split_ifs with hlen
  · omega
  · have hnil : (enterEdit env s Id buf).BufferedString = [] :=
      List.length_eq_zero.mp (by omega)
    rw [hnil]
    simp [strWidth]

theorem placeCursor_caret (env : Env) (x : GuiStates) (hp : PrefixOK env x) :
    CaretOK (placeCursor x) := by
  have hle := lower_bound_le x.StrWidthPrefixSum (x.MouseState.x - (x.CurrentPosX + 3))
  have hlen : x.StrWidthPrefixSum.length = x.BufferedString.length + 1 := by
    rw [hp, CalcCharWidthPrefixSum_length]
  unfold CaretOK placeCursor
  dsimp only
  by_cases h0 : lower_bound x.StrWidthPrefixSum (x.MouseState.x - (x.CurrentPosX + 3)) = 0
  · rw [if_pos h0, if_pos h0, vecAt_widths env x hp 0 (le_refl _) (by omega)]
    simp [strWidth]
  · rw [if_neg h0, if_neg h0]
    have hlt : lower_bound x.StrWidthPrefixSum (x.MouseState.x - (x.CurrentPosX + 3)) - 1
        < x.StrWidthPrefixSum.length := by omega
    have hnat : ((lower_bound x.StrWidthPrefixSum (x.MouseState.x - (x.CurrentPosX + 3)) : Int)
        - 1).toNat
        = lower_bound x.StrWidthPrefixSum (x.MouseState.x - (x.CurrentPosX + 3)) - 1 := by
      omega
    unfold vecAt
    rw [if_pos (by omega), hnat, List.getElem?_eq_getElem hlt, List.getD_eq_getElem _ _ hlt]
    congr 1
    omega

theorem click_edit (env : Env) (s : GuiStates) (Id : Int) (buf : List Char) :
    EditOK env (InputText.click env s Id buf) :=
  ⟨enterEdit_PrefixOK env s Id buf, (click_ok env s Id buf).2,
    placeCursor_caret env (enterEdit env s Id buf) (enterEdit_PrefixOK env s Id buf)⟩

theorem drag_edit (env : Env) (s : GuiStates) (Id : Int) (h : EditOK env s) :
    EditOK env (InputText.drag s Id) := by
  refine ⟨?_, (drag_ok s Id).2 h.2.1, ?_⟩
  · unfold InputText.drag
    split_ifs
    · exact h.1
    · exact h.1
  · unfold InputText.drag
    split_ifs
    · exact placeCursor_caret env s h.1
    · exact h.2.2

theorem press_edit (env : Env) (s : GuiStates) (Id : Int) (rect : RECT) (buf : List Char)
    (autoSelectAll : Bool) :
    (EditOK env s → EditOK env (InputText.press env s Id rect buf autoSelectAll).1) ∧
    (PtInRect rect (mousePt s) = true →
      (s.MouseState.Action = MouseAction.LButtonDown ∨
        s.MouseState.Action = MouseAction.LButtonDbClick) →
      EditOK env (InputText.press env s Id rect buf autoSelectAll).1) := by
  unfold InputText.press
  split_ifs with hin hsel hclick hout
  · have := selectAll_edit env s Id buf
    exact ⟨fun _ => EditOK_congr env _ _ this rfl rfl rfl rfl rfl,
      fun _ _ => EditOK_congr env _ _ this rfl rfl rfl rfl rfl⟩
  · have := click_edit env s Id buf
    exact ⟨fun _ => EditOK_congr env _ _ this rfl rfl rfl rfl rfl,
      fun _ _ => EditOK_congr env _ _ this rfl rfl rfl rfl rfl⟩
  · refine ⟨fun h => EditOK_congr env _ _ h rfl rfl rfl rfl rfl, fun _ hact => ?_⟩
    rcases hact with hd | hd
    · exact absurd hd hclick
    · exact absurd (Or.inl hd) hsel
  · refine ⟨fun h => ?_, fun hc => absurd hc hin⟩
    unfold InputText.blur
    dsimp only
    split_ifs <;> exact EditOK_congr env _ _ h rfl rfl rfl rfl rfl
  · exact ⟨fun h => h, fun hc => absurd hc hin⟩

theorem advance_EditOK (env : Env) (s : GuiStates) (h : Int) (hs : EditOK env s) :
    EditOK env (advance env s h) := by
  unfold advance
  split_ifs <;> exact EditOK_congr env _ _ hs rfl rfl rfl rfl rfl

/-- From a state that satisfies `EditOK`, or on a call that enters editing,
`InputText` returns a state that satisfies `EditOK`. -/
theorem InputText_edit (env : Env) (s : GuiStates) (buf : List Char) (width : Int)
    (autoSelectAll : Bool) (h : EditOK env s ∨ InputText.entersEditing s width) :
    ∃ r, InputText env s buf width autoSelectAll = some r ∧ EditOK env r.1 := by
  have hpress : EditOK env (InputText.press env { s with CurrentId := s.CurrentId + 1 }
      s.CurrentId (InputText.rect { s with CurrentId := s.CurrentId + 1 } width) buf
      autoSelectAll).1 := by
    obtain ⟨h1, h2⟩ := press_edit env { s with CurrentId := s.CurrentId + 1 } s.CurrentId
      (InputText.rect { s with CurrentId := s.CurrentId + 1 } width) buf autoSelectAll
    rcases h with h | h
    · exact h1 (EditOK_congr env _ _ h rfl rfl rfl rfl rfl)
    · exact h2 h.1 h.2
  have hdrag := drag_edit env _ s.CurrentId hpress
  obtain ⟨t, ht, hok⟩ := InputText_key_edit env _ s.CurrentId width hdrag
  refine ⟨(advance env t 18,
    (InputText.press env { s with CurrentId := s.CurrentId + 1 } s.CurrentId
      (InputText.rect { s with CurrentId := s.CurrentId + 1 } width) buf autoSelectAll).2),
    ?_, advance_EditOK env t 18 hok⟩
  unfold InputText InputText.mouse
  dsimp only
  rw [ht]
  rfl

/-! ## The width array follows the working string -/

theorem PrefixKept_refl (env : Env) (s : GuiStates) : PrefixKept env s s :=
  Or.inl ⟨rfl, rfl⟩

theorem PrefixKept_trans (env : Env) {s t u : GuiStates} (h1 : PrefixKept env s t)
    (h2 : PrefixKept env t u) : PrefixKept env s u := by
  rcases h2 with ⟨hb, hv⟩ | hp
  · rcases h1 with ⟨hb1, hv1⟩ | hp1
    · exact Or.inl ⟨hb.trans hb1, hv.trans hv1⟩
    · right
      unfold PrefixOK at hp1 ⊢
      rw [hb, hv]
      exact hp1
  · exact Or.inr hp

theorem eraseSelection_widths (env : Env) (s : GuiStates) :
    ∀ t, eraseSelection env s = some t → PrefixOK env t := by
  intro t ht
  unfold eraseSelection at ht
  simp only [Option.bind_eq_some, Option.some.injEq] at ht
  obtain ⟨str, -, w, -, ht⟩ := ht
  rw [← ht]
  rfl

theorem insertChar_widths (env : Env) (s : GuiStates) (width : Int) :
    ∀ t, InputText.insertChar env s width = some t → PrefixKept env s t := by
  intro t ht
  unfold InputText.insertChar at ht
  simp only [Option.bind_eq_some] at ht
  obtain ⟨last, -, ht⟩ := ht
  split_ifs at ht
  · rw [← Option.some.inj ht]
    exact PrefixKept_refl env s
  · simp only [Option.bind_eq_some, Option.some.injEq] at ht
    obtain ⟨str, -, ht⟩ := ht
    rw [← ht]
    exact Or.inr rfl

theorem caseBackSpace_widths (env : Env) (s : GuiStates) :
    ∀ t, InputText.caseBackSpace env s = some t → PrefixKept env s t := by
  intro t ht
  unfold InputText.caseBackSpace at ht
  split_ifs at ht
  · exact Or.inr (eraseSelection_widths env s t ht)
  · simp only [Option.bind_eq_some, Option.some.injEq] at ht
    obtain ⟨a, -, b, -, str, -, ht⟩ := ht
    rw [← ht]
    exact Or.inr rfl
  · rw [← Option.some.inj ht]
    exact PrefixKept_refl env s

theorem caseDefault_widths (env : Env) (s : GuiStates) (width : Int) :
    ∀ t, InputText.caseDefault env s width = some t → PrefixKept env s t := by
  intro t ht
  unfold InputText.caseDefault at ht
  split_ifs at ht
  · rw [← Option.some.inj ht]
    exact PrefixKept_refl env s
  · simp only [Option.bind_eq_some] at ht
    obtain ⟨s1, hs1, ht⟩ := ht
    exact PrefixKept_trans env (Or.inr (eraseSelection_widths env s s1 hs1))
      (insertChar_widths env s1 width t ht)
  · exact insertChar_widths env s width t ht

theorem keySwitch_widths (env : Env) (s : GuiStates) (width : Int) :
    ∀ t, InputText.keySwitch env s width = some t → PrefixKept env s t := by
  intro t ht
  unfold InputText.keySwitch at ht
  split_ifs at ht
  · unfold InputText.caseLeftArrow at ht
    simp only [Option.bind_eq_some, Option.some.injEq] at ht
    obtain ⟨a, -, b, -, ht⟩ := ht
    rw [← ht]
    exact Or.inl ⟨rfl, rfl⟩
  · unfold InputText.caseRightArrow at ht
    simp only [Option.bind_eq_some, Option.some.injEq] at ht
    obtain ⟨a, -, b, -, ht⟩ := ht
    rw [← ht]
    exact Or.inl ⟨rfl, rfl⟩
  · exact caseBackSpace_widths env s t ht
  · rw [← Option.some.inj ht]
    exact Or.inl ⟨rfl, rfl⟩
  · unfold InputText.caseEnd at ht
    simp only [Option.bind_eq_some, Option.some.injEq] at ht
    obtain ⟨a, -, ht⟩ := ht
    rw [← ht]
    exact Or.inl ⟨rfl, rfl⟩
  · exact caseDefault_widths env s width t ht

theorem InputText_key_widths (env : Env) (s : GuiStates) (Id width : Int) :
    ∀ t, InputText.key env s Id width = some t → PrefixKept env s t := by
  intro t ht
  unfold InputText.key at ht
  split_ifs at ht
  · simp only [Option.bind_eq_some, Option.some.injEq] at ht
    obtain ⟨u, hu, ht⟩ := ht
    rw [← ht]
    rcases keySwitch_widths env s width u hu with ⟨h1, h2⟩ | hp
    · exact Or.inl ⟨h1, h2⟩
    · exact Or.inr hp
  · rw [← Option.some.inj ht]
    exact PrefixKept_refl env s

theorem press_widths (env : Env) (s : GuiStates) (Id : Int) (rect : RECT) (buf : List Char)
    (autoSelectAll : Bool) :
    PrefixKept env s (InputText.press env s Id rect buf autoSelectAll).1 := by
  unfold InputText.press
  split_ifs
  · exact Or.inr (enterEdit_PrefixOK env s Id buf)
  · exact Or.inr (enterEdit_PrefixOK env s Id buf)
  · exact Or.inl ⟨rfl, rfl⟩
  · unfold InputText.blur
    dsimp only
    split_ifs <;> exact Or.inl ⟨rfl, rfl⟩
  · exact Or.inl ⟨rfl, rfl⟩

theorem press_enters_widths (env : Env) (s : GuiStates) (Id : Int) (rect : RECT)
    (buf : List Char) (autoSelectAll : Bool) (hin : PtInRect rect (mousePt s) = true)
    (hact : s.MouseState.Action = MouseAction.LButtonDown ∨
      s.MouseState.Action = MouseAction.LButtonDbClick) :
    PrefixOK env (InputText.press env s Id rect buf autoSelectAll).1 := by
  unfold InputText.press
  rw [if_pos hin]
  split_ifs with hsel hclick
  · exact enterEdit_PrefixOK env s Id buf
  · exact enterEdit_PrefixOK env s Id buf
  · rcases hact with hd | hd
    · exact absurd hd hclick
    · exact absurd (Or.inl hd) hsel

theorem drag_widths (env : Env) (s : GuiStates) (Id : Int) :
    PrefixKept env s (InputText.drag s Id) := by
  unfold InputText.drag
  split_ifs <;> exact Or.inl ⟨rfl, rfl⟩

theorem advance_widths (env : Env) (s : GuiStates) (h : Int) :
    PrefixKept env s (advance env s h) := by
  unfold advance
  split_ifs <;> exact Or.inl ⟨rfl, rfl⟩

/-- Every `InputText` call that returns leaves working string and width array
as they were or leaves the width array of the working string; a call that
enters editing leaves the width array of the working string. -/
theorem InputText_widths (env : Env) (s : GuiStates) (buf : List Char) (width : Int)
    (autoSelectAll : Bool) :
    ∀ r, InputText env s buf width autoSelectAll = some r →
      PrefixKept env s r.1 ∧ (InputText.entersEditing s width → PrefixOK env r.1) := by
  intro r hr
  unfold InputText InputText.mouse at hr
  dsimp only at hr
  simp only [Option.bind_eq_some, Option.some.injEq] at hr
  obtain ⟨t, ht, hr⟩ := hr
  rw [← hr]
  have h1 := press_widths env { s with CurrentId := s.CurrentId + 1 } s.CurrentId
    (InputText.rect { s with CurrentId := s.CurrentId + 1 } width) buf autoSelectAll
  have h2 := drag_widths env (InputText.press env { s with CurrentId := s.CurrentId + 1 }
    s.CurrentId (InputText.rect { s with CurrentId := s.CurrentId + 1 } width) buf
    autoSelectAll).1 s.CurrentId
  have h3 := InputText_key_widths env _ s.CurrentId width t ht
  have h4 := advance_widths env t 18
  have h0 : PrefixKept env s { s with CurrentId := s.CurrentId + 1 } := Or.inl ⟨rfl, rfl⟩
  refine ⟨PrefixKept_trans env h0 (PrefixKept_trans env h1 (PrefixKept_trans env h2
    (PrefixKept_trans env h3 h4))), fun hent => ?_⟩
  have hp := press_enters_widths env { s with CurrentId := s.CurrentId + 1 } s.CurrentId
    (InputText.rect { s with CurrentId := s.CurrentId + 1 } width) buf autoSelectAll hent.1
    hent.2
  rcases PrefixKept_trans env h2 (PrefixKept_trans env h3 h4) with ⟨hb, hv⟩ | hq
  · unfold PrefixOK at hp ⊢
    dsimp only
    rw [hb, hv]
    exact hp
  · exact hq

theorem PrefixOK_props (env : Env) (s : GuiStates) (hp : PrefixOK env s) :
    s.StrWidthPrefixSum.length = s.BufferedString.length + 1 ∧
    s.StrWidthPrefixSum.getD 0 0 = 0 ∧
    (∀ (i : Nat) (hi : i < s.BufferedString.length),
      s.StrWidthPrefixSum.getD (i + 1) 0
        = s.StrWidthPrefixSum.getD i 0 + env.textExtentCx (s.BufferedString.get ⟨i, hi⟩)) ∧
    ((∀ c, 0 ≤ env.textExtentCx c) →
      ∀ i j : Nat, i ≤ j → j ≤ s.BufferedString.length →
        s.StrWidthPrefixSum.getD i 0 ≤ s.StrWidthPrefixSum.getD j 0) := by
  rw [hp]
  refine ⟨CalcCharWidthPrefixSum_length env _, ?_, fun i hi => ?_, fun hw i j hij hj => ?_⟩
  · rw [CalcCharWidthPrefixSum_getD env _ 0 (Nat.zero_le _)]
    simp [strWidth]
  · rw [CalcCharWidthPrefixSum_getD env _ (i + 1) (by omega),
      CalcCharWidthPrefixSum_getD env _ i (by omega), List.take_succ,
      List.getElem?_eq_getElem hi, strWidth_append]
    simp [strWidth]
  · rw [CalcCharWidthPrefixSum_getD env _ i (by omega),
      CalcCharWidthPrefixSum_getD env _ j hj]
    exact strWidth_take_mono env hw _ i j hij

/-- C26: the caret position is derived from the width array,
`CursorPos = 4 + StrWidthPrefixSum[CursorIdx]`: an `InputText` call that enters
editing (click or double click inside the rect) returns with this relation,
and from a text-edit state that has it (with the width array of the working
string and cursor and anchor inside the string) every `InputText` call,
whatever the key and the mouse action, returns with it again. -/
theorem InputText_caret_from_prefix_sum (env : Env) (s : GuiStates) (buf : List Char)
    (width : Int) (autoSelectAll : Bool) :
    (InputText.entersEditing s width →
      ∃ r, InputText env s buf width autoSelectAll = some r ∧
        vecAt r.1.StrWidthPrefixSum r.1.CursorIdx = some (r.1.CursorPos - 4) ∧
        EditOK env r.1) ∧
    (EditOK env s →
      ∃ r, InputText env s buf width autoSelectAll = some r ∧
        vecAt r.1.StrWidthPrefixSum r.1.CursorIdx = some (r.1.CursorPos - 4) ∧
        EditOK env r.1) := by
  constructor
  · intro h
    obtain ⟨r, hr, hok⟩ := InputText_edit env s buf width autoSelectAll (Or.inr h)
    exact ⟨r, hr, hok.2.2, hok⟩
  · intro h
    obtain ⟨r, hr, hok⟩ := InputText_edit env s buf width autoSelectAll (Or.inl h)
    exact ⟨r, hr, hok.2.2, hok⟩

/-- Witness for C26: Backspace over the selection 1..4 of "hello" in a state
whose caret is derived from the width array. -/
theorem InputText_caret_from_prefix_sum_witness :
    EditOK sampleEnv (sampleEditing ['h', 'e', 'l', 'l', 'o'] 4 1 (Char.ofNat 8)) ∧
    ∃ r, InputText sampleEnv (sampleEditing ['h', 'e', 'l', 'l', 'o'] 4 1 (Char.ofNat 8))
        [] 100 false = some r ∧
      vecAt r.1.StrWidthPrefixSum r.1.CursorIdx = some (r.1.CursorPos - 4) := by
  have hok : EditOK sampleEnv (sampleEditing ['h', 'e', 'l', 'l', 'o'] 4 1 (Char.ofNat 8)) := by
    unfold EditOK PrefixOK TextOK CaretOK
    decide
  obtain ⟨r, hr, hc, -⟩ := (InputText_caret_from_prefix_sum sampleEnv
    (sampleEditing ['h', 'e', 'l', 'l', 'o'] 4 1 (Char.ofNat 8)) [] 100 false).2 hok
  exact ⟨hok, r, hr, hc⟩

/-- C27: after an `InputText` call that changes the working string or enters
editing, the width array is the prefix sum of the working string's character
widths: one entry more than the string, entry 0 is 0, entry `i + 1` is entry
`i` plus the width of character `i`, and with non-negative widths the entries
never decrease. The call returns whenever it enters editing or finds a
well-shaped text-edit state. -/
theorem InputText_rebuilds_prefix_sum (env : Env) (s : GuiStates) (buf : List Char)
    (width : Int) (autoSelectAll : Bool) :
    (∀ r, InputText env s buf width autoSelectAll = some r →
      (r.1.BufferedString ≠ s.BufferedString ∨ InputText.entersEditing s width) →
      r.1.StrWidthPrefixSum = CalcCharWidthPrefixSum env r.1.BufferedString ∧
      r.1.StrWidthPrefixSum.length = r.1.BufferedString.length + 1 ∧
      r.1.StrWidthPrefixSum.getD 0 0 = 0 ∧
      (∀ (i : Nat) (hi : i < r.1.BufferedString.length),
        r.1.StrWidthPrefixSum.getD (i + 1) 0
          = r.1.StrWidthPrefixSum.getD i 0
            + env.textExtentCx (r.1.BufferedString.get ⟨i, hi⟩)) ∧
      ((∀ c, 0 ≤ env.textExtentCx c) →
        ∀ i j : Nat, i ≤ j → j ≤ r.1.BufferedString.length →
          r.1.StrWidthPrefixSum.getD i 0 ≤ r.1.StrWidthPrefixSum.getD j 0)) ∧
    (TextOK s ∨ InputText.entersEditing s width →
      ∃ r, InputText env s buf width autoSelectAll = some r) := by
  constructor
  · intro r hr hchg
    obtain ⟨hkept, hent⟩ := InputText_widths env s buf width autoSelectAll r hr
    have hp : PrefixOK env r.1 := by
      rcases hchg with hne | he
      · rcases hkept with ⟨hb, -⟩ | hp
        · exact absurd hb hne
        · exact hp
      · exact hent he
    exact ⟨hp, PrefixOK_props env r.1 hp⟩
  · intro h
    rcases h with h | h
    · obtain ⟨r, hr, -⟩ := InputText_ok env s buf width autoSelectAll h
      exact ⟨r, hr⟩
    · obtain ⟨r, hr, -⟩ := InputText_edit env s buf width autoSelectAll (Or.inr h)
      exact ⟨r, hr⟩

/-- Witness for C27: the key b typed after "a" changes the working string to
"ab" and leaves the width array 0, 7, 14. -/
theorem InputText_rebuilds_prefix_sum_witness :
    TextOK (sampleEditing ['a'] 1 1 'b') ∧
    ∃ r, InputText sampleEnv (sampleEditing ['a'] 1 1 'b') [] 100 false = some r ∧
      r.1.BufferedString ≠ (sampleEditing ['a'] 1 1 'b').BufferedString ∧
      r.1.StrWidthPrefixSum = [0, 7, 14] := by
  have hok : TextOK (sampleEditing ['a'] 1 1 'b') := by
    unfold TextOK
    decide
  obtain ⟨r, hr⟩ := (InputText_rebuilds_prefix_sum sampleEnv (sampleEditing ['a'] 1 1 'b') []
    100 false).2 (Or.inl hok)
  have hstr : (InputText sampleEnv (sampleEditing ['a'] 1 1 'b') [] 100 false).map
      (fun x => x.1.BufferedString) = some ['a', 'b'] := by decide
  rw [hr] at hstr
  have hb : r.1.BufferedString = ['a', 'b'] := Option.some.inj hstr
  have hne : r.1.BufferedString ≠ (sampleEditing ['a'] 1 1 'b').BufferedString := by
    rw [hb]
    decide
  have hv := ((InputText_rebuilds_prefix_sum sampleEnv (sampleEditing ['a'] 1 1 'b') []
    100 false).1 r hr (Or.inl hne)).1
  refine ⟨hok, r, hr, hne, ?_⟩
  rw [hv, hb]
  decide

/-! ## CheckBox and RadioButton: value and active id -/

theorem CheckBox_value (env : Env) (s : GuiStates) (checked : Bool) :
    (CheckBox env s checked).2 =
      if s.MouseState.Action = MouseAction.LButtonUp ∧
          PtInRect (boxRect s) (mousePt s) = true ∧ s.ActiveId = s.CurrentId then !checked
      else checked := by
  unfold CheckBox
  have e1 : boxRect { s with CurrentId := s.CurrentId + 1 } = boxRect s := rfl
  have e2 : mousePt { s with CurrentId := s.CurrentId + 1 } = mousePt s := rfl
  simp only [e1, e2]
  cases hp : PtInRect (boxRect s) (mousePt s) <;>
  cases ha : s.MouseState.Action <;> simp [hp, ha]

theorem CheckBox_ActiveId (env : Env) (s : GuiStates) (checked : Bool) :
    (CheckBox env s checked).1.ActiveId =
      if PtInRect (boxRect s) (mousePt s) = true then
        (if s.MouseState.Action = MouseAction.LButtonDown then s.CurrentId
          else if s.MouseState.Action = MouseAction.LButtonUp ∧ s.ActiveId = s.CurrentId then -1
          else s.ActiveId)
      else if s.MouseState.Action = MouseAction.Move ∧ s.ActiveId = s.CurrentId then -1
      else s.ActiveId := by
  unfold CheckBox
  have e1 : boxRect { s with CurrentId := s.CurrentId + 1 } = boxRect s := rfl
  have e2 : mousePt { s with CurrentId := s.CurrentId + 1 } = mousePt s := rfl
  simp only [e1, e2]
  cases hp : PtInRect (boxRect s) (mousePt s) <;>
  cases ha : s.MouseState.Action <;> simp [hp, ha, advance_ActiveId] <;> split_ifs <;> simp_all

theorem RadioButton_value (env : Env) (s : GuiStates) (activeVal currentVal : Int) :
    (RadioButton env s activeVal currentVal).2 =
      if s.MouseState.Action = MouseAction.LButtonUp ∧
          PtInRect (boxRect s) (mousePt s) = true ∧ s.ActiveId = s.CurrentId then activeVal
      else currentVal := by
  unfold RadioButton
  have e1 : boxRect { s with CurrentId := s.CurrentId + 1 } = boxRect s := rfl
  have e2 : mousePt { s with CurrentId := s.CurrentId + 1 } = mousePt s := rfl
  simp only [e1, e2]
  cases hp : PtInRect (boxRect s) (mousePt s) <;>
  cases ha : s.MouseState.Action <;> simp [hp, ha]

theorem RadioButton_ActiveId (env : Env) (s : GuiStates) (activeVal currentVal : Int) :
    (RadioButton env s activeVal currentVal).1.ActiveId =
      if PtInRect (boxRect s) (mousePt s) = true then
        (if s.MouseState.Action = MouseAction.LButtonDown then s.CurrentId
          else if s.MouseState.Action = MouseAction.LButtonUp ∧ s.ActiveId = s.CurrentId then -1
          else s.ActiveId)
      else if s.MouseState.Action = MouseAction.Move ∧ s.ActiveId = s.CurrentId then -1
      else s.ActiveId := by
  unfold RadioButton
  have e1 : boxRect { s with CurrentId := s.CurrentId + 1 } = boxRect s := rfl
  have e2 : mousePt { s with CurrentId := s.CurrentId + 1 } = mousePt s := rfl
  simp only [e1, e2]
  cases hp : PtInRect (boxRect s) (mousePt s) <;>
  cases ha : s.MouseState.Action <;> simp [hp, ha, advance_ActiveId] <;> split_ifs <;> simp_all

theorem RadioButton_state_indep (env : Env) (s : GuiStates) (a c a1 c1 : Int) :
    (RadioButton env s a1 c1).1 = (RadioButton env s a c).1 := by
  unfold RadioButton
  dsimp only
  split_ifs <;> rfl

/-- C23: after a `RadioButton` call `currentVal` equals `activeVal` if the call
is a committing release (LButtonUp, pointer inside the box of the circle,
`ActiveId` equal to this id on entry) and its value on entry otherwise; the
record the call leaves does not depend on `activeVal` or `currentVal`, so the
button keeps no selection of its own. -/
theorem RadioButton_writes_on_committing_release (env : Env) (s : GuiStates)
    (activeVal currentVal : Int) :
    ((RadioButton env s activeVal currentVal).2 =
      if s.MouseState.Action = MouseAction.LButtonUp ∧
          PtInRect (boxRect s) (mousePt s) = true ∧ s.ActiveId = s.CurrentId then activeVal
      else currentVal) ∧
    (∀ a c : Int, (RadioButton env s a c).1 = (RadioButton env s activeVal currentVal).1) :=
  ⟨RadioButton_value env s activeVal currentVal,
    fun a c => RadioButton_state_indep env s activeVal currentVal a c⟩

/-! ## Leaving the box cancels a press -/

theorem CheckBox_frames_gesture (env : Env) (s : GuiStates) (checked : Bool)
    (down out back up : MouseEventArgs) (hid : 0 ≤ s.CurrentId)
    (hd : down.Action = MouseAction.LButtonDown)
    (hdin : PtInRect (boxRect s) { x := down.x, y := down.y } = true)
    (ho : out.Action = MouseAction.Move)
    (hoout : PtInRect (boxRect s) { x := out.x, y := out.y } = false)
    (hb : back.Action = MouseAction.Move)
    (hu : up.Action = MouseAction.LButtonUp) :
    (CheckBox.frames env s checked s [down, out, back, up]).1 = checked := by
  have hrect : ∀ (l : GuiStates) (m : MouseEventArgs) (k : KeyboardEventArgs),
      boxRect (nextEntry s l m k) = boxRect s := fun _ _ _ => rfl
  have hpt : ∀ (l : GuiStates) (m : MouseEventArgs) (k : KeyboardEventArgs),
      mousePt (nextEntry s l m k) = { x := m.x, y := m.y } := fun _ _ _ => rfl
  have hne : (-1 : Int) ≠ s.CurrentId := by omega
  -- frame 1: the press
  have v1 : (CheckBox env (nextEntry s s down s.KeyState) checked).2 = checked := by
    rw [CheckBox_value]
    simp [nextEntry, hd]
  have a1 : (CheckBox env (nextEntry s s down s.KeyState) checked).1.ActiveId = s.CurrentId := by
    rw [CheckBox_ActiveId, hrect, hpt, hdin]
    simp [nextEntry, hd]
  -- frame 2: the Move outside
  have v2 : ∀ l : GuiStates, (CheckBox env (nextEntry s l out l.KeyState) checked).2 = checked := by
    intro l
    rw [CheckBox_value]
    simp [nextEntry, ho]
  have a2 : ∀ l : GuiStates, l.ActiveId = s.CurrentId →
      (CheckBox env (nextEntry s l out l.KeyState) checked).1.ActiveId = -1 := by
    intro l hl
    rw [CheckBox_ActiveId, hrect, hpt, hoout]
    simp [nextEntry, ho, hl]
  -- frame 3: the Move back
  have v3 : ∀ l : GuiStates, (CheckBox env (nextEntry s l back l.KeyState) checked).2 = checked := by
    intro l
    rw [CheckBox_value]
    simp [nextEntry, hb]
  have a3 : ∀ l : GuiStates, l.ActiveId = -1 →
      (CheckBox env (nextEntry s l back l.KeyState) checked).1.ActiveId = -1 := by
    intro l hl
    rw [CheckBox_ActiveId, hrect, hpt]
    simp [nextEntry, hb, hl, hne]
  -- frame 4: the release
  have v4 : ∀ l : GuiStates, l.ActiveId = -1 →
      (CheckBox env (nextEntry s l up l.KeyState) checked).2 = checked := by
    intro l hl
    rw [CheckBox_value]
    simp [nextEntry, hu, hl, hne]
  simp only [CheckBox.frames]
  rw [v1, v2, v3]
  exact v4 _ (a3 _ (a2 _ a1))

theorem RadioButton_frames_gesture (env : Env) (s : GuiStates) (activeVal currentVal : Int)
    (down out back up : MouseEventArgs) (hid : 0 ≤ s.CurrentId)
    (hd : down.Action = MouseAction.LButtonDown)
    (hdin : PtInRect (boxRect s) { x := down.x, y := down.y } = true)
    (ho : out.Action = MouseAction.Move)
    (hoout : PtInRect (boxRect s) { x := out.x, y := out.y } = false)
    (hb : back.Action = MouseAction.Move)
    (hu : up.Action = MouseAction.LButtonUp) :
    (RadioButton.frames env activeVal s currentVal s [down, out, back, up]).1 = currentVal := by
  have hrect : ∀ (l : GuiStates) (m : MouseEventArgs) (k : KeyboardEventArgs),
      boxRect (nextEntry s l m k) = boxRect s := fun _ _ _ => rfl
  have hpt : ∀ (l : GuiStates) (m : MouseEventArgs) (k : KeyboardEventArgs),
      mousePt (nextEntry s l m k) = { x := m.x, y := m.y } := fun _ _ _ => rfl
  have hne : (-1 : Int) ≠ s.CurrentId := by omega
  have v1 : (RadioButton env (nextEntry s s down s.KeyState) activeVal currentVal).2
      = currentVal := by
    rw [RadioButton_value]
    simp [nextEntry, hd]
  have a1 : (RadioButton env (nextEntry s s down s.KeyState) activeVal currentVal).1.ActiveId
      = s.CurrentId := by
    rw [RadioButton_ActiveId, hrect, hpt, hdin]
    simp [nextEntry, hd]
  have v2 : ∀ l : GuiStates,
      (RadioButton env (nextEntry s l out l.KeyState) activeVal currentVal).2 = currentVal := by
    intro l
    rw [RadioButton_value]
    simp [nextEntry, ho]
  have a2 : ∀ l : GuiStates, l.ActiveId = s.CurrentId →
      (RadioButton env (nextEntry s l out l.KeyState) activeVal currentVal).1.ActiveId = -1 := by
    intro l hl
    rw [RadioButton_ActiveId, hrect, hpt, hoout]
    simp [nextEntry, ho, hl]
  have v3 : ∀ l : GuiStates,
      (RadioButton env (nextEntry s l back l.KeyState) activeVal currentVal).2 = currentVal := by
    intro l
    rw [RadioButton_value]
    simp [nextEntry, hb]
  have a3 : ∀ l : GuiStates, l.ActiveId = -1 →
      (RadioButton env (nextEntry s l back l.KeyState) activeVal currentVal).1.ActiveId = -1 := by
    intro l hl
    rw [RadioButton_ActiveId, hrect, hpt]
    simp [nextEntry, hb, hl, hne]
  have v4 : ∀ l : GuiStates, l.ActiveId = -1 →
      (RadioButton env (nextEntry s l up l.KeyState) activeVal currentVal).2 = currentVal := by
    intro l hl
    rw [RadioButton_value]
    simp [nextEntry, hu, hl, hne]
  simp only [RadioButton.frames]
  rw [v1, v2, v3]
  exact v4 _ (a3 _ (a2 _ a1))

theorem Button_frames_gesture (env : Env) (s : GuiStates) (width height : Int)
    (down out back up : MouseEventArgs)
    (hd : down.Action = MouseAction.LButtonDown)
    (hdin : PtInRect (Button.rect s width height) { x := down.x, y := down.y } = true)
    (ho : out.Action = MouseAction.Move)
    (hb : back.Action = MouseAction.Move)
    (hu : up.Action = MouseAction.LButtonUp)
    (huin : PtInRect (Button.rect s width height) { x := up.x, y := up.y } = true) :
    (Button.frames env width height s s [down, out, back, up]).1
      = [false, false, false, true] := by
  have hrect : ∀ (l : GuiStates) (m : MouseEventArgs) (k : KeyboardEventArgs),
      Button.rect (nextEntry s l m k) width height = Button.rect s width height :=
    fun _ _ _ => rfl
  have hpt : ∀ (l : GuiStates) (m : MouseEventArgs) (k : KeyboardEventArgs),
      mousePt (nextEntry s l m k) = { x := m.x, y := m.y } := fun _ _ _ => rfl
  have t1 : (Button env (nextEntry s s down s.KeyState) width height).2 = false := by
    rw [Button_trigger]
    simp [nextEntry, hd]
  have a1 : (Button env (nextEntry s s down s.KeyState) width height).1.ActiveId
      = s.CurrentId := by
    rw [Button_ActiveId, hrect, hpt, hdin]
    simp [nextEntry, hd]
  have tmove : ∀ (l : GuiStates) (m : MouseEventArgs), m.Action = MouseAction.Move →
      (Button env (nextEntry s l m l.KeyState) width height).2 = false ∧
      (Button env (nextEntry s l m l.KeyState) width height).1.ActiveId = l.ActiveId := by
    intro l m hm
    constructor
    · rw [Button_trigger]
      simp [nextEntry, hm]
    · rw [Button_ActiveId]
      simp [nextEntry, hm]
  have t4 : ∀ l : GuiStates, l.ActiveId = s.CurrentId →
      (Button env (nextEntry s l up l.KeyState) width height).2 = true := by
    intro l hl
    rw [Button_trigger, hrect, hpt, huin]
    simp [nextEntry, hu, hl]
  simp only [Button.frames]
  rw [t1, (tmove _ out ho).1, (tmove _ back hb).1,
    t4 _ (((tmove _ back hb).2.trans (tmove _ out ho).2).trans a1)]

/-- C30: for `CheckBox` and `RadioButton` a Move with the pointer outside the
box while the widget is the active one sets `ActiveId` to -1; so press inside,
Move outside, Move back inside, release inside leaves `checked` and
`currentVal` as they were, whereas a `Button` returns true on the release of
the same gesture. -/
theorem CheckBox_RadioButton_leave_cancels (env : Env) (s : GuiStates) (checked : Bool)
    (activeVal currentVal width height : Int) (down out back up : MouseEventArgs) :
    (s.MouseState.Action = MouseAction.Move → PtInRect (boxRect s) (mousePt s) = false →
      s.ActiveId = s.CurrentId →
      (CheckBox env s checked).1.ActiveId = -1 ∧
      (RadioButton env s activeVal currentVal).1.ActiveId = -1) ∧
    (0 ≤ s.CurrentId →
      down.Action = MouseAction.LButtonDown → out.Action = MouseAction.Move →
      back.Action = MouseAction.Move → up.Action = MouseAction.LButtonUp →
      PtInRect (boxRect s) { x := down.x, y := down.y } = true →
      PtInRect (boxRect s) { x := out.x, y := out.y } = false →
      PtInRect (boxRect s) { x := back.x, y := back.y } = true →
      PtInRect (boxRect s) { x := up.x, y := up.y } = true →
      (CheckBox.frames env s checked s [down, out, back, up]).1 = checked ∧
      (RadioButton.frames env activeVal s currentVal s [down, out, back, up]).1
        = currentVal) ∧
    (down.Action = MouseAction.LButtonDown → out.Action = MouseAction.Move →
      back.Action = MouseAction.Move → up.Action = MouseAction.LButtonUp →
      PtInRect (Button.rect s width height) { x := down.x, y := down.y } = true →
      PtInRect (Button.rect s width height) { x := out.x, y := out.y } = false →
      PtInRect (Button.rect s width height) { x := back.x, y := back.y } = true →
      PtInRect (Button.rect s width height) { x := up.x, y := up.y } = true →
      (Button.frames env width height s s [down, out, back, up]).1
        = [false, false, false, true]) := by
  refine ⟨fun hm hout hact => ⟨?_, ?_⟩, fun hid hd ho hb hu hdin hoout _ _ => ⟨?_, ?_⟩,
    fun hd ho hb hu hdin _ _ huin => ?_⟩
  · rw [CheckBox_ActiveId, hout]
    simp [hm, hact]
  · rw [RadioButton_ActiveId, hout]
    simp [hm, hact]
  · exact CheckBox_frames_gesture env s checked down out back up hid hd hdin ho hoout hb hu
  · exact RadioButton_frames_gesture env s activeVal currentVal down out back up hid hd hdin
      ho hoout hb hu
  · exact Button_frames_gesture env s width height down out back up hd hdin ho hb hu huin

/-- Witness for C30: a Move at (300, 300) outside the active check box at
(25, 25) clears `ActiveId`; the gesture press at (30, 30), Move to (300, 300),
Move back to (30, 30), release at (30, 30) leaves the flag false, and the same
gesture on a 100 by 20 button fires on the release. -/
theorem CheckBox_RadioButton_leave_cancels_witness :
    ((sampleStates (sampleMouse 300 300 MouseAction.Move) 0).ActiveId
        = (sampleStates (sampleMouse 300 300 MouseAction.Move) 0).CurrentId ∧
      (CheckBox sampleEnv (sampleStates (sampleMouse 300 300 MouseAction.Move) 0)
        false).1.ActiveId = -1) ∧
    (PtInRect (boxRect (sampleStates (sampleMouse 0 0 MouseAction.None) (-1)))
        { x := 30, y := 30 } = true ∧
      PtInRect (boxRect (sampleStates (sampleMouse 0 0 MouseAction.None) (-1)))
        { x := 300, y := 300 } = false ∧
      (CheckBox.frames sampleEnv (sampleStates (sampleMouse 0 0 MouseAction.None) (-1)) false
        (sampleStates (sampleMouse 0 0 MouseAction.None) (-1))
        [sampleMouse 30 30 MouseAction.LButtonDown, sampleMouse 300 300 MouseAction.Move,
          sampleMouse 30 30 MouseAction.Move, sampleMouse 30 30 MouseAction.LButtonUp]).1
        = false) ∧
    (Button.frames sampleEnv 100 20 (sampleStates (sampleMouse 0 0 MouseAction.None) (-1))
      (sampleStates (sampleMouse 0 0 MouseAction.None) (-1))
      [sampleMouse 30 30 MouseAction.LButtonDown, sampleMouse 300 300 MouseAction.Move,
        sampleMouse 30 30 MouseAction.Move, sampleMouse 30 30 MouseAction.LButtonUp]).1
      = [false, false, false, true] :=
  have hin : PtInRect (boxRect (sampleStates (sampleMouse 0 0 MouseAction.None) (-1)))
      { x := 30, y := 30 } = true := by decide
  have hout : PtInRect (boxRect (sampleStates (sampleMouse 0 0 MouseAction.None) (-1)))
      { x := 300, y := 300 } = false := by decide
  have hbin : PtInRect (Button.rect (sampleStates (sampleMouse 0 0 MouseAction.None) (-1))
      100 20) { x := 30, y := 30 } = true := by decide
  have hbout : PtInRect (Button.rect (sampleStates (sampleMouse 0 0 MouseAction.None) (-1))
      100 20) { x := 300, y := 300 } = false := by decide
  ⟨⟨rfl, ((CheckBox_RadioButton_leave_cancels sampleEnv
      (sampleStates (sampleMouse 300 300 MouseAction.Move) 0) false 1 0 100 20
      (sampleMouse 30 30 MouseAction.LButtonDown) (sampleMouse 300 300 MouseAction.Move)
      (sampleMouse 30 30 MouseAction.Move) (sampleMouse 30 30 MouseAction.LButtonUp)).1
      rfl (by decide) rfl).1⟩,
    ⟨hin, hout, ((CheckBox_RadioButton_leave_cancels sampleEnv
      (sampleStates (sampleMouse 0 0 MouseAction.None) (-1)) false 1 0 100 20
      (sampleMouse 30 30 MouseAction.LButtonDown) (sampleMouse 300 300 MouseAction.Move)
      (sampleMouse 30 30 MouseAction.Move) (sampleMouse 30 30 MouseAction.LButtonUp)).2.1
      (by decide) rfl rfl rfl rfl hin hout hin hin).1⟩,
    (CheckBox_RadioButton_leave_cancels sampleEnv
      (sampleStates (sampleMouse 0 0 MouseAction.None) (-1)) false 1 0 100 20
      (sampleMouse 30 30 MouseAction.LButtonDown) (sampleMouse 300 300 MouseAction.Move)
      (sampleMouse 30 30 MouseAction.Move) (sampleMouse 30 30 MouseAction.LButtonUp)).2.2
      rfl rfl rfl rfl hbin hbout hbin hbin⟩

/-! ## A selection in the dropdown ends the interaction of the frame -/

theorem ComboBox_dropDown_click_state (env : Env) (s : GuiStates) (numItems selected : Int)
    (hopen : s.ActiveId = s.CurrentId)
    (hdown : s.MouseState.Action = MouseAction.LButtonDown)
    (hin : PtInRect (ComboBox.dropDownRect s numItems) (mousePt s) = true) :
    (ComboBox env s numItems selected).1.ActiveId = -1 ∧
      (ComboBox env s numItems selected).1.MouseState.Action = MouseAction.None := by
  have hnotmain : PtInRect (ComboBox.mainRect s) (mousePt s) = false := by
    simp only [PtInRect, ComboBox.dropDownRect, ComboBox.mainRect, SetRect, mousePt,
      decide_eq_true_eq, decide_eq_false_iff_not] at hin ⊢
    omega
  unfold ComboBox
  have e1 : ComboBox.mainRect { s with CurrentId := s.CurrentId + 1 } = ComboBox.mainRect s := rfl
  have e2 : mousePt { s with CurrentId := s.CurrentId + 1 } = mousePt s := rfl
  have e3 : ComboBox.dropDownRect { s with CurrentId := s.CurrentId + 1 } numItems
      = ComboBox.dropDownRect s numItems := rfl
  simp only [e1, e2]
  simp only [hnotmain, Bool.false_eq_true, if_false]
  simp only [e3, hin, hdown, and_self, if_true]
  rw [if_pos hopen]
  exact ⟨by rw [advance_ActiveId], by rw [advance_MouseState]⟩

theorem InputText_inactive (env : Env) (s : GuiStates) (buf : List Char) (width : Int)
    (autoSelectAll : Bool) (hA : s.MouseState.Action = MouseAction.None)
    (hne : s.ActiveId ≠ s.CurrentId) :
    ∃ t, InputText env s buf width autoSelectAll = some (t, buf) ∧ sameInteraction s t := by
  have hidle : noPressNoDrag ({ s with CurrentId := s.CurrentId + 1 } : GuiStates).MouseState := by
    unfold noPressNoDrag
    show s.MouseState.Action ≠ _ ∧ s.MouseState.Action ≠ _ ∧ ¬ (s.MouseState.Action = _ ∧ _)
    rw [hA]
    simp
  obtain ⟨h, hmouse⟩ := InputText_mouse_idle env { s with CurrentId := s.CurrentId + 1 }
    s.CurrentId (InputText.rect { s with CurrentId := s.CurrentId + 1 } width) buf
    autoSelectAll hidle
  refine ⟨advance env { s with CurrentId := s.CurrentId + 1, HoveredId := h } 18, ?_,
    sameInteraction_trans (sameInteraction_hover s _ h) (sameInteraction_advance env _ _)⟩
  unfold InputText
  dsimp only
  rw [hmouse]
  unfold InputText.key
  dsimp only
  rw [if_neg (fun hc => hne hc.1)]
  rfl

/-- With mouse action `None` while this widget is not the active one, a
declaration returns, takes one id, leaves the interaction state and the
by-reference arguments alone, and a `Button` returns false. -/
theorem declareOut_inactive (env : Env) (s : GuiStates) (w : Widget)
    (hA : s.MouseState.Action = MouseAction.None) (hne : s.ActiveId ≠ s.CurrentId) :
    ∃ t b, declareOut env s w = some (t, w, b) ∧ sameInteraction s t ∧
      t.CurrentId = s.CurrentId + 1 ∧
      (∀ width height, w = Widget.Button width height → b = false) := by
  cases w with
  | Text => exact ⟨_, _, rfl, Text_idle env s, (Text_ok env s).1, fun _ _ h => by cases h⟩
  | MultilineText buff =>
    exact ⟨_, _, rfl, MultilineText_idle env s buff, (MultilineText_ok env s buff).1,
      fun _ _ h => by cases h⟩
  | CollapsingHeader collapsed =>
    obtain ⟨h1, h2⟩ := CollapsingHeader_idle env s collapsed hA
    exact ⟨_, (CollapsingHeader env s collapsed).2.2, by simp only [declareOut, h2], h1,
      (CollapsingHeader_ok env s collapsed).1, fun _ _ h => by cases h⟩
  | Button width height =>
    obtain ⟨h1, h2⟩ := Button_idle env s width height hA
    exact ⟨_, _, rfl, h1, (Button_ok env s width height).1, fun _ _ _ => h2⟩
  | CheckBox checked =>
    obtain ⟨h1, h2⟩ := CheckBox_idle env s checked hA
    exact ⟨_, false, by simp only [declareOut, h2], h1, (CheckBox_ok env s checked).1,
      fun _ _ h => by cases h⟩
  | RadioButton activeVal currentVal =>
    obtain ⟨h1, h2⟩ := RadioButton_idle env s activeVal currentVal hA
    exact ⟨_, false, by simp only [declareOut, h2], h1,
      (RadioButton_ok env s activeVal currentVal).1, fun _ _ h => by cases h⟩
  | ComboBox numItems selected =>
    obtain ⟨h1, h2⟩ := ComboBox_idle env s numItems selected hA
    exact ⟨_, false, by simp only [declareOut, h2], h1,
      (ComboBox_ok env s numItems selected).1, fun _ _ h => by cases h⟩
  | InputText buf width autoSelectAll =>
    obtain ⟨t, ht, hs⟩ := InputText_inactive env s buf width autoSelectAll hA hne
    exact ⟨t, false, by simp only [declareOut, ht, Option.map_some'], hs,
      InputText_CurrentId env s buf width autoSelectAll _ ht, fun _ _ h => by cases h⟩

theorem declareAllOut_inactive (env : Env) (ws : List Widget) :
    ∀ s : GuiStates, s.MouseState.Action = MouseAction.None → s.ActiveId = -1 →
      0 ≤ s.CurrentId →
      ∃ t outs, declareAllOut env ws s = some (t, outs) ∧ sameInteraction s t ∧
        outs.map Prod.fst = ws ∧
        (∀ o ∈ outs, ∀ width height, o.1 = Widget.Button width height → o.2 = false) := by
  induction ws with
  | nil =>
    intro s _ _ _
    exact ⟨s, [], rfl, sameInteraction_refl s, rfl, fun o ho => by cases ho⟩
  | cons w ws ih =>
    intro s hA hact hid
    obtain ⟨u, b, hu, hsu, hcur, hb⟩ := declareOut_inactive env s w hA (by omega)
    obtain ⟨t, outs, ht, hst, hmap, hbtn⟩ := ih u (by rw [hsu.2.2.1]; exact hA)
      (by rw [hsu.1]; exact hact) (by omega)
    refine ⟨t, (w, b) :: outs, ?_, sameInteraction_trans hsu hst, by simp [hmap], ?_⟩
    · simp only [declareAllOut, hu, Option.some_bind, ht, Option.map_some']
    · intro o ho width height hw
      rcases List.mem_cons.mp ho with rfl | ho
      · exact hb width height hw
      · exact hbtn o ho width height hw

/-- C29: a LButtonDown inside the dropdown of the open `ComboBox` leaves
`ActiveId` at -1 and the dialog-local mouse action at `None`; every sequence of
widgets declared after it in the frame then runs to its end with `ActiveId`
still -1, no `Button` returning true and every by-reference argument as it was
passed in. -/
theorem ComboBox_selection_ends_frame_interaction (env : Env) (s : GuiStates)
    (numItems selected : Int) (ws : List Widget) (hid : 0 ≤ s.CurrentId)
    (hopen : s.ActiveId = s.CurrentId)
    (hdown : s.MouseState.Action = MouseAction.LButtonDown)
    (hin : PtInRect (ComboBox.dropDownRect s numItems) (mousePt s) = true) :
    (ComboBox env s numItems selected).1.ActiveId = -1 ∧
    (ComboBox env s numItems selected).1.MouseState.Action = MouseAction.None ∧
    ∃ t outs, declareAllOut env ws (ComboBox env s numItems selected).1 = some (t, outs) ∧
      t.ActiveId = -1 ∧ t.MouseState.Action = MouseAction.None ∧
      outs.map Prod.fst = ws ∧
      (∀ o ∈ outs, ∀ width height, o.1 = Widget.Button width height → o.2 = false) := by
  obtain ⟨hact, hnone⟩ := ComboBox_dropDown_click_state env s numItems selected hopen hdown hin
  have hcur := (ComboBox_ok env s numItems selected).1
  obtain ⟨t, outs, ht, hst, hmap, hbtn⟩ := declareAllOut_inactive env ws
    (ComboBox env s numItems selected).1 hnone hact (by omega)
  exact ⟨hact, hnone, t, outs, ht, hst.1.trans hact, by rw [hst.2.2.1]; exact hnone, hmap,
    hbtn⟩

/-- Witness for C29: the combo box at (25, 82) with 5 items is open and a
press lands at (30, 137) in its dropdown; a button declared next, whose rect
(25, 105) to (125, 145) contains the pointer, returns false and `ActiveId`
stays -1. -/
theorem ComboBox_selection_ends_frame_interaction_witness :
    PtInRect
      (ComboBox.dropDownRect
        { sampleStates (sampleMouse 30 137 MouseAction.LButtonDown) 0 with CurrentPosY := 82 } 5)
      (mousePt
        { sampleStates (sampleMouse 30 137 MouseAction.LButtonDown) 0 with CurrentPosY := 82 })
      = true ∧
    ∃ t outs, declareAllOut sampleEnv [Widget.Button 100 40]
        (ComboBox sampleEnv
          { sampleStates (sampleMouse 30 137 MouseAction.LButtonDown) 0 with CurrentPosY := 82 }
          5 0).1 = some (t, outs) ∧
      t.ActiveId = -1 ∧ outs = [(Widget.Button 100 40, false)] := by
  have hin : PtInRect
      (ComboBox.dropDownRect
        { sampleStates (sampleMouse 30 137 MouseAction.LButtonDown) 0 with CurrentPosY := 82 } 5)
      (mousePt
        { sampleStates (sampleMouse 30 137 MouseAction.LButtonDown) 0 with CurrentPosY := 82 })
      = true := by decide
  obtain ⟨-, -, t, outs, ht, hact, -, hmap, hbtn⟩ :=
    ComboBox_selection_ends_frame_interaction sampleEnv
      { sampleStates (sampleMouse 30 137 MouseAction.LButtonDown) 0 with CurrentPosY := 82 }
      5 0 [Widget.Button 100 40] (by decide) rfl rfl hin
  refine ⟨hin, t, outs, ht, hact, ?_⟩
  match outs, hmap, hbtn with
  | [o], hmap, hbtn =>
    have h1 : o.1 = Widget.Button 100 40 := by simpa using hmap
    have h2 : o.2 = false := hbtn o (List.mem_singleton.mpr rfl) 100 40 h1
    rw [← h1, ← h2]

end EDXGui

/-! ## Slider -/

theorem Flt_eq_true {α : Type} [LinearOrder α] (a b : Flt α) (h : Flt.eq a b = true) :
    a = b ∧ a ≠ Flt.nan := by
  cases a with
  | nan => simp [Flt.eq] at h
  | num x =>
    cases b with
    | nan => simp [Flt.eq] at h
    | num y =>
      simp only [Flt.eq, decide_eq_true_eq] at h
      exact ⟨by rw [h], fun hc => Flt.noConfusion hc⟩

theorem Flt_eq_self {α : Type} [LinearOrder α] (a : Flt α) (h : a ≠ Flt.nan) :
    Flt.eq a a = true := by
  cases a with
  | nan => exact absurd rfl h
  | num x => simp [Flt.eq]

theorem Flt_lt_iff {α : Type} [LinearOrder α] (a b : Flt α) :
    a < b ↔ Flt.lt a b = true := Iff.rfl

theorem Flt_le_iff {α : Type} [LinearOrder α] (a b : Flt α) :
    a ≤ b ↔ Flt.le a b = true := Iff.rfl

theorem Flt_num_lt {α : Type} [LinearOrder α] (x y : α) :
    (Flt.num x < Flt.num y) ↔ x < y := by
  rw [Flt_lt_iff]
  simp [Flt.lt]

theorem Flt_num_le {α : Type} [LinearOrder α] (x y : α) :
    (Flt.num x ≤ Flt.num y) ↔ x ≤ y := by
  rw [Flt_le_iff]
  simp [Flt.le]

theorem Flt_not_nan_lt {α : Type} [LinearOrder α] (b : Flt α) : ¬ (Flt.nan < b) := by
  rw [Flt_lt_iff]
  simp [Flt.lt]

theorem Flt_not_lt_nan {α : Type} [LinearOrder α] (a : Flt α) : ¬ (a < Flt.nan) := by
  rw [Flt_lt_iff]
  cases a <;> simp [Flt.lt]

theorem Flt_not_nan_le {α : Type} [LinearOrder α] (b : Flt α) : ¬ (Flt.nan ≤ b) := by
  rw [Flt_le_iff]
  simp [Flt.le]

theorem Flt_not_le_nan {α : Type} [LinearOrder α] (a : Flt α) : ¬ (a ≤ Flt.nan) := by
  rw [Flt_le_iff]
  cases a <;> simp [Flt.le]

theorem Flt_le_of_lt {α : Type} [LinearOrder α] (a b : Flt α) (h : a < b) : a ≤ b := by
  cases a with
  | nan => exact absurd h (Flt_not_nan_lt b)
  | num x =>
    cases b with
    | nan => exact absurd h (Flt_not_lt_nan _)
    | num y => exact (Flt_num_le x y).mpr (le_of_lt ((Flt_num_lt x y).mp h))

theorem Flt_le_trans {α : Type} [LinearOrder α] (a b c : Flt α) (h1 : a ≤ b) (h2 : b ≤ c) :
    a ≤ c := by
  cases a with
  | nan => exact absurd h1 (Flt_not_nan_le b)
  | num x =>
    cases b with
    | nan => exact absurd h1 (Flt_not_le_nan _)
    | num y =>
      cases c with
      | nan => exact absurd h2 (Flt_not_le_nan _)
      | num z =>
        exact (Flt_num_le x z).mpr (le_trans ((Flt_num_le x y).mp h1) ((Flt_num_le y z).mp h2))

theorem Flt_not_lt_of_le {α : Type} [LinearOrder α] (a b : Flt α) (h : a ≤ b) : ¬ b < a := by
  cases a with
  | nan => exact absurd h (Flt_not_nan_le b)
  | num x =>
    cases b with
    | nan => exact absurd h (Flt_not_le_nan _)
    | num y =>
      intro hc
      exact absurd ((Flt_num_lt y x).mp hc) (not_lt.mpr ((Flt_num_le x y).mp h))

/-- Two numbers compare one way or the other. -/
theorem Flt_num_le_of_not_lt {α : Type} [LinearOrder α] (x : α) (b : Flt α)
    (hb : b ≠ Flt.nan) (h : ¬ Flt.num x < b) : b ≤ Flt.num x := by
  cases b with
  | nan => exact absurd rfl hb
  | num y => exact (Flt_num_le y x).mpr (not_lt.mp (fun hc => h ((Flt_num_lt x y).mpr hc)))

theorem Flt_le_num_of_not_lt {α : Type} [LinearOrder α] (x : α) (b : Flt α)
    (hb : b ≠ Flt.nan) (h : ¬ b < Flt.num x) : Flt.num x ≤ b := by
  cases b with
  | nan => exact absurd rfl hb
  | num y => exact (Flt_num_le x y).mpr (not_lt.mp (fun hc => h ((Flt_num_lt y x).mpr hc)))

theorem Flt_le_refl {α : Type} [LinearOrder α] (a : Flt α) (h : a ≠ Flt.nan) : a ≤ a := by
  cases a with
  | nan => exact absurd rfl h
  | num x => exact (Flt_num_le x x).mpr (le_refl x)

theorem Flt_ne_nan_of_le {α : Type} [LinearOrder α] (a b : Flt α) (h : a ≤ b) :
    a ≠ Flt.nan ∧ b ≠ Flt.nan := by
  constructor
  · intro hc
    rw [hc] at h
    exact Flt_not_nan_le b h
  · intro hc
    rw [hc] at h
    exact Flt_not_le_nan a h

/-- The clamp of NaN is NaN: both comparisons of the three-case clamp are
false. -/
theorem Math_Clamp_nan {α : Type} [LinearOrder α] (lo hi : Flt α) :
    Math.Clamp Flt.nan lo hi = Flt.nan := by
  unfold Math.Clamp
  rw [if_neg (Flt_not_nan_lt lo), if_neg (Flt_not_lt_nan hi)]

/-- The clamp of a number is a number, whatever the bounds. -/
theorem Math_Clamp_num_ne_nan {α : Type} [LinearOrder α] (x : α) (lo hi : Flt α) :
    Math.Clamp (Flt.num x) lo hi ≠ Flt.nan := by
  unfold Math.Clamp
  split_ifs with h1 h2
  · intro hc
    rw [hc] at h1
    exact Flt_not_lt_nan _ h1
  · intro hc
    rw [hc] at h2
    exact Flt_not_nan_lt _ h2
  · exact fun hc => Flt.noConfusion hc

theorem Slider_UpdateRect_fields {α : Type} (fe : FloatEnv α) (sl : Slider α) :
    (Slider.UpdateRect fe sl).mVal = sl.mVal ∧ (Slider.UpdateRect fe sl).mMin = sl.mMin ∧
      (Slider.UpdateRect fe sl).mMax = sl.mMax :=
  ⟨rfl, rfl, rfl⟩

theorem Slider_SetValue_fields {α : Type} [LinearOrder α] (fe : FloatEnv (Flt α))
    (c : SliderCtx (Flt α)) (v : Flt α) :
    (Slider.SetValue fe c v).slider.mVal = Math.Clamp v c.slider.mMin c.slider.mMax ∧
      (Slider.SetValue fe c v).slider.mMin = c.slider.mMin ∧
      (Slider.SetValue fe c v).slider.mMax = c.slider.mMax := by
  unfold Slider.SetValue
  dsimp only
  split_ifs with heq
  · exact ⟨(Flt_eq_true _ _ heq).1.symm, rfl, rfl⟩
  · exact ⟨rfl, rfl, rfl⟩

/-- C5: for a slider with `mMin ≤ mMax`, `SetValue(v)` stores the clamp of `v`
to the range: `mMin` below the range, `mMax` above it, `v` itself inside, and
more generally `v` itself whenever neither comparison holds. -/
theorem Slider_SetValue_stores_clamp {α : Type} [LinearOrder α] (fe : FloatEnv (Flt α))
    (c : SliderCtx (Flt α)) (v : Flt α) (hrange : c.slider.mMin ≤ c.slider.mMax) :
    (Slider.SetValue fe c v).slider.mVal = Math.Clamp v c.slider.mMin c.slider.mMax ∧
    (v < c.slider.mMin → (Slider.SetValue fe c v).slider.mVal = c.slider.mMin) ∧
    (v > c.slider.mMax → (Slider.SetValue fe c v).slider.mVal = c.slider.mMax) ∧
    (c.slider.mMin ≤ v → v ≤ c.slider.mMax → (Slider.SetValue fe c v).slider.mVal = v) ∧
    (¬ v < c.slider.mMin → ¬ v > c.slider.mMax →
      (Slider.SetValue fe c v).slider.mVal = v) := by
  have hval := (Slider_SetValue_fields fe c v).1
  refine ⟨hval, fun hlo => ?_, fun hhi => ?_, fun hlo hhi => ?_, fun hlo hhi => ?_⟩
  · rw [hval, Math.Clamp, if_pos hlo]
  · rw [hval, Math.Clamp,
      if_neg (Flt_not_lt_of_le _ _ (Flt_le_trans _ _ _ hrange (Flt_le_of_lt _ _ hhi))),
      if_pos hhi]
  · rw [hval, Math.Clamp, if_neg (Flt_not_lt_of_le _ _ hlo), if_neg (Flt_not_lt_of_le _ _ hhi)]
  · rw [hval, Math.Clamp, if_neg hlo, if_neg hhi]

/-- Witness for C5: on the sample slider over 0..10 holding 3, `SetValue(15)`
stores 10. -/
theorem Slider_SetValue_stores_clamp_witness :
    (sampleSlider 3).slider.mMin ≤ (sampleSlider 3).slider.mMax ∧
    (Flt.num 15 : Flt Int) > (sampleSlider 3).slider.mMax ∧
    (Slider.SetValue sampleFloatEnv (sampleSlider 3) (Flt.num 15)).slider.mVal = Flt.num 10 :=
  ⟨by decide, by decide,
    (Slider_SetValue_stores_clamp sampleFloatEnv (sampleSlider 3) (Flt.num 15)
      (by decide)).2.2.1 (by decide)⟩

/-- C6, as stated, fails for NaN: the clamp of NaN is NaN, after
`SetValue(NaN)` the sample slider holds NaN, and the second `SetValue(NaN)` in
a row sends a second event. -/
theorem Slider_SetValue_nan_sends_again :
    Math.Clamp (Flt.nan : Flt Int) (sampleSlider 3).slider.mMin (sampleSlider 3).slider.mMax
      = Flt.nan ∧
    (Slider.SetValue sampleFloatEnv (sampleSlider 3) Flt.nan).slider.mVal = Flt.nan ∧
    (Slider.SetValue sampleFloatEnv (sampleSlider 3) Flt.nan).dialog.sent = [7] ∧
    (Slider.SetValue sampleFloatEnv (Slider.SetValue sampleFloatEnv (sampleSlider 3) Flt.nan)
      Flt.nan).dialog.sent = [7, 7] := by
  decide

/-- C6 (amended): when the clamp of `v` is the value already held and that
value is not NaN, `SetValue(v)` returns the slider, its label text and the
dialog's event record unchanged; hence for every `v` other than NaN a second
`SetValue(v)` in a row changes nothing and sends no event. -/
theorem Slider_SetValue_same_value_no_effect {α : Type} [LinearOrder α]
    (fe : FloatEnv (Flt α)) (c : SliderCtx (Flt α)) (v : Flt α) :
    (Math.Clamp v c.slider.mMin c.slider.mMax = c.slider.mVal → c.slider.mVal ≠ Flt.nan →
      Slider.SetValue fe c v = c) ∧
    (v ≠ Flt.nan →
      Slider.SetValue fe (Slider.SetValue fe c v) v = Slider.SetValue fe c v ∧
      (Slider.SetValue fe (Slider.SetValue fe c v) v).dialog
        = (Slider.SetValue fe c v).dialog) := by
  have hsame : ∀ d : SliderCtx (Flt α),
      Math.Clamp v d.slider.mMin d.slider.mMax = d.slider.mVal → d.slider.mVal ≠ Flt.nan →
      Slider.SetValue fe d v = d := by
    intro d hd hn
    unfold Slider.SetValue
    dsimp only
    rw [hd, Flt_eq_self _ hn, if_pos rfl]
  refine ⟨hsame c, fun hv => ?_⟩
  have htwice : Slider.SetValue fe (Slider.SetValue fe c v) v = Slider.SetValue fe c v := by
    obtain ⟨h1, h2, h3⟩ := Slider_SetValue_fields fe c v
    apply hsame
    · rw [h1, h2, h3]
    · rw [h1]
      cases v with
      | nan => exact absurd rfl hv
      | num x => exact Math_Clamp_num_ne_nan x _ _
  exact ⟨htwice, by rw [htwice]⟩

/-- Witness for C6 (amended): the sample slider holds 10, the clamp of 15, so
`SetValue(15)` leaves it as it is and sends no event. -/
theorem Slider_SetValue_same_value_no_effect_witness :
    Math.Clamp (Flt.num 15 : Flt Int) (sampleSlider 10).slider.mMin
        (sampleSlider 10).slider.mMax
      = (sampleSlider 10).slider.mVal ∧
    (sampleSlider 10).slider.mVal ≠ Flt.nan ∧
    Slider.SetValue sampleFloatEnv (sampleSlider 10) (Flt.num 15) = sampleSlider 10 ∧
    (Slider.SetValue sampleFloatEnv (sampleSlider 10) (Flt.num 15)).dialog.sent = [] ∧
    (Slider.SetValue sampleFloatEnv
      (Slider.SetValue sampleFloatEnv (sampleSlider 3) (Flt.num 15)) (Flt.num 15)).dialog
      = (Slider.SetValue sampleFloatEnv (sampleSlider 3) (Flt.num 15)).dialog :=
  have h : Slider.SetValue sampleFloatEnv (sampleSlider 10) (Flt.num 15) = sampleSlider 10 :=
    (Slider_SetValue_same_value_no_effect sampleFloatEnv (sampleSlider 10) (Flt.num 15)).1
      (by decide) (by decide)
  ⟨by decide, by decide, h, by rw [h]; rfl,
    ((Slider_SetValue_same_value_no_effect sampleFloatEnv (sampleSlider 3) (Flt.num 15)).2
      (by decide)).2⟩

/-! ## Events sent by the retained Slider and CheckBox -/

theorem SendEvent_sent (d : DialogEvents) (ID : Nat) :
    (EDXDialog.SendEvent d ID).sent = d.sent ++ [ID] := by
  unfold EDXDialog.SendEvent
  dsimp only
  split_ifs <;> rfl

theorem Slider_SetValue_changed {α : Type} [LinearOrder α] (fe : FloatEnv (Flt α))
    (c : SliderCtx (Flt α))
    (v : Flt α) (h : (Slider.SetValue fe c v).slider.mVal ≠ c.slider.mVal) :
    (Slider.SetValue fe c v).dialog = EDXDialog.SendEvent c.dialog c.slider.mID ∧
      (Slider.SetValue fe c v).slider.mID = c.slider.mID := by
  have hne : ¬ Flt.eq (Math.Clamp v c.slider.mMin c.slider.mMax) c.slider.mVal = true := by
    intro heq
    apply h
    rw [(Slider_SetValue_fields fe c v).1, (Flt_eq_true _ _ heq).1]
  unfold Slider.SetValue
  dsimp only
  rw [if_neg hne]
  exact ⟨rfl, rfl⟩

theorem Slider_release_fields {α : Type} [LinearOrder α] (fe : FloatEnv (Flt α))
    (c : SliderCtx (Flt α)) (m : MouseEventArgs) (hup : m.Action = MouseAction.LButtonUp) :
    (Slider.HandleMouse fe c m).1.dialog.sent = c.dialog.sent ++ [c.slider.mID] ∧
    (Slider.HandleMouse fe c m).1.slider.mPressed = false ∧
    (Slider.HandleMouse fe c m).1.slider.mDragOffset = 0 ∧
    (Slider.HandleMouse fe c m).1.slider.mVal = c.slider.mVal ∧
    (Slider.HandleMouse fe c m).2 = true := by
  unfold Slider.HandleMouse
  rw [hup]
  exact ⟨SendEvent_sent _ _, rfl, rfl, rfl, rfl⟩

/-- C19, as stated, fails: the sample slider is not in drag mode (`mPressed`
is false), yet `HandleMouse` with LButtonUp calls `SendEvent` once. -/
theorem Slider_release_sends_event_when_idle :
    (sampleSlider 3).slider.mPressed = false ∧
    (Slider.HandleMouse sampleFloatEnv (sampleSlider 3)
      (sampleMouse 0 0 MouseAction.LButtonUp)).1.dialog.sent = [7] := by
  decide

/-- C19 (amended): `Slider::HandleMouse` with action LButtonUp calls
`SendEvent` exactly once whether or not the slider is in drag mode; it clears
`mPressed` and `mDragOffset`, keeps the value and returns true. -/
theorem Slider_release_sends_one_event {α : Type} [LinearOrder α] (fe : FloatEnv (Flt α))
    (c : SliderCtx (Flt α)) (m : MouseEventArgs) (hup : m.Action = MouseAction.LButtonUp) :
    (Slider.HandleMouse fe c m).1.dialog.sent = c.dialog.sent ++ [c.slider.mID] ∧
    (Slider.HandleMouse fe c m).1.slider.mPressed = false ∧
    (Slider.HandleMouse fe c m).1.slider.mDragOffset = 0 ∧
    (Slider.HandleMouse fe c m).1.slider.mVal = c.slider.mVal ∧
    (Slider.HandleMouse fe c m).2 = true :=
  Slider_release_fields fe c m hup

/-- Witness for C19 (amended): the release on the sample slider. -/
theorem Slider_release_sends_one_event_witness :
    (sampleMouse 0 0 MouseAction.LButtonUp).Action = MouseAction.LButtonUp ∧
    (Slider.HandleMouse sampleFloatEnv (sampleSlider 3)
      (sampleMouse 0 0 MouseAction.LButtonUp)).1.dialog.sent
      = (sampleSlider 3).dialog.sent ++ [(sampleSlider 3).slider.mID] :=
  ⟨rfl, (Slider_release_sends_one_event sampleFloatEnv (sampleSlider 3)
    (sampleMouse 0 0 MouseAction.LButtonUp) rfl).1⟩

/-- C20, as stated, fails for the slider: a press at (60, 45) on the track of
the sample slider, outside its handle, changes the value, and the release that
follows brings the number of `SendEvent` calls to two. -/
theorem Slider_track_click_sends_two_events :
    PtInRect (sampleSlider 3).slider.mrcButtonBBox { x := 60, y := 45 } = false ∧
    PtInRect (sampleSlider 3).slider.mBBox { x := 60, y := 45 } = true ∧
    (Slider.HandleMouse sampleFloatEnv (sampleSlider 3)
      (sampleMouse 60 45 MouseAction.LButtonDown)).1.slider.mVal ≠ (sampleSlider 3).slider.mVal ∧
    (Slider.HandleMouse sampleFloatEnv
      (Slider.HandleMouse sampleFloatEnv (sampleSlider 3)
        (sampleMouse 60 45 MouseAction.LButtonDown)).1
      (sampleMouse 60 45 MouseAction.LButtonUp)).1.dialog.sent = [7, 7] := by
  decide

/-- C20 (amended): a `CheckBox` press inside its box followed by a release
inside its box calls `SendEvent` exactly once; a `Slider` press on the track
outside the handle that changes the value, followed by the release, calls
`SendEvent` twice (once from `SetValue` at the press, once at the release). -/
theorem committed_interaction_events {α : Type} [LinearOrder α] (fe : FloatEnv (Flt α))
    (cb : CheckBoxCtx) (sl : SliderCtx (Flt α)) (down up : MouseEventArgs)
    (hdown : down.Action = MouseAction.LButtonDown) (hup : up.Action = MouseAction.LButtonUp) :
    (PtInRect cb.checkBox.mrcBoxBBox { x := down.x, y := down.y } = true →
      PtInRect cb.checkBox.mrcBoxBBox { x := up.x, y := up.y } = true →
      (CheckBox.HandleMouse (CheckBox.HandleMouse cb down).1 up).1.dialog.sent
        = cb.dialog.sent ++ [cb.checkBox.mID]) ∧
    (PtInRect sl.slider.mrcButtonBBox { x := down.x, y := down.y } = false →
      PtInRect sl.slider.mBBox { x := down.x, y := down.y } = true →
      (Slider.SetValueFromPos fe sl down.x).slider.mVal ≠ sl.slider.mVal →
      (Slider.HandleMouse fe (Slider.HandleMouse fe sl down).1 up).1.dialog.sent
        = sl.dialog.sent ++ [sl.slider.mID, sl.slider.mID]) := by
  constructor
  · intro hin1 hin2
    have h1 : CheckBox.HandleMouse cb down
        = ({ cb with checkBox := { cb.checkBox with mPressed := true } }, true) := by
      unfold CheckBox.HandleMouse
      rw [hdown]
      dsimp only
      rw [if_pos hin1]
    rw [h1]
    unfold CheckBox.HandleMouse
    rw [hup]
    dsimp only
    rw [if_pos ⟨hin2, rfl⟩]
    exact SendEvent_sent _ _
  · intro hout hin hchg
    obtain ⟨hd, hid⟩ := Slider_SetValue_changed fe sl _ hchg
    have h1 : (Slider.HandleMouse fe sl down).1
        = { Slider.SetValueFromPos fe sl down.x with
            refVal := Slider.GetValue (Slider.SetValueFromPos fe sl down.x).slider } := by
      unfold Slider.HandleMouse
      rw [hdown]
      dsimp only
      rw [hout, hin]
      rfl
    rw [(Slider_release_fields fe _ up hup).1, h1]
    show (Slider.SetValueFromPos fe sl down.x).dialog.sent
      ++ [(Slider.SetValueFromPos fe sl down.x).slider.mID] = _
    have hd' : (Slider.SetValueFromPos fe sl down.x).dialog
        = EDXDialog.SendEvent sl.dialog sl.slider.mID := hd
    have hid' : (Slider.SetValueFromPos fe sl down.x).slider.mID = sl.slider.mID := hid
    rw [hd', hid', SendEvent_sent, List.append_assoc]
    rfl

/-- Witness for C20 (amended): press and release at (16, 66) in the box of the
sample check box send one event; press and release at (60, 45) on the track of
the sample slider send two. -/
theorem committed_interaction_events_witness :
    (PtInRect (sampleCheckBox false).checkBox.mrcBoxBBox { x := 16, y := 66 } = true ∧
      (CheckBox.HandleMouse
        (CheckBox.HandleMouse (sampleCheckBox false)
          (sampleMouse 16 66 MouseAction.LButtonDown)).1
        (sampleMouse 16 66 MouseAction.LButtonUp)).1.dialog.sent
        = (sampleCheckBox false).dialog.sent ++ [(sampleCheckBox false).checkBox.mID]) ∧
    (PtInRect (sampleSlider 3).slider.mrcButtonBBox { x := 60, y := 45 } = false ∧
      PtInRect (sampleSlider 3).slider.mBBox { x := 60, y := 45 } = true ∧
      (Slider.SetValueFromPos sampleFloatEnv (sampleSlider 3) 60).slider.mVal
        ≠ (sampleSlider 3).slider.mVal ∧
      (Slider.HandleMouse sampleFloatEnv
        (Slider.HandleMouse sampleFloatEnv (sampleSlider 3)
          (sampleMouse 60 45 MouseAction.LButtonDown)).1
        (sampleMouse 60 45 MouseAction.LButtonUp)).1.dialog.sent
        = (sampleSlider 3).dialog.sent
          ++ [(sampleSlider 3).slider.mID, (sampleSlider 3).slider.mID]) :=
  have hin : PtInRect (sampleCheckBox false).checkBox.mrcBoxBBox { x := 16, y := 66 } = true := by
    decide
  have hout : PtInRect (sampleSlider 3).slider.mrcButtonBBox { x := 60, y := 45 } = false := by
    decide
  have htr : PtInRect (sampleSlider 3).slider.mBBox { x := 60, y := 45 } = true := by
    decide
  have hchg : (Slider.SetValueFromPos sampleFloatEnv (sampleSlider 3) 60).slider.mVal
      ≠ (sampleSlider 3).slider.mVal := by
    decide
  ⟨⟨hin, (committed_interaction_events sampleFloatEnv (sampleCheckBox false) (sampleSlider 3)
      (sampleMouse 16 66 MouseAction.LButtonDown) (sampleMouse 16 66 MouseAction.LButtonUp)
      rfl rfl).1 hin hin⟩,
    ⟨hout, htr, hchg, (committed_interaction_events sampleFloatEnv (sampleCheckBox false)
      (sampleSlider 3) (sampleMouse 60 45 MouseAction.LButtonDown)
      (sampleMouse 60 45 MouseAction.LButtonUp) rfl rfl).2 hout htr hchg⟩⟩

/-! ## Dialog dispatch -/

theorem EDXDialog_call_some {κ : Type} (d : EDXDialog κ) (i : Nat) (f : κ → κ)
    (tag : ControlCall) (hi : i < d.mvControls.length) :
    ∃ c, d.mvControls[i]? = some c ∧
      d.call i f tag
        = some { d with mvControls := d.mvControls.set i (f c), calls := d.calls ++ [tag] } := by
  refine ⟨d.mvControls[i], List.getElem?_eq_getElem hi, ?_⟩
  unfold EDXDialog.call
  rw [List.getElem?_eq_getElem hi]

theorem EDXDialog_handle_some {κ : Type} (ops : ControlOps κ) (d : EDXDialog κ) (i : Nat)
    (args : MouseEventArgs) (c : κ) (hc : d.mvControls[i]? = some c) :
    EDXDialog.handle ops d i args
      = some ({ d with
                mvControls := d.mvControls.set i (ops.HandleMouse c args).1
                calls := d.calls ++ [ControlCall.HandleMouse i] },
              (ops.HandleMouse c args).2) := by
  unfold EDXDialog.handle
  rw [hc]

theorem GetControlAtPoint_loop_spec {κ : Type} (ops : ControlOps κ) (pt : POINT)
    (cs : List κ) (i : Nat) :
    (∀ p, EDXDialog.GetControlAtPoint.loop ops pt cs i = some p →
      i ≤ p ∧ p - i < cs.length ∧
        (∃ c, cs[p - i]? = some c ∧ ops.ContainsPoint c pt = true) ∧
        ∀ j, j < p - i → ∀ c, cs[j]? = some c → ops.ContainsPoint c pt = false) ∧
    (EDXDialog.GetControlAtPoint.loop ops pt cs i = none →
      ∀ c ∈ cs, ops.ContainsPoint c pt = false) := by
  induction cs generalizing i with
  | nil =>
    refine ⟨fun p hp => ?_, fun _ c hc => ?_⟩
    · simp [EDXDialog.GetControlAtPoint.loop] at hp
    · simp at hc
  | cons a as ih =>
    by_cases ha : ops.ContainsPoint a pt = true
    · refine ⟨fun p hp => ?_, fun hn => ?_⟩
      · simp only [EDXDialog.GetControlAtPoint.loop, ha, if_true, Option.some.injEq] at hp
        subst hp
        refine ⟨le_refl _, by simp, ⟨a, by simp, ha⟩, fun j hj => ?_⟩
        omega
      · simp [EDXDialog.GetControlAtPoint.loop, ha] at hn
    · have hab : ops.ContainsPoint a pt = false := by
        cases h : ops.ContainsPoint a pt
        · rfl
        · exact absurd h ha
      have hstep : EDXDialog.GetControlAtPoint.loop ops pt (a :: as) i
          = EDXDialog.GetControlAtPoint.loop ops pt as (i + 1) := by
        simp [EDXDialog.GetControlAtPoint.loop, hab]
      rw [hstep]
      refine ⟨fun p hp => ?_, fun hn c hc => ?_⟩
      · obtain ⟨h1, h2, ⟨c, hc, hcp⟩, h4⟩ := (ih (i + 1)).1 p hp
        have hpi : p - i = (p - (i + 1)) + 1 := by omega
        refine ⟨by omega, ?_, ⟨c, ?_, hcp⟩, fun j hj cj hcj => ?_⟩
        · rw [hpi, List.length_cons]
          omega
        · rw [hpi, List.getElem?_cons_succ]
          exact hc
        · cases j with
          | zero =>
            simp only [List.getElem?_cons_zero, Option.some.injEq] at hcj
            rw [← hcj]
            exact hab
          | succ k =>
            rw [List.getElem?_cons_succ] at hcj
            exact h4 k (by omega) cj hcj
      · rcases List.mem_cons.mp hc with rfl | hm
        · exact hab
        · exact (ih (i + 1)).2 hn c hm

theorem GetControlAtPoint_spec {κ : Type} (ops : ControlOps κ) (d : EDXDialog κ) (pt : POINT) :
    (∀ p, EDXDialog.GetControlAtPoint ops d pt = some p →
      p < d.mvControls.length ∧
        (∃ c, d.mvControls[p]? = some c ∧ ops.ContainsPoint c pt = true) ∧
        ∀ j, j < p → ∀ c, d.mvControls[j]? = some c → ops.ContainsPoint c pt = false) ∧
    (EDXDialog.GetControlAtPoint ops d pt = none →
      ∀ c ∈ d.mvControls, ops.ContainsPoint c pt = false) := by
  have h := GetControlAtPoint_loop_spec ops pt d.mvControls 0
  refine ⟨fun p hp => ?_, h.2⟩
  obtain ⟨-, h2, h3, h4⟩ := h.1 p hp
  exact ⟨h2, h3, h4⟩

/-- The hit-testing part of `MsgProc` returns whenever the hovered pointer is
one of the dialog's controls; it leaves the hit control hovered, makes exactly
the calls of `hitCalls` and does not touch the focus pointer. -/
theorem MsgProc_hit_spec {κ : Type} (ops : ControlOps κ) (d : EDXDialog κ)
    (off : MouseEventArgs)
    (hv : ∀ h, d.mpHoveredControl = some h → h < d.mvControls.length) :
    ∃ t, EDXDialog.MsgProc.hit ops d off = some t ∧
      t.1.mpHoveredControl = EDXDialog.GetControlAtPoint ops d { x := off.x, y := off.y } ∧
      t.1.calls = d.calls ++
        EDXDialog.hitCalls d.mpHoveredControl
          (EDXDialog.GetControlAtPoint ops d { x := off.x, y := off.y }) off.Action ∧
      t.1.mpFocusControl = d.mpFocusControl ∧
      t.1.mvControls.length = d.mvControls.length := by
  unfold EDXDialog.MsgProc.hit
  dsimp only
  cases hg : EDXDialog.GetControlAtPoint ops d { x := off.x, y := off.y } with
  | none =>
    dsimp only
    cases hh : d.mpHoveredControl with
    | none =>
      exact ⟨(d, false), rfl, hh, by simp [EDXDialog.hitCalls], rfl, rfl⟩
    | some h =>
      obtain ⟨c, -, hc⟩ := EDXDialog_call_some d h ops.OnMouseOut (ControlCall.OnMouseOut h)
        (hv h hh)
      dsimp only
      rw [hc]
      refine ⟨_, rfl, rfl, ?_, rfl, ?_⟩
      · simp [EDXDialog.hitCalls]
      · simp
  | some p =>
    have hp : p < d.mvControls.length := ((GetControlAtPoint_spec ops d _).1 p hg).1
    dsimp only
    have hover : ∃ d2, EDXDialog.MsgProc.hover ops d p = some d2 ∧
        d2.mpHoveredControl = some p ∧
        d2.calls = d.calls ++
          (if d.mpHoveredControl = some p then []
            else
              (match d.mpHoveredControl with
                | some h => [ControlCall.OnMouseOut h]
                | none => []) ++ [ControlCall.OnMouseIn p]) ∧
        d2.mpFocusControl = d.mpFocusControl ∧
        d2.mvControls.length = d.mvControls.length := by
      unfold EDXDialog.MsgProc.hover
      by_cases hsame : d.mpHoveredControl = some p
      · refine ⟨d, ?_, hsame, ?_, rfl, rfl⟩
        · rw [if_neg (not_not.mpr hsame)]
        · rw [if_pos hsame, List.append_nil]
      · rw [if_pos hsame, if_neg hsame]
        cases hh : d.mpHoveredControl with
        | none =>
          obtain ⟨c, -, hc⟩ := EDXDialog_call_some { d with mpHoveredControl := some p } p
            ops.OnMouseIn (ControlCall.OnMouseIn p) hp
          dsimp only [Option.some_bind]
          rw [hc]
          exact ⟨_, rfl, rfl, rfl, rfl, by simp⟩
        | some h =>
          obtain ⟨c, -, hc⟩ := EDXDialog_call_some d h ops.OnMouseOut
            (ControlCall.OnMouseOut h) (hv h hh)
          dsimp only
          rw [hc]
          dsimp only [Option.some_bind]
          obtain ⟨c2, -, hc2⟩ := EDXDialog_call_some
            { mVisible := d.mVisible, mPosX := d.mPosX, mPosY := d.mPosY
              mvControls := d.mvControls.set h (ops.OnMouseOut c)
              mpFocusControl := d.mpFocusControl, mpHoveredControl := some p
              calls := d.calls ++ [ControlCall.OnMouseOut h] }
            p ops.OnMouseIn (ControlCall.OnMouseIn p) (by simpa using hp)
          rw [hc2]
          refine ⟨_, rfl, rfl, ?_, rfl, by simp⟩
          simp
    obtain ⟨d2, hd2, hh2, hc2, hf2, hl2⟩ := hover
    rw [hd2]
    dsimp only [Option.some_bind]
    have focus : ∃ d3, EDXDialog.MsgProc.grant ops d2 p off.Action = some d3 ∧
        d3.mpHoveredControl = some p ∧
        d3.calls = d2.calls ++
          (if off.Action = MouseAction.LButtonDown then [ControlCall.SetFocus p] else []) ∧
        d3.mpFocusControl = d.mpFocusControl ∧
        d3.mvControls.length = d.mvControls.length := by
      unfold EDXDialog.MsgProc.grant
      by_cases hdn : off.Action = MouseAction.LButtonDown
      · obtain ⟨c, -, hc⟩ := EDXDialog_call_some d2 p ops.SetFocus (ControlCall.SetFocus p)
          (by rw [hl2]; exact hp)
        rw [if_pos hdn, if_pos hdn, hc]
        exact ⟨_, rfl, hh2, rfl, hf2, by simpa using hl2⟩
      · rw [if_neg hdn, if_neg hdn, List.append_nil]
        exact ⟨d2, rfl, hh2, rfl, hf2, hl2⟩
    obtain ⟨d3, hd3, hh3, hc3, hf3, hl3⟩ := focus
    rw [hd3]
    dsimp only [Option.some_bind]
    have hp3 : p < d3.mvControls.length := by rw [hl3]; exact hp
    rw [EDXDialog_handle_some ops d3 p off d3.mvControls[p] (List.getElem?_eq_getElem hp3)]
    refine ⟨_, rfl, hh3, ?_, hf3, by simpa using hl3⟩
    show d3.calls ++ [ControlCall.HandleMouse p] = _
    rw [hc3, hc2]
    unfold EDXDialog.hitCalls
    by_cases hsame : d.mpHoveredControl = some p
    · simp [hsame]
    · simp only [hsame, if_false, List.append_assoc]

theorem hitCalls_no_ResetFocus (hov g : Option Nat) (a : MouseAction) (i : Nat) :
    ControlCall.ResetFocus i ∉ EDXDialog.hitCalls hov g a := by
  unfold EDXDialog.hitCalls
  cases hov <;> cases g <;> simp

theorem hitCalls_no_SetFocus (hov g : Option Nat) (a : MouseAction)
    (ha : a ≠ MouseAction.LButtonDown) (i : Nat) :
    ControlCall.SetFocus i ∉ EDXDialog.hitCalls hov g a := by
  unfold EDXDialog.hitCalls
  cases hov <;> cases g <;> simp [ha]

theorem MsgProc_hit_calls {κ : Type} (ops : ControlOps κ) (d : EDXDialog κ)
    (off : MouseEventArgs)
    (hv : ∀ h, d.mpHoveredControl = some h → h < d.mvControls.length) :
    ∃ t rest, EDXDialog.MsgProc.hit ops d off = some t ∧
      t.1.calls = d.calls ++ rest ∧ t.1.mpFocusControl = d.mpFocusControl ∧
      (∀ i, ControlCall.ResetFocus i ∉ rest) ∧
      (off.Action ≠ MouseAction.LButtonDown → ∀ i, ControlCall.SetFocus i ∉ rest) := by
  obtain ⟨t, ht, -, hcalls, hfoc, -⟩ := MsgProc_hit_spec ops d off hv
  exact ⟨t, _, ht, hcalls, hfoc, fun i => hitCalls_no_ResetFocus _ _ _ i,
    fun ha i => hitCalls_no_SetFocus _ _ _ ha i⟩

/-- C21: an invisible dialog returns false and is unchanged. In a visible
dialog whose focus pointer is one of its controls, that control handles the
event first: if it returns true, `MsgProc` returns true after this one call,
with the hovered pointer as before; if it returns false on LButtonDown,
`ResetFocus` is called on it and the hit-testing part runs on the dialog so
left; if it returns false on another action, the hit-testing part runs without
any `ResetFocus` or `SetFocus` call. -/
theorem MsgProc_focus_control_first {κ : Type} (ops : ControlOps κ) (d : EDXDialog κ)
    (m : MouseEventArgs) :
    (d.mVisible = false → EDXDialog.MsgProc ops d m = some (d, false)) ∧
    (∀ f c, d.mVisible = true → d.mpFocusControl = some f → d.mvControls[f]? = some c →
      (∀ h, d.mpHoveredControl = some h → h < d.mvControls.length) →
      ((ops.HandleMouse c (EDXDialog.offsettedArgs d m)).2 = true →
        EDXDialog.MsgProc ops d m
          = some ({ d with
                    mvControls :=
                      d.mvControls.set f (ops.HandleMouse c (EDXDialog.offsettedArgs d m)).1
                    calls := d.calls ++ [ControlCall.HandleMouse f] }, true)) ∧
      ((ops.HandleMouse c (EDXDialog.offsettedArgs d m)).2 = false →
        m.Action = MouseAction.LButtonDown →
        EDXDialog.MsgProc ops d m
          = EDXDialog.MsgProc.hit ops
              { d with
                mvControls :=
                  d.mvControls.set f
                    (ops.ResetFocus (ops.HandleMouse c (EDXDialog.offsettedArgs d m)).1)
                calls := d.calls ++ [ControlCall.HandleMouse f, ControlCall.ResetFocus f] }
              (EDXDialog.offsettedArgs d m) ∧
        ∃ t rest, EDXDialog.MsgProc ops d m = some t ∧
          t.1.calls
            = d.calls ++ ControlCall.HandleMouse f :: ControlCall.ResetFocus f :: rest ∧
          ∀ i, ControlCall.ResetFocus i ∉ rest) ∧
      ((ops.HandleMouse c (EDXDialog.offsettedArgs d m)).2 = false →
        m.Action ≠ MouseAction.LButtonDown →
        EDXDialog.MsgProc ops d m
          = EDXDialog.MsgProc.hit ops
              { d with
                mvControls :=
                  d.mvControls.set f (ops.HandleMouse c (EDXDialog.offsettedArgs d m)).1
                calls := d.calls ++ [ControlCall.HandleMouse f] }
              (EDXDialog.offsettedArgs d m) ∧
        ∃ t rest, EDXDialog.MsgProc ops d m = some t ∧
          t.1.mpFocusControl = some f ∧
          t.1.calls = d.calls ++ ControlCall.HandleMouse f :: rest ∧
          ∀ i, ControlCall.ResetFocus i ∉ rest ∧ ControlCall.SetFocus i ∉ rest)) := by
  constructor
  · intro hvis
    unfold EDXDialog.MsgProc
    rw [hvis]
    rfl
  · intro f c hvis hf hc hv
    have hentry : EDXDialog.MsgProc ops d m
        = (EDXDialog.handle ops d f (EDXDialog.offsettedArgs d m)).bind fun r =>
            if r.2 then some (r.1, true)
            else if (EDXDialog.offsettedArgs d m).Action = MouseAction.LButtonDown then
              (r.1.call f ops.ResetFocus (ControlCall.ResetFocus f)).bind fun d2 =>
                EDXDialog.MsgProc.hit ops d2 (EDXDialog.offsettedArgs d m)
            else EDXDialog.MsgProc.hit ops r.1 (EDXDialog.offsettedArgs d m) := by
      unfold EDXDialog.MsgProc
      rw [hvis, hf]
      rfl
    rw [EDXDialog_handle_some ops d f _ c hc, Option.some_bind] at hentry
    have hact : (EDXDialog.offsettedArgs d m).Action = m.Action := rfl
    have hlt : f < d.mvControls.length := by
      rcases Nat.lt_or_ge f d.mvControls.length with h | h
      · exact h
      · rw [List.getElem?_eq_none h] at hc
        exact absurd hc (by simp)
    refine ⟨fun hh => ?_, fun hh hdn => ?_, fun hh hdn => ?_⟩
    · rw [hentry]
      dsimp only
      rw [if_pos hh]
    · have heq : EDXDialog.MsgProc ops d m
          = EDXDialog.MsgProc.hit ops
              { d with
                mvControls :=
                  d.mvControls.set f
                    (ops.ResetFocus (ops.HandleMouse c (EDXDialog.offsettedArgs d m)).1)
                calls := d.calls ++ [ControlCall.HandleMouse f, ControlCall.ResetFocus f] }
              (EDXDialog.offsettedArgs d m) := by
        rw [hentry]
        dsimp only
        rw [if_neg (by rw [hh]; exact Bool.false_ne_true), if_pos (hact.trans hdn)]
        unfold EDXDialog.call
        dsimp only
        rw [List.getElem?_set_self hlt]
        dsimp only [Option.some_bind]
        rw [List.set_set, List.append_assoc]
        rfl
      refine ⟨heq, ?_⟩
      obtain ⟨t, rest, ht, hcalls, -, hnr, -⟩ := MsgProc_hit_calls ops
        { d with
          mvControls :=
            d.mvControls.set f
              (ops.ResetFocus (ops.HandleMouse c (EDXDialog.offsettedArgs d m)).1)
          calls := d.calls ++ [ControlCall.HandleMouse f, ControlCall.ResetFocus f] }
        (EDXDialog.offsettedArgs d m)
        (fun h hh' => by rw [List.length_set]; exact hv h hh')
      refine ⟨t, rest, heq.trans ht, ?_, hnr⟩
      rw [hcalls]
      simp
    · have heq : EDXDialog.MsgProc ops d m
          = EDXDialog.MsgProc.hit ops
              { d with
                mvControls :=
                  d.mvControls.set f (ops.HandleMouse c (EDXDialog.offsettedArgs d m)).1
                calls := d.calls ++ [ControlCall.HandleMouse f] }
              (EDXDialog.offsettedArgs d m) := by
        rw [hentry]
        dsimp only
        rw [if_neg (by rw [hh]; exact Bool.false_ne_true), if_neg (by rw [hact]; exact hdn)]
      refine ⟨heq, ?_⟩
      obtain ⟨t, rest, ht, hcalls, hfoc, hnr, hns⟩ := MsgProc_hit_calls ops
        { d with
          mvControls :=
            d.mvControls.set f (ops.HandleMouse c (EDXDialog.offsettedArgs d m)).1
          calls := d.calls ++ [ControlCall.HandleMouse f] }
        (EDXDialog.offsettedArgs d m)
        (fun h hh' => by rw [List.length_set]; exact hv h hh')
      refine ⟨t, rest, heq.trans ht, hfoc.trans hf, ?_, fun i =>
        ⟨hnr i, hns (by rw [hact]; exact hdn) i⟩⟩
      rw [hcalls]
      simp

/-- Witness for C21: in the sample dialog the first button has the focus. A
press at local (20, 20) on it is handled by it and `MsgProc` returns true after
this one call; a press at local (20, 50) lands on the second button: the first
one declines and gets `ResetFocus` before the hit-testing part runs. -/
theorem MsgProc_focus_control_first_witness :
    ((sampleOps.HandleMouse (sampleButton 1 10)
        (EDXDialog.offsettedArgs (sampleDialog (some 0) none)
          (sampleMouse 620 20 MouseAction.LButtonDown))).2 = true ∧
      (EDXDialog.MsgProc sampleOps (sampleDialog (some 0) none)
        (sampleMouse 620 20 MouseAction.LButtonDown)).map
        (fun t => (t.1.calls, t.1.mpHoveredControl, t.2))
        = some ([ControlCall.HandleMouse 0], none, true)) ∧
    ((sampleOps.HandleMouse (sampleButton 1 10)
        (EDXDialog.offsettedArgs (sampleDialog (some 0) none)
          (sampleMouse 620 50 MouseAction.LButtonDown))).2 = false ∧
      ∃ t rest, EDXDialog.MsgProc sampleOps (sampleDialog (some 0) none)
          (sampleMouse 620 50 MouseAction.LButtonDown) = some t ∧
        t.1.calls = (sampleDialog (some 0) none).calls ++
          ControlCall.HandleMouse 0 :: ControlCall.ResetFocus 0 :: rest ∧
        ∀ i, ControlCall.ResetFocus i ∉ rest) := by
  have hv : ∀ h, (sampleDialog (some 0) none).mpHoveredControl = some h →
      h < (sampleDialog (some 0) none).mvControls.length := by
    intro h hh
    simp [sampleDialog] at hh
  have htrue : (sampleOps.HandleMouse (sampleButton 1 10)
      (EDXDialog.offsettedArgs (sampleDialog (some 0) none)
        (sampleMouse 620 20 MouseAction.LButtonDown))).2 = true := by decide
  have hfalse : (sampleOps.HandleMouse (sampleButton 1 10)
      (EDXDialog.offsettedArgs (sampleDialog (some 0) none)
        (sampleMouse 620 50 MouseAction.LButtonDown))).2 = false := by decide
  refine ⟨⟨htrue, ?_⟩, hfalse, ?_⟩
  · rw [((MsgProc_focus_control_first sampleOps (sampleDialog (some 0) none)
      (sampleMouse 620 20 MouseAction.LButtonDown)).2 0 (sampleButton 1 10) rfl rfl rfl
      hv).1 htrue]
    rfl
  · exact (((MsgProc_focus_control_first sampleOps (sampleDialog (some 0) none)
      (sampleMouse 620 50 MouseAction.LButtonDown)).2 0 (sampleButton 1 10) rfl rfl rfl
      hv).2.1 hfalse rfl).2

/-- C22: in a visible dialog without a focus control `MsgProc` is its
hit-testing part. That part, run on a dialog whose hovered pointer is one of
its controls, leaves the hovered pointer on the first control in insertion
order that contains the local pointer (none if no control does); it calls
`OnMouseOut` on the control hovered before and `OnMouseIn` on the hit control
exactly when the two differ; and on LButtonDown the hit control gets `SetFocus`
right before its `HandleMouse`. -/
theorem MsgProc_hover_follows_hit_test {κ : Type} (ops : ControlOps κ) (d : EDXDialog κ)
    (m : MouseEventArgs)
    (hv : ∀ h, d.mpHoveredControl = some h → h < d.mvControls.length) :
    (d.mVisible = true → d.mpFocusControl = none →
      EDXDialog.MsgProc ops d m = EDXDialog.MsgProc.hit ops d (EDXDialog.offsettedArgs d m)) ∧
    (∃ t g, EDXDialog.MsgProc.hit ops d m = some t ∧
      g = EDXDialog.GetControlAtPoint ops d { x := m.x, y := m.y } ∧
      t.1.mpHoveredControl = g ∧
      (∀ p, g = some p →
        (∃ c, d.mvControls[p]? = some c ∧ ops.ContainsPoint c { x := m.x, y := m.y } = true) ∧
        ∀ j, j < p → ∀ c, d.mvControls[j]? = some c →
          ops.ContainsPoint c { x := m.x, y := m.y } = false) ∧
      (g = none → ∀ c ∈ d.mvControls, ops.ContainsPoint c { x := m.x, y := m.y } = false) ∧
      t.1.calls = d.calls ++ EDXDialog.hitCalls d.mpHoveredControl g m.Action ∧
      (d.mpHoveredControl = g →
        ∀ i, ControlCall.OnMouseOut i ∉ EDXDialog.hitCalls d.mpHoveredControl g m.Action ∧
          ControlCall.OnMouseIn i ∉ EDXDialog.hitCalls d.mpHoveredControl g m.Action) ∧
      (d.mpHoveredControl ≠ g →
        (∀ h, d.mpHoveredControl = some h →
          ControlCall.OnMouseOut h ∈ EDXDialog.hitCalls d.mpHoveredControl g m.Action) ∧
        (∀ p, g = some p →
          ControlCall.OnMouseIn p ∈ EDXDialog.hitCalls d.mpHoveredControl g m.Action)) ∧
      (∀ p, g = some p → m.Action = MouseAction.LButtonDown →
        ∃ pre, EDXDialog.hitCalls d.mpHoveredControl g m.Action
          = pre ++ [ControlCall.SetFocus p, ControlCall.HandleMouse p])) := by
  constructor
  · intro hvis hf
    unfold EDXDialog.MsgProc
    rw [hvis, hf]
    rfl
  · obtain ⟨t, ht, hh, hcalls, -, -⟩ := MsgProc_hit_spec ops d m hv
    obtain ⟨hsome, hnone⟩ := GetControlAtPoint_spec ops d { x := m.x, y := m.y }
    refine ⟨t, _, ht, rfl, hh, fun p hp => ((hsome p hp).2), fun hn => hnone hn,
      hcalls, fun hsame i => ?_, fun hdiff => ⟨fun h hh' => ?_, fun p hp => ?_⟩,
      fun p hp hdn => ?_⟩
    · unfold EDXDialog.hitCalls
      rw [if_pos hsame]
      cases EDXDialog.GetControlAtPoint ops d { x := m.x, y := m.y } <;> simp
    · unfold EDXDialog.hitCalls
      rw [if_neg hdiff, hh']
      simp
    · unfold EDXDialog.hitCalls
      rw [if_neg hdiff, hp]
      simp
    · unfold EDXDialog.hitCalls
      rw [hp, hdn]
      by_cases hs : d.mpHoveredControl = some p
      · exact ⟨[], by simp [hs]⟩
      · cases hq : d.mpHoveredControl with
        | none => exact ⟨[ControlCall.OnMouseIn p], by simp⟩
        | some h =>
          rw [hq] at hs
          exact ⟨[ControlCall.OnMouseOut h, ControlCall.OnMouseIn p], by simp [hs]⟩

/-- Witness for C22: in the sample dialog the first button is hovered and a
press arrives at local (20, 50): the second button becomes the hovered one,
after `OnMouseOut` on the first, `OnMouseIn`, `SetFocus` and `HandleMouse` on
the second. -/
theorem MsgProc_hover_follows_hit_test_witness :
    (∀ h, (sampleDialog none (some 0)).mpHoveredControl = some h →
      h < (sampleDialog none (some 0)).mvControls.length) ∧
    ∃ t, EDXDialog.MsgProc sampleOps (sampleDialog none (some 0))
        (sampleMouse 620 50 MouseAction.LButtonDown) = some t ∧
      t.1.mpHoveredControl = some 1 ∧
      t.1.calls = [ControlCall.OnMouseOut 0, ControlCall.OnMouseIn 1, ControlCall.SetFocus 1,
        ControlCall.HandleMouse 1] := by
  have hv : ∀ h, (sampleDialog none (some 0)).mpHoveredControl = some h →
      h < (sampleDialog none (some 0)).mvControls.length := by
    intro h hh
    have : h = 0 := by simpa [sampleDialog] using hh.symm
    rw [this]
    decide
  obtain ⟨t, g, ht, hg, hh, -, -, hcalls, -⟩ := (MsgProc_hover_follows_hit_test sampleOps
    (sampleDialog none (some 0))
    (EDXDialog.offsettedArgs (sampleDialog none (some 0))
      (sampleMouse 620 50 MouseAction.LButtonDown)) hv).2
  have hg1 : g = some 1 := hg.trans (by decide)
  refine ⟨hv, t, ?_, hh.trans hg1, ?_⟩
  · rw [(MsgProc_hover_follows_hit_test sampleOps (sampleDialog none (some 0))
      (sampleMouse 620 50 MouseAction.LButtonDown) hv).1 rfl rfl]
    exact ht
  · rw [hcalls, hg1]
    decide

/-! ## Slider range -/

theorem Math_Clamp_mem {α : Type} [LinearOrder α] (v lo hi : Flt α) (h : lo ≤ hi)
    (hv : v ≠ Flt.nan) : lo ≤ Math.Clamp v lo hi ∧ Math.Clamp v lo hi ≤ hi := by
  obtain ⟨hlo, hhi⟩ := Flt_ne_nan_of_le lo hi h
  cases v with
  | nan => exact absurd rfl hv
  | num x =>
    unfold Math.Clamp
    split_ifs with h1 h2
    · exact ⟨Flt_le_refl lo hlo, h⟩
    · exact ⟨h, Flt_le_refl hi hhi⟩
    · exact ⟨Flt_num_le_of_not_lt x lo hlo h1, Flt_le_num_of_not_lt x hi hhi h2⟩

theorem Slider_SetValue_InRange {α : Type} [LinearOrder α] (fe : FloatEnv (Flt α))
    (c : SliderCtx (Flt α)) (v : Flt α) (hb : c.slider.mMin ≤ c.slider.mMax)
    (hv : v ≠ Flt.nan) :
    Slider.InRange (Slider.SetValue fe c v).slider ∧
      (Slider.SetValue fe c v).slider.mMin = c.slider.mMin ∧
      (Slider.SetValue fe c v).slider.mMax = c.slider.mMax := by
  obtain ⟨h1, h2, h3⟩ := Slider_SetValue_fields fe c v
  refine ⟨?_, h2, h3⟩
  unfold Slider.InRange
  rw [h1, h2, h3]
  exact Math_Clamp_mem v _ _ hb hv

theorem Slider_SetValueFromPos_eq {α : Type} [LinearOrder α] (fe : FloatEnv (Flt α))
    (c : SliderCtx (Flt α)) (iPos : Int) :
    Slider.SetValueFromPos fe c iPos = Slider.SetValue fe c (Slider.posValue fe c iPos) :=
  rfl

theorem Slider_HandleMouse_InRange {α : Type} [LinearOrder α] (fe : FloatEnv (Flt α))
    (c : SliderCtx (Flt α)) (m : MouseEventArgs) (hb : c.slider.mMin ≤ c.slider.mMax)
    (hin : Slider.InRange c.slider) (hpos : Slider.posValue fe c m.x ≠ Flt.nan)
    (hdrag : Slider.posValue fe c (m.x + c.slider.mDragOffset) ≠ Flt.nan) :
    Slider.InRange (Slider.HandleMouse fe c m).1.slider ∧
      (Slider.HandleMouse fe c m).1.slider.mMin = c.slider.mMin ∧
      (Slider.HandleMouse fe c m).1.slider.mMax = c.slider.mMax := by
  have hset : ∀ iPos, Slider.posValue fe c iPos ≠ Flt.nan →
      Slider.InRange (Slider.SetValueFromPos fe c iPos).slider ∧
      (Slider.SetValueFromPos fe c iPos).slider.mMin = c.slider.mMin ∧
      (Slider.SetValueFromPos fe c iPos).slider.mMax = c.slider.mMax := by
    intro iPos hp
    rw [Slider_SetValueFromPos_eq]
    exact Slider_SetValue_InRange fe c _ hb hp
  unfold Slider.HandleMouse
  dsimp only
  cases m.Action with
  | None => exact ⟨hin, rfl, rfl⟩
  | Move =>
    dsimp only
    split_ifs
    · exact hset _ hdrag
    · exact ⟨hin, rfl, rfl⟩
  | LButtonDown =>
    dsimp only
    split_ifs
    · exact ⟨hin, rfl, rfl⟩
    · exact hset _ hpos
    · exact ⟨hin, rfl, rfl⟩
  | LButtonUp => exact ⟨hin, rfl, rfl⟩
  | LButtonDbClick =>
    dsimp only
    split_ifs
    · exact ⟨hin, rfl, rfl⟩
    · exact hset _ hpos
    · exact ⟨hin, rfl, rfl⟩

/-- C24, as stated, fails for NaN: a slider constructed over 0 to 10 with the
initial value NaN holds NaN, which is not between the bounds; and `SetValue`
with NaN on the sample slider, whose value 3 is between its bounds, leaves a
value that is not. -/
theorem Slider_nan_leaves_range :
    ((Flt.num 0 : Flt Int) ≤ Flt.num 10 ∧
      (Slider.init (sampleSlider 3).slider 7 10 40 100 12 (Flt.num 0) (Flt.num 10) Flt.nan
        "v").mVal = Flt.nan ∧
      ¬ Slider.InRange
        (Slider.init (sampleSlider 3).slider 7 10 40 100 12 (Flt.num 0) (Flt.num 10) Flt.nan
          "v")) ∧
    (Slider.InRange (sampleSlider 3).slider ∧
      ¬ Slider.InRange (Slider.SetValue sampleFloatEnv (sampleSlider 3) Flt.nan).slider) := by
  unfold Slider.InRange
  decide

/-- C24 (amended): a slider constructed with `min ≤ max` and an initial value
other than NaN holds a value between its bounds; from a slider with
`mMin ≤ mMax` whose value is between the bounds, `SetValue` with an argument
other than NaN, `SetValueFromPos` for a pixel position whose interpolated value
is not NaN, and `HandleMouse` for a mouse event at whose position, taken as it
is and shifted by the drag offset, the interpolated value is not NaN, lead to a
slider with the same bounds whose value is between them. -/
theorem Slider_value_stays_in_range {α : Type} [LinearOrder α] (fe : FloatEnv (Flt α))
    (raw : Slider (Flt α)) (iID : Nat) (iX iY iWidth iHeight : Int) (min max val : Flt α)
    (pText : String) (c : SliderCtx (Flt α)) :
    (min ≤ max → val ≠ Flt.nan →
      Slider.InRange (Slider.init raw iID iX iY iWidth iHeight min max val pText) ∧
      (Slider.init raw iID iX iY iWidth iHeight min max val pText).mMin = min ∧
      (Slider.init raw iID iX iY iWidth iHeight min max val pText).mMax = max) ∧
    (c.slider.mMin ≤ c.slider.mMax → Slider.InRange c.slider →
      (∀ v, v ≠ Flt.nan →
        Slider.InRange (Slider.SetValue fe c v).slider ∧
        (Slider.SetValue fe c v).slider.mMin = c.slider.mMin ∧
        (Slider.SetValue fe c v).slider.mMax = c.slider.mMax) ∧
      (∀ iPos, Slider.posValue fe c iPos ≠ Flt.nan →
        Slider.InRange (Slider.SetValueFromPos fe c iPos).slider ∧
        (Slider.SetValueFromPos fe c iPos).slider.mMin = c.slider.mMin ∧
        (Slider.SetValueFromPos fe c iPos).slider.mMax = c.slider.mMax) ∧
      (∀ m : MouseEventArgs, Slider.posValue fe c m.x ≠ Flt.nan →
        Slider.posValue fe c (m.x + c.slider.mDragOffset) ≠ Flt.nan →
        Slider.InRange (Slider.HandleMouse fe c m).1.slider ∧
        (Slider.HandleMouse fe c m).1.slider.mMin = c.slider.mMin ∧
        (Slider.HandleMouse fe c m).1.slider.mMax = c.slider.mMax)) := by
  refine ⟨fun h hv => ⟨Math_Clamp_mem val min max h hv, rfl, rfl⟩, fun hb hin =>
    ⟨fun v hv => ?_, fun iPos hp => ?_, fun m hp hd => ?_⟩⟩
  · exact Slider_SetValue_InRange fe c v hb hv
  · rw [Slider_SetValueFromPos_eq]
    exact Slider_SetValue_InRange fe c _ hb hp
  · exact Slider_HandleMouse_InRange fe c m hb hin hp hd

/-- Witness for C24 (amended): a slider over 0 to 10 constructed with the
value 25 holds 10, and a press at (60, 45) on the track of the sample slider
leaves a value between 0 and 10. -/
theorem Slider_value_stays_in_range_witness :
    ((Flt.num 0 : Flt Int) ≤ Flt.num 10 ∧
      (Slider.init (sampleSlider 3).slider 7 10 40 100 12 (Flt.num 0) (Flt.num 10)
        (Flt.num 25) "v").mVal = Flt.num 10 ∧
      Slider.InRange
        (Slider.init (sampleSlider 3).slider 7 10 40 100 12 (Flt.num 0) (Flt.num 10)
          (Flt.num 25) "v")) ∧
    ((sampleSlider 3).slider.mMin ≤ (sampleSlider 3).slider.mMax ∧
      Slider.InRange (sampleSlider 3).slider ∧
      (∀ iPos, Slider.posValue sampleFloatEnv (sampleSlider 3) iPos ≠ Flt.nan) ∧
      Slider.InRange (Slider.HandleMouse sampleFloatEnv (sampleSlider 3)
        (sampleMouse 60 45 MouseAction.LButtonDown)).1.slider) := by
  have hb : (sampleSlider 3).slider.mMin ≤ (sampleSlider 3).slider.mMax := by decide
  have hin : Slider.InRange (sampleSlider 3).slider := by
    unfold Slider.InRange
    decide
  have hpos : ∀ iPos, Slider.posValue sampleFloatEnv (sampleSlider 3) iPos ≠ Flt.nan := by
    intro iPos
    have hc := Math_Clamp_num_ne_nan (iPos - 16) (Flt.num (0 : Int)) (Flt.num 1)
    show sampleFloatEnv.Lerp (Flt.num 0) (Flt.num 10)
      (Math.Clamp (Flt.num (iPos - 16)) (Flt.num 0) (Flt.num 1)) ≠ Flt.nan
    cases hq : Math.Clamp (Flt.num (iPos - 16)) (Flt.num (0 : Int)) (Flt.num 1) with
    | nan => exact absurd hq hc
    | num y => exact fun h => Flt.noConfusion h
  have h := Slider_value_stays_in_range sampleFloatEnv (sampleSlider 3).slider 7 10 40 100 12
    (Flt.num 0) (Flt.num 10) (Flt.num 25) "v" (sampleSlider 3)
  exact ⟨⟨by decide, by decide, (h.1 (by decide) (by decide)).1⟩, hb, hin, hpos,
    ((h.2 hb hin).2.2 (sampleMouse 60 45 MouseAction.LButtonDown) (hpos _) (hpos _)).1⟩

/-! ## Retained Button -/

theorem Button_HandleMouse_triggered (c : ButtonCtx) (m : MouseEventArgs) :
    (Button.HandleMouse c m).1.triggered
      = c.triggered +
        (if m.Action = MouseAction.LButtonUp ∧
            PtInRect c.button.mBBox { x := m.x, y := m.y } = true ∧ c.button.mbDown = true
          then 1 else 0) := by
  by_cases hup : m.Action = MouseAction.LButtonUp
  · unfold Button.HandleMouse
    rw [hup]
    dsimp only
    by_cases h : PtInRect c.button.mBBox { x := m.x, y := m.y } = true ∧ c.button.mbDown = true
    · rw [if_pos h, if_pos ⟨rfl, h⟩]
      rfl
    · rw [if_neg h, if_neg (fun hc => h hc.2)]
      rfl
  · have hn : ¬ (m.Action = MouseAction.LButtonUp ∧
        PtInRect c.button.mBBox { x := m.x, y := m.y } = true ∧ c.button.mbDown = true) :=
      fun h => hup h.1
    rw [if_neg hn, Nat.add_zero]
    unfold Button.HandleMouse
    dsimp only
    cases hA : m.Action with
    | None => rfl
    | Move =>
      dsimp only
      split_ifs <;> rfl
    | LButtonDown =>
      dsimp only
      split_ifs <;> rfl
    | LButtonUp => exact absurd hA hup
    | LButtonDbClick => rfl

theorem Button_HandleMouse_mBBox (c : ButtonCtx) (m : MouseEventArgs) :
    (Button.HandleMouse c m).1.button.mBBox = c.button.mBBox := by
  unfold Button.HandleMouse
  dsimp only
  cases m.Action with
  | None => rfl
  | Move =>
    dsimp only
    split_ifs <;> rfl
  | LButtonDown =>
    dsimp only
    split_ifs <;> rfl
  | LButtonUp =>
    dsimp only
    split_ifs <;> rfl
  | LButtonDbClick => rfl

theorem Button_press_inside (c : ButtonCtx) (m : MouseEventArgs)
    (ha : m.Action = MouseAction.LButtonDown)
    (hin : PtInRect c.button.mBBox { x := m.x, y := m.y } = true) :
    (Button.HandleMouse c m).1
      = { c with button := { c.button with mbDown := true, mPressed := true } } := by
  unfold Button.HandleMouse
  rw [ha]
  dsimp only
  rw [if_pos hin]

theorem Button_move (c : ButtonCtx) (m : MouseEventArgs) (ha : m.Action = MouseAction.Move)
    (hp : c.button.mPressed = true) :
    (Button.HandleMouse c m).1
      = { c with
          button :=
            { c.button with mbDown := PtInRect c.button.mBBox { x := m.x, y := m.y } } } := by
  unfold Button.HandleMouse
  rw [ha]
  dsimp only
  cases hin : PtInRect c.button.mBBox { x := m.x, y := m.y }
  · rw [if_neg Bool.false_ne_true, if_pos hp]
  · rw [if_pos rfl, if_pos hp]

/-- C25: `Button::HandleMouse` calls `Trigger` exactly when the action is
LButtonUp, the pointer is inside the bounding box and `mbDown` is set on entry;
every call keeps `mbDown` implying `mPressed`; press inside, Move outside,
release outside does not trigger, and press inside, Move outside, Move back
inside, release inside triggers exactly once. -/
theorem Button_HandleMouse_triggers_iff (c : ButtonCtx) (m down out back up : MouseEventArgs) :
    ((Button.HandleMouse c m).1.triggered
      = c.triggered +
        (if m.Action = MouseAction.LButtonUp ∧
            PtInRect c.button.mBBox { x := m.x, y := m.y } = true ∧ c.button.mbDown = true
          then 1 else 0)) ∧
    ((c.button.mbDown = true → c.button.mPressed = true) →
      (Button.HandleMouse c m).1.button.mbDown = true →
      (Button.HandleMouse c m).1.button.mPressed = true) ∧
    (down.Action = MouseAction.LButtonDown →
      PtInRect c.button.mBBox { x := down.x, y := down.y } = true →
      out.Action = MouseAction.Move →
      PtInRect c.button.mBBox { x := out.x, y := out.y } = false →
      (up.Action = MouseAction.LButtonUp →
        PtInRect c.button.mBBox { x := up.x, y := up.y } = false →
        (Button.events c [down]).triggered = c.triggered ∧
        (Button.events c [down, out]).triggered = c.triggered ∧
        (Button.events c [down, out, up]).triggered = c.triggered) ∧
      (back.Action = MouseAction.Move →
        PtInRect c.button.mBBox { x := back.x, y := back.y } = true →
        up.Action = MouseAction.LButtonUp →
        PtInRect c.button.mBBox { x := up.x, y := up.y } = true →
        (Button.events c [down, out, back]).triggered = c.triggered ∧
        (Button.events c [down, out, back, up]).triggered = c.triggered + 1)) := by
  refine ⟨Button_HandleMouse_triggered c m, ?_, ?_⟩
  · intro hinv
    unfold Button.HandleMouse
    dsimp only
    cases m.Action with
    | None => exact hinv
    | Move =>
      dsimp only
      cases hq : PtInRect c.button.mBBox { x := m.x, y := m.y } <;>
        cases hp : c.button.mPressed <;> simp [hp] <;>
        cases hd : c.button.mbDown <;> first | rfl | exact absurd (hinv hd) (by rw [hp]; decide)
    | LButtonDown =>
      dsimp only
      split_ifs
      · exact fun _ => rfl
      · exact hinv
    | LButtonUp => exact fun h => absurd h Bool.false_ne_true
    | LButtonDbClick => exact hinv
  · intro hd hdin ho hoout
    have h1 := Button_press_inside c down hd hdin
    have h2 : (Button.HandleMouse (Button.HandleMouse c down).1 out).1
        = { c with button := { c.button with mbDown := false, mPressed := true } } := by
      rw [h1, Button_move _ out ho rfl]
      show _ = ({ c with button := { c.button with mbDown := false, mPressed := true } }
        : ButtonCtx)
      have : PtInRect c.button.mBBox { x := out.x, y := out.y } = false := hoout
      simp only [this]
    have ht1 : (Button.events c [down]).triggered = c.triggered := by
      show (Button.HandleMouse c down).1.triggered = _
      rw [h1]
    have ht2 : (Button.events c [down, out]).triggered = c.triggered := by
      show (Button.HandleMouse (Button.HandleMouse c down).1 out).1.triggered = _
      rw [h2]
    refine ⟨fun hu huout => ⟨ht1, ht2, ?_⟩, fun hb hbin hu huin => ?_⟩
    · show (Button.HandleMouse (Button.HandleMouse (Button.HandleMouse c down).1 out).1
        up).1.triggered = _
      rw [h2, Button_HandleMouse_triggered]
      have : PtInRect c.button.mBBox { x := up.x, y := up.y } = false := huout
      simp [this]
    · have h3 : (Button.HandleMouse
          (Button.HandleMouse (Button.HandleMouse c down).1 out).1 back).1
          = { c with button := { c.button with mbDown := true, mPressed := true } } := by
        rw [h2, Button_move _ back hb rfl]
        have : PtInRect c.button.mBBox { x := back.x, y := back.y } = true := hbin
        simp only [this]
      constructor
      · show (Button.HandleMouse
          (Button.HandleMouse (Button.HandleMouse c down).1 out).1 back).1.triggered = _
        rw [h3]
      · show (Button.HandleMouse (Button.HandleMouse
          (Button.HandleMouse (Button.HandleMouse c down).1 out).1 back).1 up).1.triggered = _
        rw [h3, Button_HandleMouse_triggered]
        have : PtInRect c.button.mBBox { x := up.x, y := up.y } = true := huin
        simp [this, hu]

/-- Witness for C25: on the sample button at (10, 10) the gesture press at
(20, 20), Move to (300, 300), Move back to (20, 20), release at (20, 20) fires
once, and the gesture with the release at (300, 300) does not fire. -/
theorem Button_HandleMouse_triggers_iff_witness :
    PtInRect (sampleButton 1 10).button.mBBox { x := 20, y := 20 } = true ∧
    PtInRect (sampleButton 1 10).button.mBBox { x := 300, y := 300 } = false ∧
    (Button.events (sampleButton 1 10)
      [sampleMouse 20 20 MouseAction.LButtonDown, sampleMouse 300 300 MouseAction.Move,
        sampleMouse 20 20 MouseAction.Move, sampleMouse 20 20 MouseAction.LButtonUp]).triggered
      = (sampleButton 1 10).triggered + 1 ∧
    (Button.events (sampleButton 1 10)
      [sampleMouse 20 20 MouseAction.LButtonDown, sampleMouse 300 300 MouseAction.Move,
        sampleMouse 300 300 MouseAction.LButtonUp]).triggered
      = (sampleButton 1 10).triggered :=
  have hin : PtInRect (sampleButton 1 10).button.mBBox { x := 20, y := 20 } = true := by decide
  have hout : PtInRect (sampleButton 1 10).button.mBBox { x := 300, y := 300 } = false := by
    decide
  ⟨hin, hout,
    (((Button_HandleMouse_triggers_iff (sampleButton 1 10)
      (sampleMouse 0 0 MouseAction.None) (sampleMouse 20 20 MouseAction.LButtonDown)
      (sampleMouse 300 300 MouseAction.Move) (sampleMouse 20 20 MouseAction.Move)
      (sampleMouse 20 20 MouseAction.LButtonUp)).2.2 rfl hin rfl hout).2 rfl hin rfl hin).2,
    (((Button_HandleMouse_triggers_iff (sampleButton 1 10)
      (sampleMouse 0 0 MouseAction.None) (sampleMouse 20 20 MouseAction.LButtonDown)
      (sampleMouse 300 300 MouseAction.Move) (sampleMouse 20 20 MouseAction.Move)
      (sampleMouse 300 300 MouseAction.LButtonUp)).2.2 rfl hin rfl hout).1 rfl hout).2.2⟩

/-! ## Retained ComboBox: rows of the dropdown -/

/-- C28 fails on the code. The sample combo box (three items, rows of height
20, rects from `UpdateRect`) is opened by a press at (20, 105) on its main
rect; its bounding box is then the dropdown rect (10, 118) to (142, 179), one
pixel row more than the three rows cover. A press at (20, 178) lies inside it
and selects row 3, so the read of `mpItems[3]` is past the item array; a Move
to the same point sets `mHoveredIdx` to 3. -/
theorem ComboBox_HandleMouse_row_past_last :
    ((ComboBox.HandleMouse 20 sampleComboBox (sampleMouse 20 105 MouseAction.LButtonDown)).map
      (fun r => (r.1.comboBox.mOpened, r.1.comboBox.mBBox, r.1.comboBox.mNumItems,
        r.1.comboBox.mpItems.length, r.2))
      = some (true, SetRect 10 118 142 179, 3, 3, true)) ∧
    ((ComboBox.HandleMouse 20 sampleComboBox (sampleMouse 20 105 MouseAction.LButtonDown)).map
      (fun r => (PtInRect r.1.comboBox.mBBox { x := 20, y := 178 },
        ComboBox.rowAt 20 r.1.comboBox { x := 20, y := 178 }))
      = some (true, 3)) ∧
    ((ComboBox.HandleMouse 20 sampleComboBox (sampleMouse 20 105 MouseAction.LButtonDown)).bind
      (fun r => ComboBox.HandleMouse 20 r.1 (sampleMouse 20 178 MouseAction.LButtonDown))
      = none) ∧
    (((ComboBox.HandleMouse 20 sampleComboBox (sampleMouse 20 105 MouseAction.LButtonDown)).bind
      (fun r => ComboBox.HandleMouse 20 r.1 (sampleMouse 20 178 MouseAction.Move))).map
      (fun r => r.1.comboBox.mHoveredIdx)
      = some 3) := by
  decide

end GUI
end EDX
